import Mathlib

/-!
Verification of the ray-tracing core of tinyraytracing (`src/code.c++`).

The code is embedded twice.

The exact embedding takes the formulas of the code over an arbitrary linearly ordered
field `F`, so every definition is computable once `F` is (for instance `ℚ`). The libm
functions `sqrtf`, `powf` and `tan` and the macro `M_PI` are parameters of the
definitions that use them; theorems that depend on what a square root is assume
`IsSqrt sqrtf`, and the theorem on non-negative colours assumes `powf` non-negative on a
non-negative base. It has no rounding, no infinities and no NaN; in particular
`Vec3.normalize` of the zero vector is the zero vector there (in a field `1 / 0 = 0`),
where the C++ code yields NaN components.

The binary32 embedding (`Flt`, `F32`, `F64`, and the definitions whose names end in
`32`) computes as the C++ `float` and `double` do: every operation is the exact operation
followed by rounding to nearest, ties to even, with signed zeros, infinities and NaN. It
is evaluated by the kernel at concrete inputs, and statements about the control flow and
the signs of the computed values are proved of it for all inputs. `powf` is a parameter
there too.

Statements about comparisons and control flow hold of both embeddings; statements of
exact geometry (a point lies on a sphere, a vector has length 1) hold of the exact
embedding and, of binary32, up to rounding only.

Out-parameters of the C++ functions become components of the returned value. The
`size_t depth` of `cast_ray` is a natural number: the guard `depth > 4` returns before
`depth + 1` could wrap.
-/

namespace TinyRayTracing

/-! ## Vectors (header `geometry.h`) -/

/-- Modelled from the spec: the 3-component vector `Vec3f` of the absent header
`geometry.h` ("3-component floating-point vectors with dot product, subtraction,
scalar multiply, normalization"). -/
structure Vec3 (F : Type) where
  x : F
  y : F
  z : F

/-- Modelled from the spec: the 4-component vector `Vec4f` of the absent header
`geometry.h`, used for the albedo, with indexed component access `a[0]` .. `a[3]`. -/
structure Vec4 (F : Type) where
  a0 : F
  a1 : F
  a2 : F
  a3 : F

section Defs

variable {F : Type} [LinearOrderedField F]

/-- Modelled from the spec: the default constructor `Vec3f()` of `geometry.h`, the zero
vector. -/
instance : Zero (Vec3 F) := ⟨⟨0, 0, 0⟩⟩

/-- Modelled from the spec: `operator+` on `Vec3f` of `geometry.h`, componentwise. -/
instance : Add (Vec3 F) := ⟨fun a b => ⟨a.x + b.x, a.y + b.y, a.z + b.z⟩⟩

/-- Modelled from the spec: binary `operator-` on `Vec3f` of `geometry.h`, componentwise. -/
instance : Sub (Vec3 F) := ⟨fun a b => ⟨a.x - b.x, a.y - b.y, a.z - b.z⟩⟩

/-- Modelled from the spec: unary `operator-` on `Vec3f` of `geometry.h`. -/
instance : Neg (Vec3 F) := ⟨fun a => ⟨-a.x, -a.y, -a.z⟩⟩

/-- Modelled from the spec: `operator*(Vec3f, float)` of `geometry.h`, the scalar
multiple. -/
def Vec3.mul (a : Vec3 F) (k : F) : Vec3 F := ⟨a.x * k, a.y * k, a.z * k⟩

/-- Modelled from the spec: `operator*(Vec3f, Vec3f)` of `geometry.h`, the dot product. -/
def Vec3.dot (a b : Vec3 F) : F := a.x * b.x + a.y * b.y + a.z * b.z

/-- Modelled from the spec: `Vec3f::norm()` of `geometry.h`, the magnitude
`sqrt(x*x + y*y + z*z)`. -/
def Vec3.norm (sqrtf : F → F) (a : Vec3 F) : F := sqrtf (a.x * a.x + a.y * a.y + a.z * a.z)

/-- Modelled from the spec: `Vec3f::normalize()` of `geometry.h`, the vector scaled by
`1 / norm()`. -/
def Vec3.normalize (sqrtf : F → F) (a : Vec3 F) : Vec3 F := a.mul (1 / a.norm sqrtf)

/-- What the theorems assume of `sqrtf`: on non-negative arguments it is the
non-negative square root. -/
structure IsSqrt (sqrtf : F → F) : Prop where
  nonneg : ∀ x, 0 ≤ x → 0 ≤ sqrtf x
  mul_self : ∀ x, 0 ≤ x → sqrtf x * sqrtf x = x

/-- `std::numeric_limits<float>::max()`, that is `(2 - 2^(-23)) * 2^127`. -/
def FLT_MAX : F := 340282346638528859811704183484516925440

/-! ## Data model -/

/-- `struct Light`. -/
structure Light (F : Type) where
  position : Vec3 F
  intensity : F

/-- `struct Material`. -/
structure Material (F : Type) where
  refractive_index : F
  albedo : Vec4 F
  diffuse_color : Vec3 F
  specular_exponent : F

/-- The default constructor `Material()`:
`refractive_index(1), albedo(1,0,0,0), diffuse_color(), specular_exponent()`. -/
def Material.default : Material F := ⟨1, ⟨1, 0, 0, 0⟩, 0, 0⟩

/-- `struct Sphere`. -/
structure Sphere (F : Type) where
  center : Vec3 F
  radius : F
  material : Material F

/-! ## Ray / sphere intersection -/

/-- `Sphere::ray_intersect`: `none` is `return false`, `some t` is `return true` with
the out-parameter `intersection_point` set to `t`. -/
def Sphere.ray_intersect (sqrtf : F → F) (s : Sphere F) (orig dir : Vec3 F) : Option F :=
  let L := s.center - orig
  let dist_bw_pc_p := L.dot dir
  let dist_bw_c_pc := L.dot L - dist_bw_pc_p * dist_bw_pc_p
  if dist_bw_c_pc > s.radius * s.radius then none
  else
    let dist_bw_pc_i1 := sqrtf (s.radius * s.radius - dist_bw_c_pc)
    let intersection_point := dist_bw_pc_p - dist_bw_pc_i1
    let t1 := dist_bw_pc_p + dist_bw_pc_i1
    let intersection_point := if intersection_point < 0 then t1 else intersection_point
    if intersection_point < 0 then none else some intersection_point

/-! ## Reflection and refraction -/

/-- `reflect`: `I - N*2.f*(I*N)`. -/
def reflect (I N : Vec3 F) : Vec3 F := I - (N.mul 2).mul (I.dot N)

/-- Lines 108-110 of `refract`, after the optional swap of the indices and the flip of
the normal. -/
def refract_tail (sqrtf : F → F) (I n : Vec3 F) (cosi r_of_air r_of_medium : F) : Vec3 F :=
  let ratio := r_of_air / r_of_medium
  let k := 1 - ratio * ratio * (1 - cosi * cosi)
  if k < 0 then ⟨0, 0, 0⟩ else I.mul ratio + n.mul (ratio * cosi - sqrtf k)

/-- `refract` (Snell's law). -/
def refract (sqrtf : F → F) (I N : Vec3 F) (refractive_index : F) : Vec3 F :=
  let cosi := -max (-1) (min 1 (I.dot N))
  if cosi < 0 then refract_tail sqrtf I (-N) (-cosi) refractive_index 1
  else refract_tail sqrtf I N cosi 1 refractive_index

/-! ## Scene query -/

/-- The C++ conversion `int(v)` of a floating-point value: truncation toward zero. -/
def toInt [FloorRing F] (v : F) : Int := if 0 ≤ v then ⌊v⌋ else ⌈v⌉

/-- The tile colour of line 168:
`(int(.5*hit.x+1000) + int(.5*hit.z)) & 1 ? Vec3f(1,1,1) : Vec3f(0,0,0)`;
`n & 1` is the parity bit of the two's complement `int`, `n % 2`. -/
def tile_color [FloorRing F] (hit : Vec3 F) : Vec3 F :=
  if (toInt (0.5 * hit.x + 1000) + toInt (0.5 * hit.z)) % 2 ≠ 0 then ⟨1, 1, 1⟩ else ⟨0, 0, 0⟩

/-- The variables the sphere loop of `scene_intersect` updates: the local `spheres_dist`
and the out-parameters `hit`, `N`, `material`. -/
structure ScanState (F : Type) where
  spheres_dist : F
  hit : Vec3 F
  N : Vec3 F
  material : Material F

/-- One iteration of the sphere loop of `scene_intersect` (lines 119-135). -/
def sphere_step (sqrtf : F → F) (orig dir : Vec3 F) (st : ScanState F) (s : Sphere F) :
    ScanState F :=
  match s.ray_intersect sqrtf orig dir with
  | some dist_i =>
    if dist_i < st.spheres_dist then
      let hit := orig + dir.mul dist_i
      ⟨dist_i, hit, (hit - s.center).normalize sqrtf, s.material⟩
    else st
  | none => st

/-- The sphere loop of `scene_intersect` (lines 116-136), started with the values the
caller passed in for the out-parameters. -/
def scan_spheres (sqrtf : F → F) (orig dir : Vec3 F) (spheres : List (Sphere F))
    (hit N : Vec3 F) (material : Material F) : ScanState F :=
  spheres.foldl (sphere_step sqrtf orig dir) ⟨FLT_MAX, hit, N, material⟩

/-- What `scene_intersect` hands back: the returned `bool` and the final values of the
out-parameters `hit`, `N`, `material`. -/
structure SceneHit (F : Type) where
  ret : Bool
  hit : Vec3 F
  N : Vec3 F
  material : Material F

/-- `scene_intersect`. The arguments `hit`, `N`, `material` are the values of the
reference parameters on entry. -/
def scene_intersect [FloorRing F] (sqrtf : F → F) (orig dir : Vec3 F)
    (spheres : List (Sphere F)) (hit N : Vec3 F) (material : Material F) : SceneHit F :=
  let st := scan_spheres sqrtf orig dir spheres hit N material
  let checkerboard_dist : F := FLT_MAX
  if |dir.y| > 1e-3 then
    let d := -(orig.y + 4) / dir.y
    let pt := orig + dir.mul d
    if d > 0 ∧ |pt.x| < 10 ∧ pt.z < -10 ∧ pt.z > -30 ∧ d < st.spheres_dist then
      ⟨decide (min st.spheres_dist d < 1000), pt, ⟨0, 1, 0⟩,
        { st.material with diffuse_color := tile_color pt }⟩
    else ⟨decide (min st.spheres_dist checkerboard_dist < 1000), st.hit, st.N, st.material⟩
  else ⟨decide (min st.spheres_dist checkerboard_dist < 1000), st.hit, st.N, st.material⟩

/-- The distances at which the spheres of the list are intersected, in list order: the
values `dist_i` of the calls of `ray_intersect` that return true. -/
def sphere_dists (sqrtf : F → F) (orig dir : Vec3 F) (spheres : List (Sphere F)) : List F :=
  spheres.filterMap (fun s => s.ray_intersect sqrtf orig dir)

/-- The plane test of lines 154-164 without its last conjunct `d < spheres_dist`: the
distance `d` to the plane `y = -4` when the ray is not nearly parallel to it, `d > 0`
and the point lies in the window `|x| < 10`, `-30 < z < -10`. -/
def plane_visible (orig dir : Vec3 F) : Option F :=
  if |dir.y| > 1e-3 then
    let d := -(orig.y + 4) / dir.y
    let pt := orig + dir.mul d
    if d > 0 ∧ |pt.x| < 10 ∧ pt.z < -10 ∧ pt.z > -30 then some d else none
  else none

/-- The nearest-hit distance in the words of the specification: the minimum of all the
spheres' intersection distances and of the plane's distance when the plane is visible
along the ray; `⊤` (infinite) when there is no candidate. -/
def nearest_dist (sqrtf : F → F) (orig dir : Vec3 F) (spheres : List (Sphere F)) : WithTop F :=
  (sphere_dists sqrtf orig dir spheres ++ (plane_visible orig dir).toList).minimum

/-- The whole plane test of lines 154-164, its last conjunct `d < spheres_dist` included:
the distance `d` when the test accepts the plane. -/
def plane_accepted (orig dir : Vec3 F) (spheres_dist : F) : Option F :=
  if |dir.y| > 1e-3 then
    let d := -(orig.y + 4) / dir.y
    let pt := orig + dir.mul d
    if d > 0 ∧ |pt.x| < 10 ∧ pt.z < -10 ∧ pt.z > -30 ∧ d < spheres_dist then some d else none
  else none

/-- The background colour `Vec3f{0.2, 0.7, 0.8}` of line 188. -/
def background : Vec3 F := ⟨0.2, 0.7, 0.8⟩

/-- The test of line 231 that makes the light loop `continue`: the shadow probe hits
something nearer than the light. -/
def occluded [FloorRing F] (sqrtf : F → F) (spheres : List (Sphere F)) (hit N : Vec3 F)
    (l : Light F) : Bool :=
  let light_dir := (l.position - hit).normalize sqrtf
  let light_distance := (l.position - hit).norm sqrtf
  let shadow_orig := if light_dir.dot N < 0 then hit - N.mul 1e-1 else hit + N.mul 1e-2
  let shadow := scene_intersect sqrtf shadow_orig light_dir spheres 0 0 Material.default
  shadow.ret && decide ((shadow.hit - shadow_orig).norm sqrtf < light_distance)

/-- One iteration of the light loop of `cast_ray` (lines 203-253) on the pair
`(diffuse_light_intensity, specular_light_intensity)`. -/
def light_step [FloorRing F] (sqrtf : F → F) (powf : F → F → F) (spheres : List (Sphere F))
    (dir hit N : Vec3 F) (material : Material F) (acc : F × F) (l : Light F) : F × F :=
  let light_dir := (l.position - hit).normalize sqrtf
  if occluded sqrtf spheres hit N l then acc
  else
    (acc.1 + l.intensity * max 0 (light_dir.dot N),
     acc.2 + powf (max 0 ((-reflect (-light_dir) N).dot dir)) material.specular_exponent
       * l.intensity)

/-- `cast_ray`. The recursion is on `depth`, which the guard of line 187 bounds by 4. -/
def cast_ray [FloorRing F] (sqrtf : F → F) (powf : F → F → F) (orig dir : Vec3 F)
    (spheres : List (Sphere F)) (lights : List (Light F)) (depth : Nat) : Vec3 F :=
  if _hdepth : depth > 4 then background
  else
    let q := scene_intersect sqrtf orig dir spheres 0 0 Material.default
    if !q.ret then background
    else
      let hit := q.hit
      let N := q.N
      let material := q.material
      let reflect_dir := reflect dir N
      let refract_dir := (refract sqrtf dir N material.refractive_index).normalize sqrtf
      let reflect_orig := if reflect_dir.dot N < 0 then hit - N.mul 1e-3 else hit + N.mul 1e-3
      let refract_orig := if refract_dir.dot N < 0 then hit - N.mul 1e-3 else hit + N.mul 1e-3
      let reflect_color := cast_ray sqrtf powf reflect_orig reflect_dir spheres lights (depth + 1)
      let refract_color := cast_ray sqrtf powf refract_orig refract_dir spheres lights (depth + 1)
      let acc := lights.foldl (light_step sqrtf powf spheres dir hit N material) (0, 0)
      let diffuse_light_intensity := acc.1
      let specular_light_intensity := acc.2
      ((material.diffuse_color.mul diffuse_light_intensity).mul material.albedo.a0
          + ((⟨1, 1, 1⟩ : Vec3 F).mul specular_light_intensity).mul material.albedo.a1
          + reflect_color.mul material.albedo.a2)
        + refract_color.mul material.albedo.a3
termination_by 5 - depth
decreasing_by all_goals omega

/-- The diffuse intensity in the words of the specification: the sum over the unoccluded
lights of `intensity * max(0, light_dir.N)`. -/
def diffuse_sum [FloorRing F] (sqrtf : F → F) (spheres : List (Sphere F)) (hit N : Vec3 F)
    (lights : List (Light F)) : F :=
  ((lights.filter (fun l => !occluded sqrtf spheres hit N l)).map
    (fun l => l.intensity * max 0 (((l.position - hit).normalize sqrtf).dot N))).sum

/-- The specular intensity in the words of the specification: the sum over the unoccluded
lights of `intensity * max(0, -reflect(-light_dir, N).dir)^specular_exponent`. -/
def specular_sum [FloorRing F] (sqrtf : F → F) (powf : F → F → F) (spheres : List (Sphere F))
    (dir hit N : Vec3 F) (specular_exponent : F) (lights : List (Light F)) : F :=
  ((lights.filter (fun l => !occluded sqrtf spheres hit N l)).map
    (fun l => l.intensity *
      powf (max 0 (-((reflect (-((l.position - hit).normalize sqrtf)) N).dot dir)))
        specular_exponent)).sum

/-! ## Materials of `main` -/

/-- The material `glass` of `main` (line 323). -/
def glass : Material F := ⟨1.5, ⟨0.0, 0.5, 0.1, 0.8⟩, ⟨0.6, 0.7, 0.8⟩, 1255⟩

/-- The material `mirror` of `main` (line 325). -/
def mirror : Material F := ⟨1.0, ⟨0.0, 10.0, 0.8, 0.0⟩, ⟨1.0, 1.0, 1.0⟩, 1425⟩

/-! ## Concrete scenes used to evaluate the code -/

/-- A light 20 units above the point `(0,-4,-20)`, straight behind `near_occluder`. -/
def near_light : Light F := ⟨⟨0, 16, -20⟩, 1⟩

/-- The sphere of radius 2 centred at the origin. -/
def origin_sphere (m : Material F) : Sphere F := ⟨⟨0, 0, 0⟩, 2, m⟩

/-- A glass sphere of radius 1 under the checkerboard plane, below the point
`(0,-4,-20)`. -/
def sunk_glass_sphere : Sphere F := ⟨⟨0, -10, -20⟩, 1, glass⟩

/-- The constant of line 266 of `render`, `const int fov = M_PI/3;`: the quotient is
converted to `int`. The macro `M_PI` of `<cmath>` is a parameter. -/
def fov [FloorRing F] (M_PI : F) : Int := toInt (M_PI / 3)

/-- The direction `Vec3f(dir_x, dir_y, dir_z)` of lines 295-297 of `render` for the pixel
`(i, j)`, before normalisation; `tanf` stands for `tan`. -/
def primary_dir [FloorRing F] (tanf : F → F) (M_PI : F) (i j : Nat) : Vec3 F :=
  let width : Int := 1024
  let height : Int := 768
  let dir_x : F := ((i : F) + 0.5) - (width : F) / 2
  let dir_y : F := -((j : F) + 0.5) + (height : F) / 2
  let dir_z : F := -(height : F) / (2 * tanf ((fov M_PI : F) / 2))
  ⟨dir_x, dir_y, dir_z⟩

/-- The value stored in `framebuffer[i+j*width]` on line 298 of `render`. -/
def render_pixel [FloorRing F] (sqrtf : F → F) (powf : F → F → F) (tanf : F → F) (M_PI : F)
    (spheres : List (Sphere F)) (lights : List (Light F)) (i j : Nat) : Vec3 F :=
  cast_ray sqrtf powf ⟨0, 0, 0⟩ ((primary_dir tanf M_PI i j).normalize sqrtf) spheres lights 0

/-- The material `glass` of `main` with its fourth albedo weight replaced by `a3`. -/
def glass_with (a3 : F) : Material F := ⟨1.5, ⟨0.0, 0.5, 0.1, a3⟩, ⟨0.6, 0.7, 0.8⟩, 1255⟩

/-! ## Counting the evaluations of `cast_ray` -/

/-- The number of evaluations of `cast_ray` that one call causes, itself included: the
recursion of `cast_ray` (lines 187-199) with the colour replaced by the count. The
lights do not influence which calls are made. -/
def cast_ray_calls [FloorRing F] (sqrtf : F → F) (orig dir : Vec3 F)
    (spheres : List (Sphere F)) (depth : Nat) : Nat :=
  if _hdepth : depth > 4 then 1
  else
    let q := scene_intersect sqrtf orig dir spheres 0 0 Material.default
    if !q.ret then 1
    else
      let hit := q.hit
      let N := q.N
      let material := q.material
      let reflect_dir := reflect dir N
      let refract_dir := (refract sqrtf dir N material.refractive_index).normalize sqrtf
      let reflect_orig := if reflect_dir.dot N < 0 then hit - N.mul 1e-3 else hit + N.mul 1e-3
      let refract_orig := if refract_dir.dot N < 0 then hit - N.mul 1e-3 else hit + N.mul 1e-3
      1 + cast_ray_calls sqrtf reflect_orig reflect_dir spheres (depth + 1)
        + cast_ray_calls sqrtf refract_orig refract_dir spheres (depth + 1)
termination_by 5 - depth
decreasing_by all_goals omega

/-- The number of evaluations of `cast_ray` caused by one call, itself included, that get
past the depth guard of line 187 and query the scene. -/
def cast_ray_queries [FloorRing F] (sqrtf : F → F) (orig dir : Vec3 F)
    (spheres : List (Sphere F)) (depth : Nat) : Nat :=
  if _hdepth : depth > 4 then 0
  else
    let q := scene_intersect sqrtf orig dir spheres 0 0 Material.default
    if !q.ret then 1
    else
      let hit := q.hit
      let N := q.N
      let material := q.material
      let reflect_dir := reflect dir N
      let refract_dir := (refract sqrtf dir N material.refractive_index).normalize sqrtf
      let reflect_orig := if reflect_dir.dot N < 0 then hit - N.mul 1e-3 else hit + N.mul 1e-3
      let refract_orig := if refract_dir.dot N < 0 then hit - N.mul 1e-3 else hit + N.mul 1e-3
      1 + cast_ray_queries sqrtf reflect_orig reflect_dir spheres (depth + 1)
        + cast_ray_queries sqrtf refract_orig refract_dir spheres (depth + 1)
termination_by 5 - depth
decreasing_by all_goals omega

/-- A sphere of radius `r` centred at the origin, of the default material (refractive
index 1). -/
def nested_sphere (r : F) : Sphere F := ⟨⟨0, 0, 0⟩, r, Material.default⟩

/-- Five concentric spheres of radii 2, 3, 4, 5, 6 around the origin. -/
def nested_spheres : List (Sphere F) :=
  [nested_sphere 2, nested_sphere 3, nested_sphere 4, nested_sphere 5, nested_sphere 6]

/-! ## Non-negative colours -/

/-- Every channel of the colour is `≥ 0`. -/
def Vec3.Nonneg (v : Vec3 F) : Prop := 0 ≤ v.x ∧ 0 ≤ v.y ∧ 0 ≤ v.z

/-- The material has non-negative albedo components and non-negative diffuse colour
channels. -/
def Material.Nonneg (m : Material F) : Prop :=
  0 ≤ m.albedo.a0 ∧ 0 ≤ m.albedo.a1 ∧ 0 ≤ m.albedo.a2 ∧ 0 ≤ m.albedo.a3 ∧
    m.diffuse_color.Nonneg

/-- A material with all four albedo weights positive: the albedo `(0.6, 0.3, 0.1, 0.8)`,
the refractive index 1.5, the diffuse colour `(0.4, 0.8, 0.5)` and the specular
exponent 50. -/
def tinted_glass : Material F := ⟨1.5, ⟨0.6, 0.3, 0.1, 0.8⟩, ⟨0.4, 0.8, 0.5⟩, 50⟩

/-- A light of intensity 1.5 on the `z` axis at `z = -18`, in front of `origin_sphere`. -/
def front_light : Light F := ⟨⟨0, 0, -18⟩, 1.5⟩

end Defs

/-! ## Binary floating point

The arithmetic of the C++ `float` (IEEE 754 binary32) and `double` (binary64), with
rounding to nearest, ties to even, signed zeros, infinities and NaN. Every operation is
the exact operation on the values followed by one rounding; no operation is fused. -/

/-- A binary floating-point datum: NaN, a signed infinity, a signed zero, or the non-zero
finite value `(-1)^neg * m * 2^e`. -/
inductive Flt where
  | nan
  | inf (neg : Bool)
  | zero (neg : Bool)
  | fin (neg : Bool) (m : Nat) (e : Int)
deriving DecidableEq

/-- A binary interchange format: the precision in bits, and the exponents of the least
significant bit of the smallest subnormal and of the largest finite value. -/
structure Format where
  prec : Nat
  emin : Int
  emax : Int

/-- IEEE 754 binary32, the C++ `float`. -/
def binary32 : Format := ⟨24, -149, 104⟩

/-- IEEE 754 binary64, the C++ `double`. -/
def binary64 : Format := ⟨53, -1074, 971⟩

/-- The number of binary digits of `n`, with `fuel` bounding the recursion. -/
def bitLenAux : Nat → Nat → Nat
  | 0, _ => 0
  | fuel + 1, n => if n = 0 then 0 else bitLenAux fuel (n / 2) + 1

/-- The number of binary digits of `n`: `0` for `0`, else `⌊log2 n⌋ + 1`. -/
def bitLen (n : Nat) : Nat := bitLenAux n n

/-- The exponent of the leading bit of `n / d`, that is `⌊log2 (n / d)⌋`, for `n > 0` and
`d > 0`: the difference `e0` of the bit lengths when `n / d ≥ 2^e0`, else `e0 - 1`. -/
def ratioExp (n d : Nat) : Int :=
  let e0 : Int := (bitLen n : Int) - (bitLen d : Int)
  if (if 0 ≤ e0 then d * 2 ^ e0.toNat ≤ n else d ≤ n * 2 ^ (-e0).toNat) then e0 else e0 - 1

/-- The exponent of the least significant bit of the datum of the format that holds
`n / d`: `prec - 1` below the leading bit, but not below `emin` (subnormal range). -/
def Format.quantum (f : Format) (n d : Nat) : Int :=
  max (ratioExp n d - ((f.prec : Int) - 1)) f.emin

/-- The integer nearest to `n / d / 2^e`, ties to even. -/
def nearestEven (n d : Nat) (e : Int) : Nat :=
  let num : Nat := if e < 0 then n * 2 ^ (-e).toNat else n
  let den : Nat := if e < 0 then d else d * 2 ^ e.toNat
  let q : Nat := num / den
  let r : Nat := num % den
  if den < 2 * r ∨ (2 * r = den ∧ q % 2 = 1) then q + 1 else q

/-- The datum `(-1)^neg * q * 2^e` for a rounded mantissa `q ≤ 2^prec`: zero when `q = 0`,
renormalised when `q = 2^prec`, the infinity when the exponent is above `emax`. -/
def Format.pack (f : Format) (neg : Bool) (q : Nat) (e : Int) : Flt :=
  if q = 0 then Flt.zero neg
  else if q = 2 ^ f.prec then
    (if e + 1 > f.emax then Flt.inf neg else Flt.fin neg (2 ^ (f.prec - 1)) (e + 1))
  else if e > f.emax then Flt.inf neg else Flt.fin neg q e

/-- Round to nearest, ties to even: the datum of the format nearest to `n / d` (for
`d > 0`) with the sign `neg`; overflow gives the infinity, underflow the zero. -/
def Format.round (f : Format) (neg : Bool) (n d : Nat) : Flt :=
  if n = 0 then Flt.zero neg
  else f.pack neg (nearestEven n d (f.quantum n d)) (f.quantum n d)

/-- The datum nearest to `n / d * 2^k`. -/
def Format.roundScaled (f : Format) (neg : Bool) (n d : Nat) (k : Int) : Flt :=
  if 0 ≤ k then f.round neg (n * 2 ^ k.toNat) d else f.round neg n (d * 2 ^ (-k).toNat)

namespace Flt

/-- Sign flip. -/
def neg : Flt → Flt
  | nan => nan
  | inf s => inf (!s)
  | zero s => zero (!s)
  | fin s m e => fin (!s) m e

/-- Absolute value. -/
def abs : Flt → Flt
  | nan => nan
  | inf _ => inf false
  | zero _ => zero false
  | fin _ m e => fin false m e

/-- The signed mantissa of `(-1)^s * m * 2^e` at the exponent `c ≤ e`. -/
def align (s : Bool) (m : Nat) (e c : Int) : Int :=
  if s then -((m * 2 ^ (e - c).toNat : Nat) : Int) else ((m * 2 ^ (e - c).toNat : Nat) : Int)

/-- The comparison `a < b` of the values; false when either is NaN. -/
def lt : Flt → Flt → Bool
  | nan, _ => false
  | _, nan => false
  | inf s, inf t => s && !t
  | inf s, _ => s
  | _, inf t => !t
  | zero _, zero _ => false
  | zero _, fin t _ _ => !t
  | fin s _ _, zero _ => s
  | fin s m e, fin t n k => decide (align s m e (min e k) < align t n k (min e k))

/-- The value as a rational number; `0` for NaN and the infinities. -/
def toRat : Flt → ℚ
  | fin s m e => if s then -((m : ℚ) * 2 ^ e) else (m : ℚ) * 2 ^ e
  | _ => 0

end Flt

/-- Addition in the format `f`: the exact sum, rounded. A zero operand returns the other
operand. -/
def Format.add (f : Format) : Flt → Flt → Flt
  | .nan, _ => .nan
  | _, .nan => .nan
  | .inf s, .inf t => if s = t then .inf s else .nan
  | .inf s, _ => .inf s
  | _, .inf t => .inf t
  | .zero s, .zero t => .zero (s && t)
  | .zero _, .fin t n k => .fin t n k
  | .fin s m e, .zero _ => .fin s m e
  | .fin s m e, .fin t n k =>
    let v : Int := Flt.align s m e (min e k) + Flt.align t n k (min e k)
    if v = 0 then .zero false else f.roundScaled (decide (v < 0)) v.natAbs 1 (min e k)

/-- Multiplication in the format `f`. -/
def Format.mul (f : Format) : Flt → Flt → Flt
  | .nan, _ => .nan
  | _, .nan => .nan
  | .inf s, .inf t => .inf (xor s t)
  | .inf _, .zero _ => .nan
  | .zero _, .inf _ => .nan
  | .inf s, .fin t _ _ => .inf (xor s t)
  | .fin s _ _, .inf t => .inf (xor s t)
  | .zero s, .zero t => .zero (xor s t)
  | .zero s, .fin t _ _ => .zero (xor s t)
  | .fin s _ _, .zero t => .zero (xor s t)
  | .fin s m e, .fin t n k => f.roundScaled (xor s t) (m * n) 1 (e + k)

/-- Division in the format `f`. -/
def Format.div (f : Format) : Flt → Flt → Flt
  | .nan, _ => .nan
  | _, .nan => .nan
  | .inf _, .inf _ => .nan
  | .inf s, .zero t => .inf (xor s t)
  | .inf s, .fin t _ _ => .inf (xor s t)
  | .zero s, .inf t => .zero (xor s t)
  | .fin s _ _, .inf t => .zero (xor s t)
  | .zero _, .zero _ => .nan
  | .fin s _ _, .zero t => .inf (xor s t)
  | .zero s, .fin t _ _ => .zero (xor s t)
  | .fin s m e, .fin t n k => f.roundScaled (xor s t) m n (e - k)

/-- The integer square root by bisection on the bits, `fuel` bits from the top. -/
def isqrtAux : Nat → Nat → Nat → Nat
  | 0, _, r => r
  | fuel + 1, n, r =>
    isqrtAux fuel n (if (r + 2 ^ fuel) * (r + 2 ^ fuel) ≤ n then r + 2 ^ fuel else r)

/-- The integer square root `⌊√n⌋`. -/
def isqrt (n : Nat) : Nat := isqrtAux (bitLen n / 2 + 1) n 0

/-- The correctly rounded square root in the format `f`. The mantissa is scaled by an even
power of two so that its integer root has more than `prec + 1` bits; an inexact root is
marked by a half unit, which decides the rounding as the true root would. -/
def Format.sqrt (f : Format) : Flt → Flt
  | .nan => .nan
  | .inf s => if s then .nan else .inf false
  | .zero s => .zero s
  | .fin s m e =>
    if s then .nan
    else
      let sh : Nat := 2 * (f.prec + 2) + (e % 2).toNat
      let M : Nat := m * 2 ^ sh
      let r : Nat := isqrt M
      let sticky : Nat := if r * r = M then 0 else 1
      f.roundScaled false (2 * r + sticky) 2 ((e - sh) / 2)

/-- The conversion of a datum to the format `f`: finite values are rounded. -/
def Format.cast (f : Format) : Flt → Flt
  | .fin s m e => f.roundScaled s m 1 e
  | a => a

/-- A C++ `float`: a datum with binary32 arithmetic. -/
structure F32 where
  val : Flt
deriving DecidableEq

/-- A C++ `double`: a datum with binary64 arithmetic. -/
structure F64 where
  val : Flt
deriving DecidableEq

namespace F32

instance : Add F32 := ⟨fun a b => ⟨binary32.add a.val b.val⟩⟩
instance : Sub F32 := ⟨fun a b => ⟨binary32.add a.val b.val.neg⟩⟩
instance : Mul F32 := ⟨fun a b => ⟨binary32.mul a.val b.val⟩⟩
instance : Div F32 := ⟨fun a b => ⟨binary32.div a.val b.val⟩⟩
instance : Neg F32 := ⟨fun a => ⟨a.val.neg⟩⟩
instance : LT F32 := ⟨fun a b => Flt.lt a.val b.val = true⟩
instance (a b : F32) : Decidable (a < b) := inferInstanceAs (Decidable (Flt.lt a.val b.val = true))

/-- The conversion of an integer literal to `float`. -/
instance (n : Nat) : OfNat F32 n := ⟨⟨binary32.round false n 1⟩⟩

/-- The `float` nearest to `n / d`. -/
def ofRatio (n : Int) (d : Nat) : F32 := ⟨binary32.round (decide (n < 0)) n.natAbs d⟩

/-- `sqrtf`, correctly rounded. -/
def sqrt (a : F32) : F32 := ⟨binary32.sqrt a.val⟩

/-- `fabs`. -/
def abs (a : F32) : F32 := ⟨a.val.abs⟩

/-- `std::max(a, b)`, that is `(a < b) ? b : a`. -/
def max (a b : F32) : F32 := if a < b then b else a

/-- `std::min(a, b)`, that is `(b < a) ? b : a`. -/
def min (a b : F32) : F32 := if b < a then b else a

/-- The value as a rational number; `0` for NaN and the infinities. -/
def toRat (a : F32) : ℚ := a.val.toRat

end F32

namespace F64

instance : Add F64 := ⟨fun a b => ⟨binary64.add a.val b.val⟩⟩
instance : Mul F64 := ⟨fun a b => ⟨binary64.mul a.val b.val⟩⟩
instance : Neg F64 := ⟨fun a => ⟨a.val.neg⟩⟩
instance : LT F64 := ⟨fun a b => Flt.lt a.val b.val = true⟩
instance (a b : F64) : Decidable (a < b) := inferInstanceAs (Decidable (Flt.lt a.val b.val = true))

/-- The conversion of an integer literal to `double`. -/
instance (n : Nat) : OfNat F64 n := ⟨⟨binary64.round false n 1⟩⟩

/-- A decimal literal of type `double`: the nearest datum. -/
instance : OfScientific F64 :=
  ⟨fun m s e => ⟨binary64.round false (if s then m else m * 10 ^ e) (if s then 10 ^ e else 1)⟩⟩

/-- The conversion `double` to `float`. -/
def toF32 (a : F64) : F32 := ⟨binary32.cast a.val⟩

/-- The conversion `int(v)` of a `double`: truncation toward zero (`0` stands for the
undefined conversion of NaN and the infinities). -/
def toInt (a : F64) : Int :=
  match a.val with
  | .fin s m e =>
    if 0 ≤ e then (if s then -((m * 2 ^ e.toNat : Nat) : Int) else ((m * 2 ^ e.toNat : Nat) : Int))
    else (if s then -((m / 2 ^ (-e).toNat : Nat) : Int) else ((m / 2 ^ (-e).toNat : Nat) : Int))
  | _ => 0

end F64

/-- The conversion `float` to `double`, which is exact. -/
def F32.toF64 (a : F32) : F64 := ⟨a.val⟩

/-! ## The program on binary32 -/

/-- Modelled from the spec: `Vec3f` of the absent header `geometry.h`, three `float`s. -/
structure Vec3f where
  x : F32
  y : F32
  z : F32
deriving DecidableEq

/-- Modelled from the spec: `Vec4f` of the absent header `geometry.h`, four `float`s. -/
structure Vec4f where
  a0 : F32
  a1 : F32
  a2 : F32
  a3 : F32
deriving DecidableEq

namespace Vec3f

/-- Modelled from the spec: `operator+`, componentwise. -/
instance : Add Vec3f := ⟨fun a b => ⟨a.x + b.x, a.y + b.y, a.z + b.z⟩⟩

/-- Modelled from the spec: binary `operator-`, componentwise. -/
instance : Sub Vec3f := ⟨fun a b => ⟨a.x - b.x, a.y - b.y, a.z - b.z⟩⟩

/-- Modelled from the spec: `operator*(Vec3f, float)`, each component times the scalar. -/
def mul (a : Vec3f) (k : F32) : Vec3f := ⟨a.x * k, a.y * k, a.z * k⟩

/-- Modelled from the spec: `operator*(Vec3f, double)`: each component is converted to
`double`, multiplied, and the product converted back to `float`. -/
def mulD (a : Vec3f) (k : F64) : Vec3f :=
  ⟨(a.x.toF64 * k).toF32, (a.y.toF64 * k).toF32, (a.z.toF64 * k).toF32⟩

/-- Modelled from the spec: unary `operator-`, the product with `-1`. -/
instance : Neg Vec3f := ⟨fun a => a.mul (-1)⟩

/-- Modelled from the spec: `operator*(Vec3f, Vec3f)`, the dot product; the products are
added to zero from the last component to the first. -/
def dot (a b : Vec3f) : F32 := 0 + a.z * b.z + a.y * b.y + a.x * b.x

/-- Modelled from the spec: `norm()`, `std::sqrt(x*x + y*y + z*z)`. -/
def norm (a : Vec3f) : F32 := F32.sqrt (a.x * a.x + a.y * a.y + a.z * a.z)

/-- Modelled from the spec: `normalize()`, the vector times `1 / norm()`. -/
def normalize (a : Vec3f) : Vec3f := a.mul (1 / a.norm)

end Vec3f

/-- `std::numeric_limits<float>::max()`. -/
def FLT_MAX32 : F32 := ⟨.fin false 16777215 104⟩

/-- `struct Light` on `float`. -/
structure Light32 where
  position : Vec3f
  intensity : F32
deriving DecidableEq

/-- `struct Material` on `float`. -/
structure Material32 where
  refractive_index : F32
  albedo : Vec4f
  diffuse_color : Vec3f
  specular_exponent : F32
deriving DecidableEq

/-- The default constructor `Material()`. -/
def Material32.default : Material32 := ⟨1, ⟨1, 0, 0, 0⟩, ⟨0, 0, 0⟩, 0⟩

/-- `struct Sphere` on `float`. -/
structure Sphere32 where
  center : Vec3f
  radius : F32
  material : Material32
deriving DecidableEq

/-- `Sphere::ray_intersect` in binary32. -/
def Sphere32.ray_intersect (s : Sphere32) (orig dir : Vec3f) : Option F32 :=
  let L := s.center - orig
  let dist_bw_pc_p := L.dot dir
  let dist_bw_c_pc := L.dot L - dist_bw_pc_p * dist_bw_pc_p
  if dist_bw_c_pc > s.radius * s.radius then none
  else
    let dist_bw_pc_i1 := F32.sqrt (s.radius * s.radius - dist_bw_c_pc)
    let intersection_point := dist_bw_pc_p - dist_bw_pc_i1
    let t1 := dist_bw_pc_p + dist_bw_pc_i1
    let intersection_point := if intersection_point < 0 then t1 else intersection_point
    if intersection_point < 0 then none else some intersection_point

/-- `reflect` in binary32: `I - N*2.f*(I*N)`. -/
def reflect32 (I N : Vec3f) : Vec3f := I - (N.mul 2).mul (I.dot N)

/-- Lines 108-110 of `refract` in binary32. -/
def refract_tail32 (I n : Vec3f) (cosi r_of_air r_of_medium : F32) : Vec3f :=
  let ratio := r_of_air / r_of_medium
  let k := 1 - ratio * ratio * (1 - cosi * cosi)
  if k < 0 then ⟨0, 0, 0⟩ else I.mul ratio + n.mul (ratio * cosi - F32.sqrt k)

/-- `refract` in binary32. -/
def refract32 (I N : Vec3f) (refractive_index : F32) : Vec3f :=
  let cosi := -F32.max (-1) (F32.min 1 (I.dot N))
  if cosi < 0 then refract_tail32 I (-N) (-cosi) refractive_index 1
  else refract_tail32 I N cosi 1 refractive_index

/-- The tile colour of line 168 in binary32 and binary64: `.5*hit.x+1000` and `.5*hit.z`
are computed in `double`. -/
def tile_color32 (hit : Vec3f) : Vec3f :=
  if (F64.toInt (0.5 * hit.x.toF64 + 1000) + F64.toInt (0.5 * hit.z.toF64)) % 2 ≠ 0
  then ⟨1, 1, 1⟩ else ⟨0, 0, 0⟩

/-- The variables the sphere loop of `scene_intersect` updates, in binary32. -/
structure ScanState32 where
  spheres_dist : F32
  hit : Vec3f
  N : Vec3f
  material : Material32
deriving DecidableEq

/-- One iteration of the sphere loop of `scene_intersect` (lines 119-135) in binary32. -/
def sphere_step32 (orig dir : Vec3f) (st : ScanState32) (s : Sphere32) : ScanState32 :=
  match s.ray_intersect orig dir with
  | some dist_i =>
    if dist_i < st.spheres_dist then
      let hit := orig + dir.mul dist_i
      ⟨dist_i, hit, (hit - s.center).normalize, s.material⟩
    else st
  | none => st

/-- The sphere loop of `scene_intersect` (lines 116-136) in binary32. -/
def scan_spheres32 (orig dir : Vec3f) (spheres : List Sphere32) (hit N : Vec3f)
    (material : Material32) : ScanState32 :=
  spheres.foldl (sphere_step32 orig dir) ⟨FLT_MAX32, hit, N, material⟩

/-- What `scene_intersect` hands back, in binary32. -/
structure SceneHit32 where
  ret : Bool
  hit : Vec3f
  N : Vec3f
  material : Material32
deriving DecidableEq

/-- The plane test of lines 154-164 in binary32: the distance `d` when the test accepts
the plane against the value `spheres_dist` of the sphere loop. The guard compares
`fabs(dir.y)` with the `double` `1e-3`. -/
def plane_accepted32 (orig dir : Vec3f) (spheres_dist : F32) : Option F32 :=
  if (F32.abs dir.y).toF64 > 1e-3 then
    let d := -(orig.y + 4) / dir.y
    let pt := orig + dir.mul d
    if d > 0 ∧ F32.abs pt.x < 10 ∧ pt.z < -10 ∧ pt.z > -30 ∧ d < spheres_dist then some d
    else none
  else none

/-- `scene_intersect` in binary32. -/
def scene_intersect32 (orig dir : Vec3f) (spheres : List Sphere32) (hit N : Vec3f)
    (material : Material32) : SceneHit32 :=
  let st := scan_spheres32 orig dir spheres hit N material
  let checkerboard_dist : F32 := FLT_MAX32
  if (F32.abs dir.y).toF64 > 1e-3 then
    let d := -(orig.y + 4) / dir.y
    let pt := orig + dir.mul d
    if d > 0 ∧ F32.abs pt.x < 10 ∧ pt.z < -10 ∧ pt.z > -30 ∧ d < st.spheres_dist then
      ⟨decide (F32.min st.spheres_dist d < 1000), pt, ⟨0, 1, 0⟩,
        { st.material with diffuse_color := tile_color32 pt }⟩
    else ⟨decide (F32.min st.spheres_dist checkerboard_dist < 1000), st.hit, st.N, st.material⟩
  else ⟨decide (F32.min st.spheres_dist checkerboard_dist < 1000), st.hit, st.N, st.material⟩

/-- The background colour `Vec3f{0.2, 0.7, 0.8}` of line 188: `double` literals converted
to `float`. -/
def background32 : Vec3f := ⟨F64.toF32 0.2, F64.toF32 0.7, F64.toF32 0.8⟩

/-- The test of line 231 in binary32; `N*1e-1` and `N*1e-2` multiply by a `double`. -/
def occluded32 (spheres : List Sphere32) (hit N : Vec3f) (l : Light32) : Bool :=
  let light_dir := (l.position - hit).normalize
  let light_distance := (l.position - hit).norm
  let shadow_orig := if light_dir.dot N < 0 then hit - N.mulD 1e-1 else hit + N.mulD 1e-2
  let shadow := scene_intersect32 shadow_orig light_dir spheres ⟨0, 0, 0⟩ ⟨0, 0, 0⟩
    Material32.default
  shadow.ret && decide ((shadow.hit - shadow_orig).norm < light_distance)

/-- One iteration of the light loop of `cast_ray` (lines 203-253) in binary32. -/
def light_step32 (powf : F32 → F32 → F32) (spheres : List Sphere32) (dir hit N : Vec3f)
    (material : Material32) (acc : F32 × F32) (l : Light32) : F32 × F32 :=
  let light_dir := (l.position - hit).normalize
  if occluded32 spheres hit N l then acc
  else
    (acc.1 + l.intensity * F32.max 0 (light_dir.dot N),
     acc.2 + powf (F32.max 0 ((-reflect32 (-light_dir) N).dot dir)) material.specular_exponent
       * l.intensity)

/-- `cast_ray` in binary32; `powf` of libm is a parameter. -/
def cast_ray32 (powf : F32 → F32 → F32) (orig dir : Vec3f) (spheres : List Sphere32)
    (lights : List Light32) (depth : Nat) : Vec3f :=
  if _hdepth : depth > 4 then background32
  else
    let q := scene_intersect32 orig dir spheres ⟨0, 0, 0⟩ ⟨0, 0, 0⟩ Material32.default
    if !q.ret then background32
    else
      let hit := q.hit
      let N := q.N
      let material := q.material
      let reflect_dir := reflect32 dir N
      let refract_dir := (refract32 dir N material.refractive_index).normalize
      let reflect_orig := if reflect_dir.dot N < 0 then hit - N.mulD 1e-3 else hit + N.mulD 1e-3
      let refract_orig := if refract_dir.dot N < 0 then hit - N.mulD 1e-3 else hit + N.mulD 1e-3
      let reflect_color := cast_ray32 powf reflect_orig reflect_dir spheres lights (depth + 1)
      let refract_color := cast_ray32 powf refract_orig refract_dir spheres lights (depth + 1)
      let acc := lights.foldl (light_step32 powf spheres dir hit N material) (0, 0)
      let diffuse_light_intensity := acc.1
      let specular_light_intensity := acc.2
      ((material.diffuse_color.mul diffuse_light_intensity).mul material.albedo.a0
          + ((⟨1, 1, 1⟩ : Vec3f).mul specular_light_intensity).mul material.albedo.a1
          + reflect_color.mul material.albedo.a2)
        + refract_color.mul material.albedo.a3
termination_by 5 - depth
decreasing_by all_goals omega

/-- The datum is a zero or a non-zero finite value. -/
def Flt.isFinite : Flt → Bool
  | .zero _ => true
  | .fin _ _ _ => true
  | _ => false

/-- The exact values of the components, as a vector over the rationals. -/
def Vec3f.toRat (v : Vec3f) : Vec3 ℚ := ⟨v.x.toRat, v.y.toRat, v.z.toRat⟩

/-! ### Values that are not negative -/

/-- The value is not negative: `a < 0` is false, so `a` is a zero, a positive value,
`+inf` or NaN. -/
def F32.NotNeg (a : F32) : Prop := ¬ a < 0

/-- No channel of the colour is negative. -/
def Vec3f.NotNeg (v : Vec3f) : Prop := v.x.NotNeg ∧ v.y.NotNeg ∧ v.z.NotNeg

/-- No albedo component and no diffuse colour channel of the material is negative. -/
def Material32.NotNeg (m : Material32) : Prop :=
  m.albedo.a0.NotNeg ∧ m.albedo.a1.NotNeg ∧ m.albedo.a2.NotNeg ∧ m.albedo.a3.NotNeg ∧
    m.diffuse_color.NotNeg

instance (a : F32) : Decidable a.NotNeg := inferInstanceAs (Decidable (¬ a < 0))

instance (v : Vec3f) : Decidable v.NotNeg :=
  inferInstanceAs (Decidable (v.x.NotNeg ∧ v.y.NotNeg ∧ v.z.NotNeg))

instance (m : Material32) : Decidable m.NotNeg :=
  inferInstanceAs (Decidable (m.albedo.a0.NotNeg ∧ m.albedo.a1.NotNeg ∧ m.albedo.a2.NotNeg ∧
    m.albedo.a3.NotNeg ∧ m.diffuse_color.NotNeg))

/-! ### The scene of `main` and the scenes used to evaluate the code, in binary32 -/

/-- The material `ivory` of `main` (line 322): `double` literals converted to `float`. -/
def ivory32 : Material32 :=
  ⟨F64.toF32 1.0, ⟨F64.toF32 0.6, F64.toF32 0.3, F64.toF32 0.1, F64.toF32 0.0⟩,
    ⟨F64.toF32 0.4, F64.toF32 0.8, F64.toF32 0.5⟩, F64.toF32 50⟩

/-- The material `glass` of `main` (line 323). -/
def glass32 : Material32 :=
  ⟨F64.toF32 1.5, ⟨F64.toF32 0.0, F64.toF32 0.5, F64.toF32 0.1, F64.toF32 0.8⟩,
    ⟨F64.toF32 0.6, F64.toF32 0.7, F64.toF32 0.8⟩, F64.toF32 1255⟩

/-- The material `red_rubber` of `main` (line 324). -/
def red_rubber32 : Material32 :=
  ⟨F64.toF32 1.0, ⟨F64.toF32 0.9, F64.toF32 0.1, F64.toF32 0.0, F64.toF32 0.0⟩,
    ⟨F64.toF32 0.3, F64.toF32 0.1, F64.toF32 0.1⟩, F64.toF32 10⟩

/-- The material `mirror` of `main` (line 325). -/
def mirror32 : Material32 :=
  ⟨F64.toF32 1.0, ⟨F64.toF32 0.0, F64.toF32 10.0, F64.toF32 0.8, F64.toF32 0.0⟩,
    ⟨F64.toF32 1.0, F64.toF32 1.0, F64.toF32 1.0⟩, F64.toF32 1425⟩

/-- The four spheres of `main` (lines 331-334). -/
def main_spheres32 : List Sphere32 :=
  [⟨⟨-3, 0, -16⟩, 2, ivory32⟩,
   ⟨⟨F64.toF32 (-1.0), F64.toF32 (-1.5), -12⟩, 2, glass32⟩,
   ⟨⟨F64.toF32 1.5, F64.toF32 (-0.5), -18⟩, 3, red_rubber32⟩,
   ⟨⟨F64.toF32 2.8, 7, -28⟩, 7, mirror32⟩]

/-- The direction `Vec3f(dir_x, dir_y, dir_z)` of lines 295-297 for the pixel
`i = 314`, `j = 478`, before normalisation: `dir_x = 314.5 - 512`, `dir_y = -478.5 + 384`,
and `dir_z = -702.90728759765625`, the `float` nearest to `-768 / (2 * tan(1/2))
= -702.9072851...`. -/
def pixel_dir32 : Vec3f := ⟨F64.toF32 (-197.5), F64.toF32 (-94.5), ⟨Flt.fin true 11516433 (-14)⟩⟩

/-- The sphere of radius 2 centred at the origin, in binary32. -/
def origin_sphere32 (m : Material32) : Sphere32 := ⟨⟨0, 0, 0⟩, 2, m⟩

/-- A sphere of radius `3/128` standing on the `x` axis at `x = 100`: the `x` axis is
tangent to it. -/
def grazed_sphere32 : Sphere32 :=
  ⟨⟨100, F32.ofRatio 3 128, 0⟩, F32.ofRatio 3 128, Material32.default⟩

/-- A light 20 units above the point `(0,-4,-20)`, in binary32. -/
def near_light32 : Light32 := ⟨⟨0, 16, -20⟩, 1⟩

/-- A light of intensity `3e38`, 16 units in front of the point `(0,0,-2)`. -/
def huge_light32 : Light32 := ⟨⟨0, 0, -18⟩, F32.ofRatio (3 * 10 ^ 38) 1⟩

/-- The comparison `a ≤ b` of the values; false when either is NaN. -/
def Flt.le : Flt → Flt → Bool
  | .nan, _ => false
  | _, .nan => false
  | a, b => !Flt.lt b a

instance : LE F32 := ⟨fun a b => Flt.le a.val b.val = true⟩

instance (a b : F32) : Decidable (a ≤ b) :=
  inferInstanceAs (Decidable (Flt.le a.val b.val = true))

/-- The vector whose three components are NaN. -/
def Vec3f.nan : Vec3f := ⟨⟨Flt.nan⟩, ⟨Flt.nan⟩, ⟨Flt.nan⟩⟩

/-- The diffuse half of one iteration of the light loop of `cast_ray` (lines 207-236) in
binary32. -/
def diffuse_step32 (spheres : List Sphere32) (hit N : Vec3f) (acc : F32) (l : Light32) : F32 :=
  if occluded32 spheres hit N l then acc
  else acc + l.intensity * F32.max 0 (((l.position - hit).normalize).dot N)

/-- A stand-in for `powf` that returns its base: it agrees with `powf` for the bases 0 and
1 and a positive exponent, and it returns no negative value for a base that is not
negative. -/
def powf_base (x _y : F32) : F32 := x

/-- A light far from the point `(0,-4,-20)`, at
`(145949/256, 561437/512, -9333211/8192) = (570.11..., 1096.55..., -1139.30...)`. -/
def distant_light32 : Light32 :=
  ⟨⟨F32.ofRatio 145949 256, F32.ofRatio 561437 512, F32.ofRatio (-9333211) 8192⟩, 1⟩

/-- A sphere of radius `0.2f` centred exactly midway between the point `(0,-4,-20)` and
`distant_light32`, at `(145949/512, 559389/1024, -9497051/16384)`. -/
def midway_sphere32 : Sphere32 :=
  ⟨⟨F32.ofRatio 145949 512, F32.ofRatio 559389 1024, F32.ofRatio (-9497051) 16384⟩,
    F64.toF32 0.2, Material32.default⟩

section Lemmas

variable {F : Type} [LinearOrderedField F]

@[simp] theorem Vec3.zero_x : (0 : Vec3 F).x = 0 := rfl
@[simp] theorem Vec3.zero_y : (0 : Vec3 F).y = 0 := rfl
@[simp] theorem Vec3.zero_z : (0 : Vec3 F).z = 0 := rfl
@[simp] theorem Vec3.add_x (a b : Vec3 F) : (a + b).x = a.x + b.x := rfl
@[simp] theorem Vec3.add_y (a b : Vec3 F) : (a + b).y = a.y + b.y := rfl
@[simp] theorem Vec3.add_z (a b : Vec3 F) : (a + b).z = a.z + b.z := rfl
@[simp] theorem Vec3.sub_x (a b : Vec3 F) : (a - b).x = a.x - b.x := rfl
@[simp] theorem Vec3.sub_y (a b : Vec3 F) : (a - b).y = a.y - b.y := rfl
@[simp] theorem Vec3.sub_z (a b : Vec3 F) : (a - b).z = a.z - b.z := rfl
@[simp] theorem Vec3.neg_x (a : Vec3 F) : (-a).x = -a.x := rfl
@[simp] theorem Vec3.neg_y (a : Vec3 F) : (-a).y = -a.y := rfl
@[simp] theorem Vec3.neg_z (a : Vec3 F) : (-a).z = -a.z := rfl
@[simp] theorem Vec3.mul_x (a : Vec3 F) (k : F) : (a.mul k).x = a.x * k := rfl
@[simp] theorem Vec3.mul_y (a : Vec3 F) (k : F) : (a.mul k).y = a.y * k := rfl
@[simp] theorem Vec3.mul_z (a : Vec3 F) (k : F) : (a.mul k).z = a.z * k := rfl

theorem Vec3.ext_iff3 {G : Type} (a b : Vec3 G) :
    a = b ↔ a.x = b.x ∧ a.y = b.y ∧ a.z = b.z := by
  cases a; cases b; simp

/-- A square root is determined by its square. -/
theorem IsSqrt.eq_of_mul_self {sqrtf : F → F} (hs : IsSqrt sqrtf) {x r : F} (hr : 0 ≤ r)
    (hx : r * r = x) : sqrtf x = r := by
  have hx0 : 0 ≤ x := by rw [← hx]; exact mul_self_nonneg r
  have h1 := hs.nonneg x hx0
  have h2 := hs.mul_self x hx0
  nlinarith [mul_self_nonneg (sqrtf x - r), mul_self_nonneg (sqrtf x + r)]

/-- The real square root is a square root in the sense of `IsSqrt`. -/
theorem isSqrt_real : IsSqrt Real.sqrt :=
  ⟨fun x _ => Real.sqrt_nonneg x, fun _ hx => Real.mul_self_sqrt hx⟩

/-- The magnitude of a vector is `r` exactly when its squared length is `r * r`. -/
theorem Vec3.norm_eq_iff {sqrtf : F → F} (hs : IsSqrt sqrtf) (v : Vec3 F) {r : F}
    (hr : 0 ≤ r) : v.norm sqrtf = r ↔ v.dot v = r * r := by
  have h0 : 0 ≤ v.dot v := by
    simp only [Vec3.dot]
    nlinarith [mul_self_nonneg v.x, mul_self_nonneg v.y, mul_self_nonneg v.z]
  constructor
  · intro h
    have h2 := hs.mul_self _ h0
    have h3 : v.norm sqrtf = sqrtf (v.dot v) := rfl
    rw [← h, h3, h2]
  · intro h
    exact hs.eq_of_mul_self hr h.symm

/-- The squared distance from the sphere's centre to the point at parameter `t` of a ray
with unit direction, in the quantities `Sphere.ray_intersect` computes. -/
theorem dist_sq_along_ray (orig dir c : Vec3 F) (t : F) (hd : dir.dot dir = 1) :
    (orig + dir.mul t - c).dot (orig + dir.mul t - c) =
      (t - (c - orig).dot dir) * (t - (c - orig).dot dir) +
        ((c - orig).dot (c - orig) - (c - orig).dot dir * (c - orig).dot dir) := by
  have h : dir.x * dir.x + dir.y * dir.y + dir.z * dir.z = 1 := hd
  simp only [Vec3.dot, Vec3.add_x, Vec3.add_y, Vec3.add_z, Vec3.sub_x, Vec3.sub_y, Vec3.sub_z,
    Vec3.mul_x, Vec3.mul_y, Vec3.mul_z]
  linear_combination (t * t) * h

/-- What `Sphere.ray_intersect` returns, as a case distinction on the near root
`tca - thc` and the far root `tca + thc`. -/
theorem ray_intersect_eq_some_iff (sqrtf : F → F) (s : Sphere F) (orig dir : Vec3 F) (t : F) :
    s.ray_intersect sqrtf orig dir = some t ↔
      ((s.center - orig).dot (s.center - orig)
          - (s.center - orig).dot dir * (s.center - orig).dot dir ≤ s.radius * s.radius) ∧
      0 ≤ t ∧
      ((t = (s.center - orig).dot dir - sqrtf (s.radius * s.radius -
          ((s.center - orig).dot (s.center - orig)
            - (s.center - orig).dot dir * (s.center - orig).dot dir))) ∨
       ((s.center - orig).dot dir - sqrtf (s.radius * s.radius -
          ((s.center - orig).dot (s.center - orig)
            - (s.center - orig).dot dir * (s.center - orig).dot dir)) < 0 ∧
        t = (s.center - orig).dot dir + sqrtf (s.radius * s.radius -
          ((s.center - orig).dot (s.center - orig)
            - (s.center - orig).dot dir * (s.center - orig).dot dir)))) := by
  simp only [Sphere.ray_intersect]
  split_ifs with h1 h2 h3
  · constructor
    · intro h; cases h
    · rintro ⟨h, -⟩; exact absurd h1 (not_lt.mpr h)
  · constructor
    · intro h; cases h
    · rintro ⟨-, h0, h | ⟨-, h⟩⟩
      · rw [h] at h0; exact absurd h2 (not_lt.mpr h0)
      · rw [h] at h0; exact absurd h3 (not_lt.mpr h0)
  · constructor
    · intro h
      cases h
      exact ⟨not_lt.mp h1, not_lt.mp h3, Or.inr ⟨h2, rfl⟩⟩
    · rintro ⟨-, h0, h | ⟨-, h⟩⟩
      · rw [h] at h0; exact absurd h2 (not_lt.mpr h0)
      · rw [h]
  · constructor
    · intro h
      cases h
      exact ⟨not_lt.mp h1, not_lt.mp h2, Or.inl rfl⟩
    · rintro ⟨-, -, h | ⟨h, -⟩⟩
      · rw [h]
      · exact absurd h h2

/-- The geometric content of `Sphere.ray_intersect` for a unit direction, with squared
distances: it succeeds exactly when the ray meets the sphere at some parameter `t ≥ 0`,
and then it reports the least such parameter. -/
theorem ray_intersect_geometry {sqrtf : F → F} (hs : IsSqrt sqrtf) (s : Sphere F)
    (orig dir : Vec3 F) (hd : dir.dot dir = 1) :
    ((∃ t0, s.ray_intersect sqrtf orig dir = some t0) ↔
      ∃ t, 0 ≤ t ∧ (orig + dir.mul t - s.center).dot (orig + dir.mul t - s.center)
        = s.radius * s.radius) ∧
    ∀ t0, s.ray_intersect sqrtf orig dir = some t0 →
      (0 ≤ t0 ∧ (orig + dir.mul t0 - s.center).dot (orig + dir.mul t0 - s.center)
        = s.radius * s.radius) ∧
      ∀ t, 0 ≤ t → (orig + dir.mul t - s.center).dot (orig + dir.mul t - s.center)
        = s.radius * s.radius → t0 ≤ t := by
  simp only [ray_intersect_eq_some_iff, dist_sq_along_ray orig dir s.center _ hd]
  set tca := (s.center - orig).dot dir with htca
  set d2 := (s.center - orig).dot (s.center - orig) - tca * tca with hd2
  set thc := sqrtf (s.radius * s.radius - d2) with hthc
  have key : d2 ≤ s.radius * s.radius → 0 ≤ thc ∧ thc * thc = s.radius * s.radius - d2 :=
    fun h => ⟨hs.nonneg _ (by linarith), hs.mul_self _ (by linarith)⟩
  refine ⟨⟨?_, ?_⟩, ?_⟩
  · rintro ⟨t0, h1, h0, h⟩
    obtain ⟨hn, hsq⟩ := key h1
    refine ⟨t0, h0, ?_⟩
    rcases h with h | ⟨-, h⟩ <;> rw [h] <;> linear_combination hsq
  · rintro ⟨t, h0, ht⟩
    have h1 : d2 ≤ s.radius * s.radius := by nlinarith [mul_self_nonneg (t - tca)]
    obtain ⟨hn, hsq⟩ := key h1
    have hfac : (t - tca - thc) * (t - tca + thc) = 0 := by linear_combination ht - hsq
    by_cases hneg : tca - thc < 0
    · refine ⟨tca + thc, h1, ?_, Or.inr ⟨hneg, rfl⟩⟩
      rcases mul_eq_zero.mp hfac with h | h <;> linarith
    · exact ⟨tca - thc, h1, not_lt.mp hneg, Or.inl rfl⟩
  · rintro t0 ⟨h1, h0, h⟩
    obtain ⟨hn, hsq⟩ := key h1
    refine ⟨⟨h0, ?_⟩, ?_⟩
    · rcases h with h | ⟨-, h⟩ <;> rw [h] <;> linear_combination hsq
    · intro t ht0 ht
      have hfac : (t - tca - thc) * (t - tca + thc) = 0 := by linear_combination ht - hsq
      rcases h with h | ⟨hneg, h⟩ <;> rcases mul_eq_zero.mp hfac with h' | h' <;> linarith

/-- `FLT_MAX` is beyond the range 1000 of the scene query. -/
theorem FLT_MAX_ge : (1000 : F) ≤ FLT_MAX := by
  unfold FLT_MAX; norm_num

/-- The invariant of the sphere loop: its final `spheres_dist` is below every
intersection distance of the list, and either nothing was updated, or the final state
was written by the earliest sphere whose distance is the final `spheres_dist`. -/
theorem scan_invariant (sqrtf : F → F) (orig dir : Vec3 F) :
    ∀ (spheres : List (Sphere F)) (st0 : ScanState F),
      (∀ s ∈ spheres, ∀ t, s.ray_intersect sqrtf orig dir = some t →
        (spheres.foldl (sphere_step sqrtf orig dir) st0).spheres_dist ≤ t) ∧
      (spheres.foldl (sphere_step sqrtf orig dir) st0 = st0 ∨
        ((spheres.foldl (sphere_step sqrtf orig dir) st0).spheres_dist < st0.spheres_dist ∧
          ∃ s, spheres.find? (fun s => decide (s.ray_intersect sqrtf orig dir =
              some (spheres.foldl (sphere_step sqrtf orig dir) st0).spheres_dist)) = some s ∧
            (spheres.foldl (sphere_step sqrtf orig dir) st0).hit =
              orig + dir.mul (spheres.foldl (sphere_step sqrtf orig dir) st0).spheres_dist ∧
            (spheres.foldl (sphere_step sqrtf orig dir) st0).N =
              ((spheres.foldl (sphere_step sqrtf orig dir) st0).hit - s.center).normalize sqrtf ∧
            (spheres.foldl (sphere_step sqrtf orig dir) st0).material = s.material)) := by
  intro spheres
  induction spheres with
  | nil => intro st0; exact ⟨fun s hs => absurd hs (List.not_mem_nil s), Or.inl rfl⟩
  | cons s rest ih =>
    intro st0
    rw [List.foldl_cons]
    obtain ⟨ih1, ih2⟩ := ih (sphere_step sqrtf orig dir st0 s)
    set st1 := sphere_step sqrtf orig dir st0 s with hst1
    set st := rest.foldl (sphere_step sqrtf orig dir) st1 with hst
    have hle : st.spheres_dist ≤ st1.spheres_dist := by
      rcases ih2 with h | ⟨h, -⟩
      · rw [h]
      · exact le_of_lt h
    -- what the step for `s` does
    have hstep : (st1 = st0 ∧ ∀ t, s.ray_intersect sqrtf orig dir = some t →
          st0.spheres_dist ≤ t) ∨
        (∃ t, s.ray_intersect sqrtf orig dir = some t ∧ t < st0.spheres_dist ∧
          st1 = ⟨t, orig + dir.mul t, (orig + dir.mul t - s.center).normalize sqrtf,
            s.material⟩) := by
      rw [hst1]
      unfold sphere_step
      cases hray : s.ray_intersect sqrtf orig dir with
      | none => exact Or.inl ⟨rfl, fun t ht => by cases ht⟩
      | some t =>
        by_cases hlt : t < st0.spheres_dist
        · right
          refine ⟨t, rfl, hlt, ?_⟩
          simp only [if_pos hlt]
        · left
          simp only [if_neg hlt]
          refine ⟨trivial, fun u hu => ?_⟩
          cases hu
          exact not_lt.mp hlt
    have hs1 : ∀ t, s.ray_intersect sqrtf orig dir = some t → st1.spheres_dist ≤ t := by
      intro t ht
      rcases hstep with ⟨h1, h2⟩ | ⟨u, hu, -, h1⟩
      · rw [h1]; exact h2 t ht
      · rw [hu] at ht; cases ht; rw [h1]
    refine ⟨?_, ?_⟩
    · intro s' hs' t ht
      rcases List.mem_cons.mp hs' with h | h
      · subst h; exact le_trans hle (hs1 t ht)
      · exact ih1 s' h t ht
    · rcases ih2 with h | ⟨hlt, s', hfind, hhit, hN, hmat⟩
      · -- the rest of the list changed nothing
        rcases hstep with ⟨h1, -⟩ | ⟨t, ht, htlt, h1⟩
        · left; rw [h, h1]
        · right
          have hd : st.spheres_dist = t := by rw [h, h1]
          refine ⟨by rw [hd]; exact htlt, s, ?_, ?_, ?_, ?_⟩
          · rw [hd]
            exact List.find?_cons_of_pos _ (by simpa using ht)
          · rw [hd, h, h1]
          · rw [h, h1]
          · rw [h, h1]
      · right
        have hlt0 : st1.spheres_dist ≤ st0.spheres_dist := by
          rcases hstep with ⟨h1, -⟩ | ⟨t, -, htlt, h1⟩
          · rw [h1]
          · rw [h1]; exact le_of_lt htlt
        refine ⟨lt_of_lt_of_le hlt hlt0, s', ?_, hhit, hN, hmat⟩
        rw [List.find?_cons_of_neg]
        · exact hfind
        · intro hp
          have hp' : s.ray_intersect sqrtf orig dir = some st.spheres_dist := by simpa using hp
          exact absurd (hs1 _ hp') (not_le.mpr hlt)

/-- When `plane_visible` yields a distance. -/
theorem plane_visible_eq_some_iff (orig dir : Vec3 F) (d : F) :
    plane_visible orig dir = some d ↔
      |dir.y| > 1e-3 ∧ d = -(orig.y + 4) / dir.y ∧ d > 0 ∧ |(orig + dir.mul d).x| < 10 ∧
        (orig + dir.mul d).z < -10 ∧ (orig + dir.mul d).z > -30 := by
  simp only [plane_visible]
  split_ifs with h1 h2
  · constructor
    · intro h
      cases h
      exact ⟨h1, rfl, h2⟩
    · rintro ⟨-, h, -⟩
      rw [h]
  · constructor
    · intro h; cases h
    · rintro ⟨-, h, h3⟩
      subst h
      exact absurd h3 h2
  · constructor
    · intro h; cases h
    · rintro ⟨h, -⟩
      exact absurd h h1

/-- The result of `scene_intersect` by cases on the plane: the plane wins when it is
visible at a distance below the loop's `spheres_dist`, otherwise the loop's state is
returned. -/
theorem scene_intersect_eq [FloorRing F] (sqrtf : F → F) (orig dir : Vec3 F)
    (spheres : List (Sphere F)) (hit N : Vec3 F) (material : Material F) :
    scene_intersect sqrtf orig dir spheres hit N material =
      match plane_visible orig dir with
      | some d =>
        if d < (scan_spheres sqrtf orig dir spheres hit N material).spheres_dist then
          ⟨decide (d < 1000), orig + dir.mul d, ⟨0, 1, 0⟩,
            { (scan_spheres sqrtf orig dir spheres hit N material).material with
              diffuse_color := tile_color (orig + dir.mul d) }⟩
        else
          ⟨decide ((scan_spheres sqrtf orig dir spheres hit N material).spheres_dist < 1000),
            (scan_spheres sqrtf orig dir spheres hit N material).hit,
            (scan_spheres sqrtf orig dir spheres hit N material).N,
            (scan_spheres sqrtf orig dir spheres hit N material).material⟩
      | none =>
        ⟨decide ((scan_spheres sqrtf orig dir spheres hit N material).spheres_dist < 1000),
          (scan_spheres sqrtf orig dir spheres hit N material).hit,
          (scan_spheres sqrtf orig dir spheres hit N material).N,
          (scan_spheres sqrtf orig dir spheres hit N material).material⟩ := by
  have hmax : ∀ a : F, (min a FLT_MAX < 1000) ↔ a < 1000 := by
    intro a
    have := FLT_MAX_ge (F := F)
    constructor
    · intro h
      rcases min_lt_iff.mp h with h | h
      · exact h
      · exact absurd h (not_lt.mpr this)
    · intro h
      exact min_lt_iff.mpr (Or.inl h)
  simp only [scene_intersect, plane_visible, hmax]
  split_ifs with h1 h2 h3 h4
  · have h5 := h2.2.2.2.2
    simp only [if_pos h5, min_eq_right (le_of_lt h5)]
  · exact absurd ⟨h2.1, h2.2.1, h2.2.2.1, h2.2.2.2.1⟩ h3
  · have h5 : ¬ (-(orig.y + 4) / dir.y <
        (scan_spheres sqrtf orig dir spheres hit N material).spheres_dist) :=
      fun h => h2 ⟨h4.1, h4.2.1, h4.2.2.1, h4.2.2.2, h⟩
    simp only [if_neg h5]
  · rfl
  · rfl

/-- Membership in `sphere_dists`. -/
theorem mem_sphere_dists (sqrtf : F → F) (orig dir : Vec3 F) (spheres : List (Sphere F))
    (t : F) :
    t ∈ sphere_dists sqrtf orig dir spheres ↔
      ∃ s ∈ spheres, s.ray_intersect sqrtf orig dir = some t := by
  simp only [sphere_dists, List.mem_filterMap]

/-- The sphere loop started from `FLT_MAX`: the final `spheres_dist` is below every
sphere distance, and either it is still `FLT_MAX` with the out-parameters untouched, or
the state was written by the earliest sphere at the final distance. -/
theorem scan_spheres_spec (sqrtf : F → F) (orig dir : Vec3 F) (spheres : List (Sphere F))
    (hit N : Vec3 F) (material : Material F) :
    (∀ a ∈ sphere_dists sqrtf orig dir spheres,
      (scan_spheres sqrtf orig dir spheres hit N material).spheres_dist ≤ a) ∧
    (scan_spheres sqrtf orig dir spheres hit N material = ⟨FLT_MAX, hit, N, material⟩ ∨
      ((scan_spheres sqrtf orig dir spheres hit N material).spheres_dist < FLT_MAX ∧
        ∃ s, spheres.find? (fun s => decide (s.ray_intersect sqrtf orig dir =
            some (scan_spheres sqrtf orig dir spheres hit N material).spheres_dist)) = some s ∧
          (scan_spheres sqrtf orig dir spheres hit N material).hit =
            orig + dir.mul (scan_spheres sqrtf orig dir spheres hit N material).spheres_dist ∧
          (scan_spheres sqrtf orig dir spheres hit N material).N =
            ((scan_spheres sqrtf orig dir spheres hit N material).hit - s.center).normalize
              sqrtf ∧
          (scan_spheres sqrtf orig dir spheres hit N material).material = s.material)) := by
  obtain ⟨h1, h2⟩ := scan_invariant sqrtf orig dir spheres ⟨FLT_MAX, hit, N, material⟩
  refine ⟨?_, h2⟩
  intro a ha
  obtain ⟨s, hs, hray⟩ := (mem_sphere_dists sqrtf orig dir spheres a).mp ha
  exact h1 s hs a hray

/-- A sphere found by `find?` at distance `t` puts `t` among the sphere distances. -/
theorem mem_sphere_dists_of_find (sqrtf : F → F) (orig dir : Vec3 F)
    (spheres : List (Sphere F)) (t : F) (s : Sphere F)
    (h : spheres.find? (fun s => decide (s.ray_intersect sqrtf orig dir = some t)) = some s) :
    t ∈ sphere_dists sqrtf orig dir spheres := by
  rw [mem_sphere_dists]
  refine ⟨s, List.mem_of_find?_eq_some h, ?_⟩
  simpa using List.find?_some h

/-- The contract of `scene_intersect` against the list of candidate distances (sphere
distances and the visible plane's distance): on `true` the hit point is at a candidate
distance below 1000 that is least among the candidates; on `false` no candidate is
below 1000. -/
theorem scene_intersect_spec [FloorRing F] (sqrtf : F → F) (orig dir : Vec3 F)
    (spheres : List (Sphere F)) (hit N : Vec3 F) (material : Material F) :
    ((scene_intersect sqrtf orig dir spheres hit N material).ret = true →
      ∃ w, w < 1000 ∧
        w ∈ sphere_dists sqrtf orig dir spheres ++ (plane_visible orig dir).toList ∧
        (∀ a ∈ sphere_dists sqrtf orig dir spheres ++ (plane_visible orig dir).toList, w ≤ a) ∧
        (scene_intersect sqrtf orig dir spheres hit N material).hit = orig + dir.mul w) ∧
    ((scene_intersect sqrtf orig dir spheres hit N material).ret = false →
      ∀ a ∈ sphere_dists sqrtf orig dir spheres ++ (plane_visible orig dir).toList,
        1000 ≤ a) := by
  obtain ⟨hle, hst⟩ := scan_spheres_spec sqrtf orig dir spheres hit N material
  rw [scene_intersect_eq]
  set st := scan_spheres sqrtf orig dir spheres hit N material with hstdef
  -- the branch in which the loop's state is returned
  have hB : ∀ pv : Option F, (∀ d, pv = some d → st.spheres_dist ≤ d) →
      ((decide (st.spheres_dist < 1000) = true →
        ∃ w, w < 1000 ∧ w ∈ sphere_dists sqrtf orig dir spheres ++ pv.toList ∧
          (∀ a ∈ sphere_dists sqrtf orig dir spheres ++ pv.toList, w ≤ a) ∧
          st.hit = orig + dir.mul w) ∧
      (decide (st.spheres_dist < 1000) = false →
        ∀ a ∈ sphere_dists sqrtf orig dir spheres ++ pv.toList, 1000 ≤ a)) := by
    intro pv hpv
    have hall : ∀ a ∈ sphere_dists sqrtf orig dir spheres ++ pv.toList,
        st.spheres_dist ≤ a := by
      intro a ha
      rcases List.mem_append.mp ha with h | h
      · exact hle a h
      · exact hpv a (by simpa using h)
    refine ⟨?_, ?_⟩
    · intro hret
      have hlt : st.spheres_dist < 1000 := of_decide_eq_true hret
      rcases hst with h | ⟨-, s, hfind, hhit, -, -⟩
      · rw [h] at hlt
        exact absurd hlt (not_lt.mpr FLT_MAX_ge)
      · exact ⟨st.spheres_dist, hlt,
          List.mem_append.mpr (Or.inl (mem_sphere_dists_of_find sqrtf orig dir spheres _ s hfind)),
          hall, hhit⟩
    · intro hret a ha
      have hge : ¬ st.spheres_dist < 1000 := of_decide_eq_false hret
      exact le_trans (not_lt.mp hge) (hall a ha)
  cases hpv : plane_visible orig dir with
  | none => exact hB none (fun d hd => by cases hd)
  | some d =>
    by_cases hd : d < st.spheres_dist
    · simp only [if_pos hd, Option.toList_some]
      have hall : ∀ a ∈ sphere_dists sqrtf orig dir spheres ++ [d], d ≤ a := by
        intro a ha
        rcases List.mem_append.mp ha with h | h
        · exact le_trans (le_of_lt hd) (hle a h)
        · rw [List.mem_singleton.mp h]
      refine ⟨?_, ?_⟩
      · intro hret
        exact ⟨d, of_decide_eq_true hret,
          List.mem_append.mpr (Or.inr (List.mem_singleton.mpr rfl)), hall, rfl⟩
      · intro hret a ha
        have hge : ¬ d < 1000 := of_decide_eq_false hret
        exact le_trans (not_lt.mp hge) (hall a ha)
    · simp only [if_neg hd]
      exact hB (some d) (fun d' hd' => by cases hd'; exact not_lt.mp hd)

/-- The whole plane test accepts exactly when the plane is visible at a distance below
`spheres_dist`. -/
theorem plane_accepted_eq_some_iff (orig dir : Vec3 F) (sd d : F) :
    plane_accepted orig dir sd = some d ↔ plane_visible orig dir = some d ∧ d < sd := by
  rw [plane_visible_eq_some_iff]
  simp only [plane_accepted]
  split_ifs with h1 h2
  · constructor
    · intro h
      cases h
      exact ⟨⟨h1, rfl, h2.1, h2.2.1, h2.2.2.1, h2.2.2.2.1⟩, h2.2.2.2.2⟩
    · rintro ⟨⟨-, h, -⟩, -⟩
      rw [h]
  · constructor
    · intro h; cases h
    · rintro ⟨⟨-, h, h3, h4, h5, h6⟩, h7⟩
      subst h
      exact absurd ⟨h3, h4, h5, h6, h7⟩ h2
  · constructor
    · intro h; cases h
    · rintro ⟨⟨h, -⟩, -⟩
      exact absurd h h1

/-- The dot product with a negated vector. -/
theorem Vec3.neg_dot (a b : Vec3 F) : (-a).dot b = -(a.dot b) := by
  simp only [Vec3.dot, Vec3.neg_x, Vec3.neg_y, Vec3.neg_z]
  ring

/-- The light loop of `cast_ray` adds to its accumulators the two sums over the
unoccluded lights. -/
theorem light_loop_eq_sums [FloorRing F] (sqrtf : F → F) (powf : F → F → F)
    (spheres : List (Sphere F)) (dir hit N : Vec3 F) (material : Material F) :
    ∀ (lights : List (Light F)) (acc : F × F),
      lights.foldl (light_step sqrtf powf spheres dir hit N material) acc =
        (acc.1 + diffuse_sum sqrtf spheres hit N lights,
         acc.2 + specular_sum sqrtf powf spheres dir hit N material.specular_exponent
           lights) := by
  intro lights
  induction lights with
  | nil =>
    intro acc
    simp [diffuse_sum, specular_sum]
  | cons l rest ih =>
    intro acc
    rw [List.foldl_cons, ih]
    unfold light_step
    by_cases hocc : occluded sqrtf spheres hit N l = true
    · simp [diffuse_sum, specular_sum, hocc]
    · have hocc' : occluded sqrtf spheres hit N l = false := by simpa using hocc
      simp only [diffuse_sum, specular_sum, hocc', Bool.false_eq_true, if_false, Bool.not_false,
        List.filter_cons_of_pos, List.map_cons, List.sum_cons, Vec3.neg_dot]
      refine Prod.ext ?_ ?_
      · simp only []
        ring
      · simp only []
        ring

/-- Cauchy-Schwarz for three components. -/
theorem Vec3.dot_mul_self_le (a b : Vec3 F) :
    a.dot b * a.dot b ≤ a.dot a * b.dot b := by
  simp only [Vec3.dot]
  nlinarith [mul_self_nonneg (a.x * b.y - a.y * b.x), mul_self_nonneg (a.x * b.z - a.z * b.x),
    mul_self_nonneg (a.y * b.z - a.z * b.y)]

/-- The squared length is not negative. -/
theorem Vec3.dot_self_nonneg (a : Vec3 F) : 0 ≤ a.dot a := by
  simp only [Vec3.dot]
  nlinarith [mul_self_nonneg a.x, mul_self_nonneg a.y, mul_self_nonneg a.z]

/-- The magnitude is not negative and squares to the squared length. -/
theorem Vec3.norm_spec {sqrtf : F → F} (hs : IsSqrt sqrtf) (v : Vec3 F) :
    0 ≤ v.norm sqrtf ∧ v.norm sqrtf * v.norm sqrtf = v.dot v :=
  ⟨hs.nonneg _ v.dot_self_nonneg, hs.mul_self _ v.dot_self_nonneg⟩

/-- A normalised vector has squared length 1, or 0 when the vector was zero. -/
theorem Vec3.normalize_dot_self {sqrtf : F → F} (hs : IsSqrt sqrtf) (v : Vec3 F) :
    (0 < v.dot v → (v.normalize sqrtf).dot (v.normalize sqrtf) = 1) ∧
    (v.normalize sqrtf).dot (v.normalize sqrtf) ≤ 1 := by
  obtain ⟨hn0, hn2⟩ := v.norm_spec hs
  have hexp : (v.normalize sqrtf).dot (v.normalize sqrtf)
      = v.dot v * ((1 / v.norm sqrtf) * (1 / v.norm sqrtf)) := by
    simp only [Vec3.normalize, Vec3.dot, Vec3.mul_x, Vec3.mul_y, Vec3.mul_z]
    ring
  have hpos : 0 < v.dot v → (v.normalize sqrtf).dot (v.normalize sqrtf) = 1 := by
    intro h
    have hne : v.norm sqrtf ≠ 0 := by
      intro h0
      rw [h0, mul_zero] at hn2
      exact absurd hn2.symm (ne_of_gt h)
    rw [hexp, ← hn2]
    field_simp
  refine ⟨hpos, ?_⟩
  rcases eq_or_lt_of_le v.dot_self_nonneg with h | h
  · rw [hexp, ← h, zero_mul]
    exact zero_le_one
  · exact le_of_eq (hpos h)

/-- Every candidate distance of the scene query is non-negative. -/
theorem candidates_nonneg (sqrtf : F → F) (orig dir : Vec3 F) (spheres : List (Sphere F)) :
    ∀ a ∈ sphere_dists sqrtf orig dir spheres ++ (plane_visible orig dir).toList, 0 ≤ a := by
  intro a ha
  rcases List.mem_append.mp ha with h | h
  · obtain ⟨s, -, hray⟩ := (mem_sphere_dists sqrtf orig dir spheres a).mp h
    exact ((ray_intersect_eq_some_iff sqrtf s orig dir a).mp hray).2.1
  · have h' : plane_visible orig dir = some a := by simpa using h
    exact le_of_lt ((plane_visible_eq_some_iff orig dir a).mp h').2.2.1

/-- `Sphere.ray_intersect` evaluated from the foot distance `tca` and a half-chord `thc`
whose square is `radius^2 - d^2`. -/
theorem ray_intersect_eval {sqrtf : F → F} (hs : IsSqrt sqrtf) (s : Sphere F)
    (orig dir : Vec3 F) (tca thc : F) (h1 : (s.center - orig).dot dir = tca)
    (h2 : (s.center - orig).dot (s.center - orig) - tca * tca
      = s.radius * s.radius - thc * thc) (h3 : 0 ≤ thc) :
    s.ray_intersect sqrtf orig dir =
      if tca - thc < 0 then (if tca + thc < 0 then none else some (tca + thc))
      else some (tca - thc) := by
  have hsq : sqrtf (s.radius * s.radius - (s.radius * s.radius - thc * thc)) = thc :=
    hs.eq_of_mul_self h3 (by ring)
  have hfirst : ¬ (s.radius * s.radius - thc * thc > s.radius * s.radius) := by
    have := mul_self_nonneg thc
    intro h
    linarith
  simp only [Sphere.ray_intersect, h1, h2, if_neg hfirst, hsq]
  split_ifs <;> rfl

/-- The sphere loop on a one-sphere list is one step from the initial state. -/
theorem scan_spheres_singleton (sqrtf : F → F) (orig dir : Vec3 F) (s : Sphere F)
    (hit N : Vec3 F) (material : Material F) :
    scan_spheres sqrtf orig dir [s] hit N material =
      sphere_step sqrtf orig dir ⟨FLT_MAX, hit, N, material⟩ s := rfl

/-- A sphere the ray misses leaves the loop's state alone. -/
theorem sphere_step_of_none (sqrtf : F → F) (orig dir : Vec3 F) (st : ScanState F)
    (s : Sphere F) (h : s.ray_intersect sqrtf orig dir = none) :
    sphere_step sqrtf orig dir st s = st := by
  simp only [sphere_step, h]

/-- A sphere hit nearer than the current `spheres_dist` overwrites the loop's state. -/
theorem sphere_step_of_some (sqrtf : F → F) (orig dir : Vec3 F) (st : ScanState F)
    (s : Sphere F) (t : F) (h : s.ray_intersect sqrtf orig dir = some t)
    (hlt : t < st.spheres_dist) :
    sphere_step sqrtf orig dir st s =
      ⟨t, orig + dir.mul t, (orig + dir.mul t - s.center).normalize sqrtf, s.material⟩ := by
  simp only [sphere_step, h, if_pos hlt]

/-- The ray from `(0,0,-20)` straight down meets the visible plane at distance 4. -/
theorem plane_visible_down_ray :
    plane_visible (⟨0, 0, -20⟩ : Vec3 F) ⟨0, -1, 0⟩ = some 4 := by
  rw [plane_visible_eq_some_iff]
  simp only [Vec3.add_x, Vec3.add_z, Vec3.mul_x, Vec3.mul_z]
  norm_num

/-- The ray from `(0,0,-20)` straight down: when the sphere loop ends with `spheres_dist`
above 4 the plane wins, at the point `(0,-4,-20)`, and the material is the loop's with
the tile colour written into `diffuse_color`. -/
theorem scene_intersect_down_ray [FloorRing F] (sqrtf : F → F) (spheres : List (Sphere F))
    (hit N : Vec3 F) (material : Material F)
    (h : 4 < (scan_spheres sqrtf ⟨0, 0, -20⟩ ⟨0, -1, 0⟩ spheres hit N material).spheres_dist) :
    scene_intersect sqrtf ⟨0, 0, -20⟩ ⟨0, -1, 0⟩ spheres hit N material =
      ⟨true, ⟨0, -4, -20⟩, ⟨0, 1, 0⟩,
        { (scan_spheres sqrtf ⟨0, 0, -20⟩ ⟨0, -1, 0⟩ spheres hit N material).material with
          diffuse_color := tile_color ⟨0, -4, -20⟩ }⟩ := by
  have hpt : (⟨0, 0, -20⟩ : Vec3 F) + (⟨0, -1, 0⟩ : Vec3 F).mul 4 = ⟨0, -4, -20⟩ := by
    rw [Vec3.ext_iff3]
    simp only [Vec3.add_x, Vec3.add_y, Vec3.add_z, Vec3.mul_x, Vec3.mul_y, Vec3.mul_z]
    norm_num
  have h4 : decide ((4 : F) < 1000) = true := decide_eq_true (by norm_num)
  rw [scene_intersect_eq, plane_visible_down_ray]
  simp only [if_pos h, hpt, h4]

/-- Magnitude and normalisation of a vector whose squared length is `n * n`, `n ≥ 0`. -/
theorem Vec3.norm_eval {sqrtf : F → F} (hs : IsSqrt sqrtf) (v : Vec3 F) (n : F)
    (hn : 0 ≤ n) (h : v.dot v = n * n) :
    v.norm sqrtf = n ∧ v.normalize sqrtf = v.mul (1 / n) := by
  have h1 : v.norm sqrtf = n := (Vec3.norm_eq_iff hs v hn).mpr h
  exact ⟨h1, by rw [Vec3.normalize, h1]⟩

/-- The ray from `(0,0,-10)` toward `+z` meets the sphere of radius 2 at the origin at
distance `8 = 10 - 2`. -/
theorem ray_intersect_origin_sphere {sqrtf : F → F} (hs : IsSqrt sqrtf) (m : Material F) :
    (origin_sphere m).ray_intersect sqrtf ⟨0, 0, -10⟩ ⟨0, 0, 1⟩ = some 8 := by
  rw [ray_intersect_eval hs _ _ _ 10 2 (by simp [Vec3.dot, origin_sphere])
    (by simp [Vec3.dot, origin_sphere]) (by norm_num)]
  rw [if_neg (by norm_num)]
  norm_num

/-- A ray with `dir.y = 0` never sees the plane. -/
theorem plane_visible_horizontal (orig dir : Vec3 F) (h : dir.y = 0) :
    plane_visible orig dir = none := by
  have h1 : ¬ (|dir.y| > 1e-3) := by
    rw [h, abs_zero]
    norm_num
  simp only [plane_visible, if_neg h1]

/-- The square root of zero is zero. -/
theorem IsSqrt.zero {sqrtf : F → F} (hs : IsSqrt sqrtf) : sqrtf 0 = 0 :=
  hs.eq_of_mul_self (le_refl 0) (mul_zero 0)

/-- With both indices equal to 1 and `cosi ≥ 0`, lines 108-110 of `refract` return the
incident direction. -/
theorem refract_tail_one {sqrtf : F → F} (hs : IsSqrt sqrtf) (I n : Vec3 F) (cosi : F)
    (hc : 0 ≤ cosi) : refract_tail sqrtf I n cosi 1 1 = I := by
  have hk : (1 : F) - 1 / 1 * (1 / 1) * (1 - cosi * cosi) = cosi * cosi := by ring
  have hsq : sqrtf (cosi * cosi) = cosi := hs.eq_of_mul_self hc rfl
  have hnn : ¬ (cosi * cosi < 0) := not_lt.mpr (mul_self_nonneg cosi)
  simp only [refract_tail, hk, hsq, if_neg hnn]
  rw [Vec3.ext_iff3]
  simp only [Vec3.add_x, Vec3.add_y, Vec3.add_z, Vec3.mul_x, Vec3.mul_y, Vec3.mul_z]
  refine ⟨?_, ?_, ?_⟩ <;> ring

/-- A refractive index of 1 lets every direction through unchanged. -/
theorem refract_index_one {sqrtf : F → F} (hs : IsSqrt sqrtf) (I N : Vec3 F) :
    refract sqrtf I N 1 = I := by
  simp only [refract]
  split_ifs with h
  · exact refract_tail_one hs I (-N) _ (by linarith)
  · exact refract_tail_one hs I N _ (not_lt.mp h)

/-- Normalising a unit vector leaves it unchanged. -/
theorem Vec3.normalize_of_unit {sqrtf : F → F} (hs : IsSqrt sqrtf) (v : Vec3 F)
    (h : v.dot v = 1) : v.norm sqrtf = 1 ∧ v.normalize sqrtf = v := by
  obtain ⟨h1, h2⟩ := Vec3.norm_eval hs v 1 zero_le_one (by rw [h, mul_one])
  refine ⟨h1, ?_⟩
  rw [h2, Vec3.ext_iff3]
  simp

/-- When the whole plane test accepts the plane at distance `d`, `scene_intersect`
returns the plane hit. -/
theorem scene_intersect_of_plane_accepted [FloorRing F] (sqrtf : F → F) (orig dir : Vec3 F)
    (spheres : List (Sphere F)) (hit N : Vec3 F) (material : Material F) (d : F)
    (h : plane_accepted orig dir
      (scan_spheres sqrtf orig dir spheres hit N material).spheres_dist = some d) :
    scene_intersect sqrtf orig dir spheres hit N material =
      ⟨decide (d < 1000), orig + dir.mul d, ⟨0, 1, 0⟩,
        { (scan_spheres sqrtf orig dir spheres hit N material).material with
          diffuse_color := tile_color (orig + dir.mul d) }⟩ := by
  obtain ⟨hv, hlt⟩ := (plane_accepted_eq_some_iff orig dir _ d).mp h
  rw [scene_intersect_eq, hv]
  simp only [if_pos hlt]

/-- When the plane test rejects the plane, `scene_intersect` returns the state of the
sphere loop. -/
theorem scene_intersect_of_plane_rejected [FloorRing F] (sqrtf : F → F) (orig dir : Vec3 F)
    (spheres : List (Sphere F)) (hit N : Vec3 F) (material : Material F)
    (h : plane_accepted orig dir
      (scan_spheres sqrtf orig dir spheres hit N material).spheres_dist = none) :
    scene_intersect sqrtf orig dir spheres hit N material =
      ⟨decide ((scan_spheres sqrtf orig dir spheres hit N material).spheres_dist < 1000),
        (scan_spheres sqrtf orig dir spheres hit N material).hit,
        (scan_spheres sqrtf orig dir spheres hit N material).N,
        (scan_spheres sqrtf orig dir spheres hit N material).material⟩ := by
  rw [scene_intersect_eq]
  cases hv : plane_visible orig dir with
  | none => rfl
  | some d =>
    have hnlt : ¬ d < (scan_spheres sqrtf orig dir spheres hit N material).spheres_dist := by
      intro hlt
      rw [(plane_accepted_eq_some_iff orig dir _ d).mpr ⟨hv, hlt⟩] at h
      cases h
    simp only [if_neg hnlt]

/-- In the visible window the two truncations of the tile rule are a floor (the `x` term
is positive) and a ceiling (the `z` term is negative). -/
theorem toInt_window [FloorRing F] (p : Vec3 F) (hx : |p.x| < 10) (_hz1 : -30 < p.z)
    (hz2 : p.z < -10) :
    toInt (0.5 * p.x + 1000) = ⌊0.5 * p.x + 1000⌋ ∧ toInt (0.5 * p.z) = ⌈0.5 * p.z⌉ := by
  obtain ⟨hx1, hx2⟩ := abs_lt.mp hx
  have h1 : (0 : F) ≤ 0.5 * p.x + 1000 := by norm_num; linarith
  have h2 : ¬ ((0 : F) ≤ 0.5 * p.z) := by norm_num; linarith
  simp only [toInt, if_pos h1, if_neg h2, and_self]

/-- The two tile colours are different. -/
theorem tile_colors_ne : (⟨1, 1, 1⟩ : Vec3 F) ≠ ⟨0, 0, 0⟩ := by
  intro h
  have := congrArg Vec3.x h
  simp at this

/-- Two window points whose parity sums differ by one get different tile colours. -/
theorem tile_color_ne_of_succ [FloorRing F] (p q : Vec3 F)
    (h : toInt (0.5 * q.x + 1000) + toInt (0.5 * q.z)
      = toInt (0.5 * p.x + 1000) + toInt (0.5 * p.z) + 1) :
    tile_color p ≠ tile_color q := by
  simp only [tile_color, h]
  by_cases hp : (toInt (0.5 * p.x + 1000) + toInt (0.5 * p.z)) % 2 = 0
  · have hq : (toInt (0.5 * p.x + 1000) + toInt (0.5 * p.z) + 1) % 2 ≠ 0 := by omega
    simp only [hp, hq, ne_eq, not_true_eq_false, not_false_eq_true, if_false, if_true]
    exact fun h => tile_colors_ne h.symm
  · have hq : (toInt (0.5 * p.x + 1000) + toInt (0.5 * p.z) + 1) % 2 = 0 := by omega
    simp only [hp, hq, ne_eq, not_true_eq_false, not_false_eq_true, if_false, if_true]
    exact tile_colors_ne

/-- A sphere of the list met by the ray at a distance below 1000 makes `scene_intersect`
return true. -/
theorem scene_intersect_ret_of_sphere [FloorRing F] (sqrtf : F → F) (orig dir : Vec3 F)
    (spheres : List (Sphere F)) (hit N : Vec3 F) (material : Material F) (s : Sphere F)
    (t : F) (hmem : s ∈ spheres) (hray : s.ray_intersect sqrtf orig dir = some t)
    (ht : t < 1000) : (scene_intersect sqrtf orig dir spheres hit N material).ret = true := by
  by_contra h
  have h' : (scene_intersect sqrtf orig dir spheres hit N material).ret = false := by
    simpa using h
  have := (scene_intersect_spec sqrtf orig dir spheres hit N material).2 h' t
    (List.mem_append.mpr (Or.inl ((mem_sphere_dists sqrtf orig dir spheres t).mpr
      ⟨s, hmem, hray⟩)))
  linarith

/-- The sphere loop for a unit direction and spheres of positive radius: when it has
updated its state, the stored hit point lies on the sphere that wrote it, and the stored
normal is `(hit - center) / radius`, a unit vector. -/
theorem scan_spheres_hit_geometry {sqrtf : F → F} (hs : IsSqrt sqrtf) (orig dir : Vec3 F)
    (hdir : dir.dot dir = 1) (spheres : List (Sphere F))
    (hpos : ∀ s ∈ spheres, 0 < s.radius) (hit N : Vec3 F) (material : Material F) :
    scan_spheres sqrtf orig dir spheres hit N material = ⟨FLT_MAX, hit, N, material⟩ ∨
      ∃ s, spheres.find? (fun s => decide (s.ray_intersect sqrtf orig dir =
          some (scan_spheres sqrtf orig dir spheres hit N material).spheres_dist)) = some s ∧
        (scan_spheres sqrtf orig dir spheres hit N material).material = s.material ∧
        (scan_spheres sqrtf orig dir spheres hit N material).hit =
          orig + dir.mul (scan_spheres sqrtf orig dir spheres hit N material).spheres_dist ∧
        ((scan_spheres sqrtf orig dir spheres hit N material).hit - s.center).norm sqrtf
          = s.radius ∧
        (scan_spheres sqrtf orig dir spheres hit N material).N =
          ((scan_spheres sqrtf orig dir spheres hit N material).hit - s.center).mul
            (1 / s.radius) ∧
        (scan_spheres sqrtf orig dir spheres hit N material).N.dot
          (scan_spheres sqrtf orig dir spheres hit N material).N = 1 := by
  obtain ⟨-, hst⟩ := scan_spheres_spec sqrtf orig dir spheres hit N material
  rcases hst with h | ⟨-, s, hfind, hhit, hN, hmat⟩
  · exact Or.inl h
  · right
    have hmem : s ∈ spheres := List.mem_of_find?_eq_some hfind
    have hray : s.ray_intersect sqrtf orig dir
        = some (scan_spheres sqrtf orig dir spheres hit N material).spheres_dist := by
      simpa using List.find?_some hfind
    have hr := hpos s hmem
    have hon := ((ray_intersect_geometry hs s orig dir hdir).2 _ hray).1.2
    rw [← hhit] at hon
    have hnorm := (Vec3.norm_eq_iff hs _ (le_of_lt hr)).mpr hon
    have hNeq : (scan_spheres sqrtf orig dir spheres hit N material).N =
        ((scan_spheres sqrtf orig dir spheres hit N material).hit - s.center).mul
          (1 / s.radius) := by
      rw [hN, Vec3.normalize, hnorm]
    refine ⟨s, hfind, hmat, hhit, hnorm, hNeq, ?_⟩
    rw [hN]
    refine (Vec3.normalize_dot_self hs _).1 ?_
    rw [hon]
    exact mul_pos hr hr

/-- The plane's normal `(0,1,0)` is a unit vector. -/
theorem up_unit : (⟨0, 1, 0⟩ : Vec3 F).dot ⟨0, 1, 0⟩ = 1 := by
  simp [Vec3.dot]

/-- For a unit direction and spheres of positive radius, the normal returned with a hit
is a unit vector. -/
theorem scene_intersect_N_unit [FloorRing F] {sqrtf : F → F} (hs : IsSqrt sqrtf)
    (orig dir : Vec3 F) (hdir : dir.dot dir = 1) (spheres : List (Sphere F))
    (hpos : ∀ s ∈ spheres, 0 < s.radius) (hit N : Vec3 F) (material : Material F)
    (hret : (scene_intersect sqrtf orig dir spheres hit N material).ret = true) :
    (scene_intersect sqrtf orig dir spheres hit N material).N.dot
      (scene_intersect sqrtf orig dir spheres hit N material).N = 1 := by
  cases hacc : plane_accepted orig dir
      (scan_spheres sqrtf orig dir spheres hit N material).spheres_dist with
  | some d =>
    rw [scene_intersect_of_plane_accepted sqrtf orig dir spheres hit N material d hacc]
    exact up_unit
  | none =>
    rw [scene_intersect_of_plane_rejected sqrtf orig dir spheres hit N material hacc] at hret ⊢
    have hlt : (scan_spheres sqrtf orig dir spheres hit N material).spheres_dist < 1000 :=
      of_decide_eq_true hret
    rcases scan_spheres_hit_geometry hs orig dir hdir spheres hpos hit N material with
      h | ⟨s, -, -, -, -, -, h⟩
    · rw [h] at hlt
      exact absurd hlt (not_lt.mpr FLT_MAX_ge)
    · exact h

/-- Beyond depth 4 `cast_ray` returns the background colour. -/
theorem cast_ray_of_depth_gt [FloorRing F] (sqrtf : F → F) (powf : F → F → F)
    (orig dir : Vec3 F) (spheres : List (Sphere F)) (lights : List (Light F)) (depth : Nat)
    (h : depth > 4) : cast_ray sqrtf powf orig dir spheres lights depth = background := by
  rw [cast_ray]
  simp only [dif_pos h]

/-- At depth 4 a hit composes the local terms with the background colour for both
secondary rays. -/
theorem cast_ray_depth_four [FloorRing F] (sqrtf : F → F) (powf : F → F → F)
    (orig dir : Vec3 F) (spheres : List (Sphere F)) (lights : List (Light F))
    (hhit : (scene_intersect sqrtf orig dir spheres 0 0 Material.default).ret = true) :
    cast_ray sqrtf powf orig dir spheres lights 4 =
      (((scene_intersect sqrtf orig dir spheres 0 0 Material.default).material.diffuse_color.mul
            (diffuse_sum sqrtf spheres
              (scene_intersect sqrtf orig dir spheres 0 0 Material.default).hit
              (scene_intersect sqrtf orig dir spheres 0 0 Material.default).N lights)).mul
          (scene_intersect sqrtf orig dir spheres 0 0 Material.default).material.albedo.a0
        + ((⟨1, 1, 1⟩ : Vec3 F).mul
            (specular_sum sqrtf powf spheres dir
              (scene_intersect sqrtf orig dir spheres 0 0 Material.default).hit
              (scene_intersect sqrtf orig dir spheres 0 0 Material.default).N
              (scene_intersect sqrtf orig dir spheres 0 0
                Material.default).material.specular_exponent lights)).mul
          (scene_intersect sqrtf orig dir spheres 0 0 Material.default).material.albedo.a1
        + background.mul
          (scene_intersect sqrtf orig dir spheres 0 0 Material.default).material.albedo.a2)
      + background.mul
          (scene_intersect sqrtf orig dir spheres 0 0 Material.default).material.albedo.a3 := by
  rw [cast_ray]
  simp only [gt_iff_lt, lt_self_iff_false, dite_false, hhit, Bool.not_true,
    Bool.false_eq_true, if_false, light_loop_eq_sums, zero_add,
    cast_ray_of_depth_gt sqrtf powf _ _ spheres lights (4 + 1) (by norm_num)]

/-- The ray from `(8/5, 0, 0)` toward `+z` inside the sphere of radius 2 at the origin
meets the sphere from inside at distance `6/5`, in the point `(8/5, 0, 6/5)` with normal
`(4/5, 0, 3/5)`. -/
theorem scene_intersect_inside_origin_sphere [FloorRing F] {sqrtf : F → F}
    (hs : IsSqrt sqrtf) (m : Material F) :
    scene_intersect sqrtf ⟨8 / 5, 0, 0⟩ ⟨0, 0, 1⟩ [origin_sphere m] 0 0 Material.default
      = ⟨true, ⟨8 / 5, 0, 6 / 5⟩, ⟨4 / 5, 0, 3 / 5⟩, m⟩ := by
  have hray : (origin_sphere m).ray_intersect sqrtf ⟨8 / 5, 0, 0⟩ ⟨0, 0, 1⟩ = some (6 / 5) := by
    rw [ray_intersect_eval hs _ _ _ 0 (6 / 5) (by simp [Vec3.dot, origin_sphere])
      (by simp [Vec3.dot, origin_sphere]; norm_num) (by norm_num)]
    rw [if_pos (by norm_num), if_neg (by norm_num)]
    norm_num
  have hlt : (6 / 5 : F) < FLT_MAX := lt_of_lt_of_le (by norm_num) FLT_MAX_ge
  have hpt : (⟨8 / 5, 0, 0⟩ : Vec3 F) + (⟨0, 0, 1⟩ : Vec3 F).mul (6 / 5) = ⟨8 / 5, 0, 6 / 5⟩ := by
    rw [Vec3.ext_iff3]
    simp
  have hN : ((⟨8 / 5, 0, 6 / 5⟩ : Vec3 F) - (origin_sphere m).center).normalize sqrtf
      = ⟨4 / 5, 0, 3 / 5⟩ := by
    rw [(Vec3.norm_eval hs _ 2 (by norm_num)
      (by simp [Vec3.dot, origin_sphere]; norm_num)).2, Vec3.ext_iff3]
    simp [origin_sphere]
    norm_num
  have hscan : scan_spheres sqrtf ⟨8 / 5, 0, 0⟩ ⟨0, 0, 1⟩ [origin_sphere m] 0 0
      (Material.default : Material F) = ⟨6 / 5, ⟨8 / 5, 0, 6 / 5⟩, ⟨4 / 5, 0, 3 / 5⟩, m⟩ := by
    rw [scan_spheres_singleton, sphere_step_of_some _ _ _ _ _ _ hray hlt, hpt, hN]
    rfl
  rw [scene_intersect_eq, plane_visible_horizontal _ _ rfl]
  simp only [hscan]
  rw [decide_eq_true (by norm_num : (6 / 5 : F) < 1000)]

/-- At the hit of `scene_intersect_inside_origin_sphere`, a refractive index 1.5 gives
total internal reflection: `refract` returns the zero vector. -/
theorem refract_inside_origin_sphere (sqrtf : F → F) :
    refract sqrtf (⟨0, 0, 1⟩ : Vec3 F) ⟨4 / 5, 0, 3 / 5⟩ 1.5 = ⟨0, 0, 0⟩ := by
  have hdot : (⟨0, 0, 1⟩ : Vec3 F).dot ⟨4 / 5, 0, 3 / 5⟩ = 3 / 5 := by simp [Vec3.dot]
  have hmin : min (1 : F) (3 / 5) = 3 / 5 := min_eq_right (by norm_num)
  have hmax : max (-1 : F) (3 / 5) = 3 / 5 := max_eq_right (by norm_num)
  have hcos : -(3 / 5 : F) < 0 := by norm_num
  have hk : (1 : F) - 1.5 / 1 * (1.5 / 1) * (1 - 3 / 5 * (3 / 5)) < 0 := by norm_num
  simp only [refract, refract_tail, hdot, hmin, hmax, if_pos hcos, neg_neg, if_pos hk]

/-- The colour of the ray of `scene_intersect_inside_origin_sphere` at depth 4 with no
light, for a sphere material `glass_with a3`: both secondary rays return the background
colour, weighted by `albedo[2] = 0.1` and `albedo[3] = a3`. -/
theorem cast_ray_inside_origin_sphere [FloorRing F] {sqrtf : F → F} (hs : IsSqrt sqrtf)
    (powf : F → F → F) (a3 : F) :
    cast_ray sqrtf powf ⟨8 / 5, 0, 0⟩ ⟨0, 0, 1⟩ [origin_sphere (glass_with a3)] [] 4
      = ⟨0.2 * (0.1 + a3), 0.7 * (0.1 + a3), 0.8 * (0.1 + a3)⟩ := by
  have hq := scene_intersect_inside_origin_sphere hs (glass_with a3)
  rw [cast_ray_depth_four sqrtf powf _ _ _ _ (by rw [hq]), hq, Vec3.ext_iff3]
  simp [diffuse_sum, specular_sum, glass_with, background]
  refine ⟨?_, ?_, ?_⟩ <;> ring

/-! ### The call tree of `cast_ray` -/

/-- Beyond depth 4 a call of `cast_ray` is one evaluation. -/
theorem cast_ray_calls_of_depth_gt [FloorRing F] (sqrtf : F → F) (orig dir : Vec3 F)
    (spheres : List (Sphere F)) (depth : Nat) (h : depth > 4) :
    cast_ray_calls sqrtf orig dir spheres depth = 1 := by
  rw [cast_ray_calls]
  simp only [dif_pos h]

/-- A call of `cast_ray` whose ray hits nothing is one evaluation. -/
theorem cast_ray_calls_of_miss [FloorRing F] (sqrtf : F → F) (orig dir : Vec3 F)
    (spheres : List (Sphere F)) (depth : Nat)
    (h : (scene_intersect sqrtf orig dir spheres 0 0 Material.default).ret = false) :
    cast_ray_calls sqrtf orig dir spheres depth = 1 := by
  rw [cast_ray_calls]
  split_ifs <;> simp_all

/-- A call of `cast_ray` at depth at most 4 whose ray hits the scene causes the
evaluations of its two recursive calls and its own. -/
theorem cast_ray_calls_of_hit [FloorRing F] (sqrtf : F → F) (orig dir : Vec3 F)
    (spheres : List (Sphere F)) (depth : Nat) (hd : depth ≤ 4)
    (h : (scene_intersect sqrtf orig dir spheres 0 0 Material.default).ret = true) :
    cast_ray_calls sqrtf orig dir spheres depth =
      1 + cast_ray_calls sqrtf
          (if (reflect dir (scene_intersect sqrtf orig dir spheres 0 0 Material.default).N).dot
              (scene_intersect sqrtf orig dir spheres 0 0 Material.default).N < 0
            then (scene_intersect sqrtf orig dir spheres 0 0 Material.default).hit
              - (scene_intersect sqrtf orig dir spheres 0 0 Material.default).N.mul 1e-3
            else (scene_intersect sqrtf orig dir spheres 0 0 Material.default).hit
              + (scene_intersect sqrtf orig dir spheres 0 0 Material.default).N.mul 1e-3)
          (reflect dir (scene_intersect sqrtf orig dir spheres 0 0 Material.default).N)
          spheres (depth + 1)
        + cast_ray_calls sqrtf
          (if ((refract sqrtf dir (scene_intersect sqrtf orig dir spheres 0 0 Material.default).N
                (scene_intersect sqrtf orig dir spheres 0 0
                  Material.default).material.refractive_index).normalize sqrtf).dot
              (scene_intersect sqrtf orig dir spheres 0 0 Material.default).N < 0
            then (scene_intersect sqrtf orig dir spheres 0 0 Material.default).hit
              - (scene_intersect sqrtf orig dir spheres 0 0 Material.default).N.mul 1e-3
            else (scene_intersect sqrtf orig dir spheres 0 0 Material.default).hit
              + (scene_intersect sqrtf orig dir spheres 0 0 Material.default).N.mul 1e-3)
          ((refract sqrtf dir (scene_intersect sqrtf orig dir spheres 0 0 Material.default).N
            (scene_intersect sqrtf orig dir spheres 0 0
              Material.default).material.refractive_index).normalize sqrtf)
          spheres (depth + 1) := by
  have hd' : ¬ depth > 4 := by omega
  rw [cast_ray_calls]
  simp only [dif_neg hd', h, Bool.not_true, Bool.false_eq_true, if_false]

/-- The number of evaluations caused by a call at depth `d` with `d + k = 5` is at most
`2^(k+1) - 1`. -/
theorem cast_ray_calls_le [FloorRing F] (sqrtf : F → F) (spheres : List (Sphere F)) :
    ∀ (k d : Nat), d + k = 5 → ∀ orig dir : Vec3 F,
      cast_ray_calls sqrtf orig dir spheres d ≤ 2 ^ (k + 1) - 1 := by
  intro k
  induction k with
  | zero =>
    intro d hd orig dir
    rw [cast_ray_calls_of_depth_gt sqrtf orig dir spheres d (by omega)]
    norm_num
  | succ k ih =>
    intro d hd orig dir
    have hpow : 2 ^ (k + 1 + 1) = 2 * 2 ^ (k + 1) := by ring
    have hpos : 1 ≤ 2 ^ (k + 1) := Nat.one_le_two_pow
    cases hret : (scene_intersect sqrtf orig dir spheres 0 0 Material.default).ret with
    | false =>
      rw [cast_ray_calls_of_miss sqrtf orig dir spheres d hret]
      omega
    | true =>
      rw [cast_ray_calls_of_hit sqrtf orig dir spheres d (by omega) hret]
      have h1 := ih (d + 1) (by omega)
        (if (reflect dir (scene_intersect sqrtf orig dir spheres 0 0 Material.default).N).dot
              (scene_intersect sqrtf orig dir spheres 0 0 Material.default).N < 0
            then (scene_intersect sqrtf orig dir spheres 0 0 Material.default).hit
              - (scene_intersect sqrtf orig dir spheres 0 0 Material.default).N.mul 1e-3
            else (scene_intersect sqrtf orig dir spheres 0 0 Material.default).hit
              + (scene_intersect sqrtf orig dir spheres 0 0 Material.default).N.mul 1e-3)
        (reflect dir (scene_intersect sqrtf orig dir spheres 0 0 Material.default).N)
      have h2 := ih (d + 1) (by omega)
        (if ((refract sqrtf dir (scene_intersect sqrtf orig dir spheres 0 0 Material.default).N
                (scene_intersect sqrtf orig dir spheres 0 0
                  Material.default).material.refractive_index).normalize sqrtf).dot
              (scene_intersect sqrtf orig dir spheres 0 0 Material.default).N < 0
            then (scene_intersect sqrtf orig dir spheres 0 0 Material.default).hit
              - (scene_intersect sqrtf orig dir spheres 0 0 Material.default).N.mul 1e-3
            else (scene_intersect sqrtf orig dir spheres 0 0 Material.default).hit
              + (scene_intersect sqrtf orig dir spheres 0 0 Material.default).N.mul 1e-3)
        ((refract sqrtf dir (scene_intersect sqrtf orig dir spheres 0 0 Material.default).N
            (scene_intersect sqrtf orig dir spheres 0 0
              Material.default).material.refractive_index).normalize sqrtf)
      omega

/-- The number of scene queries caused by a call at depth `d` with `d + k = 5` is at
most `2^k - 1`. -/
theorem cast_ray_queries_le [FloorRing F] (sqrtf : F → F) (spheres : List (Sphere F)) :
    ∀ (k d : Nat), d + k = 5 → ∀ orig dir : Vec3 F,
      cast_ray_queries sqrtf orig dir spheres d ≤ 2 ^ k - 1 := by
  intro k
  induction k with
  | zero =>
    intro d hd orig dir
    have h : d > 4 := by omega
    rw [cast_ray_queries]
    simp only [dif_pos h]
    norm_num
  | succ k ih =>
    intro d hd orig dir
    have hpow : 2 ^ (k + 1) = 2 * 2 ^ k := by ring
    have hpos : 1 ≤ 2 ^ k := Nat.one_le_two_pow
    have hd' : ¬ d > 4 := by omega
    rw [cast_ray_queries]
    simp only [dif_neg hd']
    by_cases hret : (!(scene_intersect sqrtf orig dir spheres 0 0 Material.default).ret) = true
    · rw [if_pos hret]
      omega
    · rw [if_neg hret]
      have h1 := ih (d + 1) (by omega)
      refine le_trans (Nat.add_le_add (Nat.add_le_add_left (h1 _ _) 1) (h1 _ _)) ?_
      omega

/-- The scalar estimates for a ray that starts strictly inside a sphere: the half-chord
`thc` exceeds `|tca|` and is at most the radius. -/
theorem inside_bounds (r thc tca LL : F) (hr : 0 < r) (h0 : 0 ≤ thc)
    (hCS : tca * tca ≤ LL) (hin : LL < r * r) (h2 : thc * thc = r * r - (LL - tca * tca)) :
    |tca| < thc ∧ thc ≤ r := by
  constructor
  · have h : |tca| < |thc| := abs_lt_iff_mul_self_lt.mpr (by linarith)
    rwa [abs_of_nonneg h0] at h
  · have h : |thc| ≤ |r| := abs_le_iff_mul_self_le.mpr (by linarith)
    rwa [abs_of_nonneg h0, abs_of_pos hr] at h

/-- A ray with unit direction that starts strictly inside a sphere meets it, at a
distance below the diameter, and up to that distance stays inside the closed ball. -/
theorem ray_intersect_from_inside {sqrtf : F → F} (hs : IsSqrt sqrtf) (s : Sphere F)
    (orig dir : Vec3 F) (hdir : dir.dot dir = 1) (hr : 0 < s.radius)
    (hin : (s.center - orig).dot (s.center - orig) < s.radius * s.radius) :
    ∃ t, s.ray_intersect sqrtf orig dir = some t ∧ t < 2 * s.radius ∧
      ∀ w, 0 ≤ w → w ≤ t →
        (orig + dir.mul w - s.center).dot (orig + dir.mul w - s.center)
          ≤ s.radius * s.radius := by
  have hCS : (s.center - orig).dot dir * (s.center - orig).dot dir
      ≤ (s.center - orig).dot (s.center - orig) := by
    have := (s.center - orig).dot_mul_self_le dir
    rwa [hdir, mul_one] at this
  set tca := (s.center - orig).dot dir with htca
  set LL := (s.center - orig).dot (s.center - orig) with hLL
  have htt : 0 ≤ tca * tca := mul_self_nonneg tca
  have harg : 0 ≤ s.radius * s.radius - (LL - tca * tca) := by linarith
  have hthc0 := hs.nonneg _ harg
  have hthc2 := hs.mul_self _ harg
  obtain ⟨habs, hle⟩ := inside_bounds s.radius _ tca LL hr hthc0 hCS hin hthc2
  obtain ⟨hlo, hhi⟩ := abs_lt.mp habs
  refine ⟨tca + sqrtf (s.radius * s.radius - (LL - tca * tca)), ?_, by linarith, ?_⟩
  · rw [ray_intersect_eq_some_iff]
    exact ⟨by linarith, by linarith, Or.inr ⟨by linarith, rfl⟩⟩
  · intro w hw0 hwt
    rw [dist_sq_along_ray orig dir s.center w hdir]
    have h1 : |w - tca| ≤ |sqrtf (s.radius * s.radius - (LL - tca * tca))| := by
      rw [abs_of_nonneg hthc0, abs_le]
      constructor <;> linarith
    have h2 := abs_le_iff_mul_self_le.mp h1
    linarith

/-- Reflection about a unit normal keeps the length of the direction. -/
theorem reflect_dot_self (I N : Vec3 F) (hN : N.dot N = 1) :
    (reflect I N).dot (reflect I N) = I.dot I := by
  have hN' : N.x * N.x + N.y * N.y + N.z * N.z = 1 := hN
  simp only [reflect, Vec3.dot, Vec3.sub_x, Vec3.sub_y, Vec3.sub_z, Vec3.mul_x, Vec3.mul_y,
    Vec3.mul_z]
  linear_combination (4 * (I.x * N.x + I.y * N.y + I.z * N.z)
    * (I.x * N.x + I.y * N.y + I.z * N.z)) * hN'

/-- The scalar estimate behind `offset_origin_bound`. -/
theorem offset_bound_scalar (hh hn nn R : F) (hR : 0 ≤ R) (h1 : hh ≤ R * R) (h2 : nn = 1)
    (hCS : hn * hn ≤ hh * nn) :
    hh - 2 * hn * (1 / 1000) + nn * (1 / 1000000) < (R + 1) * (R + 1) ∧
    hh + 2 * hn * (1 / 1000) + nn * (1 / 1000000) < (R + 1) * (R + 1) := by
  rw [h2, mul_one] at hCS
  have h3 : |hn| ≤ |R| := abs_le_iff_mul_self_le.mpr (le_trans hCS h1)
  rw [abs_of_nonneg hR] at h3
  obtain ⟨hlo, hhi⟩ := abs_le.mp h3
  rw [h2]
  constructor <;> nlinarith

/-- An origin offset by `1e-3` along a unit normal from a point of the closed ball of
radius `R` around the origin lies strictly inside the ball of radius `R + 1`. -/
theorem offset_origin_bound (hit N : Vec3 F) (R : F) (hR : 0 ≤ R) (hh : hit.dot hit ≤ R * R)
    (hN : N.dot N = 1) (b : Prop) [Decidable b] :
    (if b then hit - N.mul 1e-3 else hit + N.mul 1e-3).dot
      (if b then hit - N.mul 1e-3 else hit + N.mul 1e-3) < (R + 1) * (R + 1) := by
  obtain ⟨h1, h2⟩ := offset_bound_scalar (hit.dot hit) (hit.dot N) (N.dot N) R hR hh hN
    (hit.dot_mul_self_le N)
  split_ifs
  · have he : (hit - N.mul 1e-3).dot (hit - N.mul 1e-3)
        = hit.dot hit - 2 * hit.dot N * (1 / 1000) + N.dot N * (1 / 1000000) := by
      simp only [Vec3.dot, Vec3.sub_x, Vec3.sub_y, Vec3.sub_z, Vec3.mul_x, Vec3.mul_y,
        Vec3.mul_z]
      norm_num
      ring
    rw [he]
    exact h1
  · have he : (hit + N.mul 1e-3).dot (hit + N.mul 1e-3)
        = hit.dot hit + 2 * hit.dot N * (1 / 1000) + N.dot N * (1 / 1000000) := by
      simp only [Vec3.dot, Vec3.add_x, Vec3.add_y, Vec3.add_z, Vec3.mul_x, Vec3.mul_y,
        Vec3.mul_z]
      norm_num
      ring
    rw [he]
    exact h2

/-- When every sphere of the scene and the material passed in have refractive index 1,
so has the material returned by `scene_intersect`. -/
theorem scene_intersect_index_one [FloorRing F] (sqrtf : F → F) (orig dir : Vec3 F)
    (spheres : List (Sphere F)) (hit N : Vec3 F) (material : Material F)
    (hsph : ∀ s ∈ spheres, s.material.refractive_index = 1)
    (hmat : material.refractive_index = 1) :
    (scene_intersect sqrtf orig dir spheres hit N material).material.refractive_index = 1 := by
  obtain ⟨-, hst⟩ := scan_spheres_spec sqrtf orig dir spheres hit N material
  have hloop : (scan_spheres sqrtf orig dir spheres hit N material).material.refractive_index
      = 1 := by
    rcases hst with h | ⟨-, s, hfind, -, -, hm⟩
    · rw [h]; exact hmat
    · rw [hm]; exact hsph s (List.mem_of_find?_eq_some hfind)
  rw [scene_intersect_eq]
  cases plane_visible orig dir with
  | none => exact hloop
  | some d =>
    by_cases hd : d < (scan_spheres sqrtf orig dir spheres hit N material).spheres_dist
    · simp only [if_pos hd]
      exact hloop
    · simp only [if_neg hd]
      exact hloop

/-- The spheres of `nested_spheres` have positive radius and refractive index 1. -/
theorem nested_spheres_spec :
    (∀ s ∈ (nested_spheres : List (Sphere F)), 0 < s.radius) ∧
    (∀ s ∈ (nested_spheres : List (Sphere F)), s.material.refractive_index = 1) ∧
    (∀ d : Nat, d ≤ 4 → nested_sphere ((d : F) + 2) ∈ (nested_spheres : List (Sphere F))) := by
  refine ⟨?_, ?_, ?_⟩
  · intro s hs
    simp only [nested_spheres, List.mem_cons, List.mem_singleton, List.not_mem_nil,
      or_false] at hs
    rcases hs with h | h | h | h | h <;> rw [h] <;> simp [nested_sphere]
  · intro s hs
    simp only [nested_spheres, List.mem_cons, List.mem_singleton, List.not_mem_nil,
      or_false] at hs
    rcases hs with h | h | h | h | h <;> rw [h] <;> rfl
  · intro d hd
    have h2 : ((0 : Nat) : F) + 2 = 2 := by norm_num
    have h3 : ((1 : Nat) : F) + 2 = 3 := by norm_num
    have h4 : ((2 : Nat) : F) + 2 = 4 := by norm_num
    have h5 : ((3 : Nat) : F) + 2 = 5 := by norm_num
    have h6 : ((4 : Nat) : F) + 2 = 6 := by norm_num
    interval_cases d
    · rw [h2]; simp [nested_spheres]
    · rw [h3]; simp [nested_spheres]
    · rw [h4]; simp [nested_spheres]
    · rw [h5]; simp [nested_spheres]
    · rw [h6]; simp [nested_spheres]

/-- In the scene `nested_spheres` every ray with unit direction that starts at depth `d`
strictly inside the sphere of radius `d + 2` hits the scene, and so do all its
descendants down to depth 4: the call causes the full `2^(k+1) - 1` evaluations, where
`d + k = 5`. -/
theorem cast_ray_calls_nested [FloorRing F] {sqrtf : F → F} (hs : IsSqrt sqrtf) :
    ∀ (k d : Nat), d + k = 5 → ∀ orig dir : Vec3 F, dir.dot dir = 1 →
      orig.dot orig < ((d : F) + 2) * ((d : F) + 2) →
      cast_ray_calls sqrtf orig dir nested_spheres d = 2 ^ (k + 1) - 1 := by
  intro k
  induction k with
  | zero =>
    intro d hd orig dir _ _
    rw [cast_ray_calls_of_depth_gt sqrtf orig dir _ d (by omega)]
    norm_num
  | succ k ih =>
    intro d hd orig dir hdir hin
    obtain ⟨hpos, hidx, hmemd⟩ := nested_spheres_spec (F := F)
    have hd4 : d ≤ 4 := by omega
    have hdF : (d : F) ≤ 4 := by exact_mod_cast hd4
    have hd0 : (0 : F) ≤ (d : F) := Nat.cast_nonneg d
    have hR : (0 : F) < (d : F) + 2 := by linarith
    have hmem := hmemd d hd4
    have hin' : ((nested_sphere ((d : F) + 2)).center - orig).dot
        ((nested_sphere ((d : F) + 2)).center - orig)
        < (nested_sphere ((d : F) + 2)).radius * (nested_sphere ((d : F) + 2)).radius := by
      have he : ((nested_sphere ((d : F) + 2)).center - orig).dot
          ((nested_sphere ((d : F) + 2)).center - orig) = orig.dot orig := by
        simp only [nested_sphere, Vec3.dot, Vec3.sub_x, Vec3.sub_y, Vec3.sub_z]
        ring
      rw [he]
      exact hin
    obtain ⟨t, hray, ht, hball⟩ :=
      ray_intersect_from_inside hs (nested_sphere ((d : F) + 2)) orig dir hdir hR hin'
    have ht' : t < 2 * ((d : F) + 2) := ht
    have hret := scene_intersect_ret_of_sphere sqrtf orig dir nested_spheres 0 0
      Material.default _ t hmem hray (by linarith)
    obtain ⟨w, -, hwmem, hwmin, hwhit⟩ :=
      (scene_intersect_spec sqrtf orig dir nested_spheres 0 0 Material.default).1 hret
    have hw0 := candidates_nonneg sqrtf orig dir nested_spheres w hwmem
    have hwt : w ≤ t := hwmin t (List.mem_append.mpr
      (Or.inl ((mem_sphere_dists sqrtf orig dir nested_spheres t).mpr ⟨_, hmem, hray⟩)))
    have hhit : (scene_intersect sqrtf orig dir nested_spheres 0 0 Material.default).hit.dot
        (scene_intersect sqrtf orig dir nested_spheres 0 0 Material.default).hit
        ≤ ((d : F) + 2) * ((d : F) + 2) := by
      have hb := hball w hw0 hwt
      rw [← hwhit] at hb
      have he : ((scene_intersect sqrtf orig dir nested_spheres 0 0 Material.default).hit
          - (nested_sphere ((d : F) + 2)).center).dot
          ((scene_intersect sqrtf orig dir nested_spheres 0 0 Material.default).hit
          - (nested_sphere ((d : F) + 2)).center)
          = (scene_intersect sqrtf orig dir nested_spheres 0 0 Material.default).hit.dot
            (scene_intersect sqrtf orig dir nested_spheres 0 0 Material.default).hit := by
        simp only [nested_sphere, Vec3.dot, Vec3.sub_x, Vec3.sub_y, Vec3.sub_z, sub_zero]
      rw [he] at hb
      exact hb
    have hN := scene_intersect_N_unit hs orig dir hdir nested_spheres hpos 0 0
      Material.default hret
    have hri := scene_intersect_index_one sqrtf orig dir nested_spheres 0 0 Material.default
      hidx rfl
    have hcast : (((d + 1 : Nat) : F) + 2) * (((d + 1 : Nat) : F) + 2)
        = ((d : F) + 2 + 1) * ((d : F) + 2 + 1) := by
      push_cast
      ring
    rw [cast_ray_calls_of_hit sqrtf orig dir nested_spheres d hd4 hret, hri,
      refract_index_one hs, (Vec3.normalize_of_unit hs dir hdir).2]
    rw [ih (d + 1) (by omega) _ _
        (by rw [reflect_dot_self dir _ hN]; exact hdir)
        (by rw [hcast]; exact offset_origin_bound _ _ _ (le_of_lt hR) hhit hN _),
      ih (d + 1) (by omega) _ _ hdir
        (by rw [hcast]; exact offset_origin_bound _ _ _ (le_of_lt hR) hhit hN _)]
    have hpow : 2 ^ (k + 1 + 1) = 2 * 2 ^ (k + 1) := by ring
    have hpos2 : 1 ≤ 2 ^ (k + 1) := Nat.one_le_two_pow
    omega

/-! ### Non-negative colours -/

/-- The sum of two non-negative colours is non-negative. -/
theorem Vec3.Nonneg.add {a b : Vec3 F} (ha : a.Nonneg) (hb : b.Nonneg) : (a + b).Nonneg :=
  ⟨add_nonneg ha.1 hb.1, add_nonneg ha.2.1 hb.2.1, add_nonneg ha.2.2 hb.2.2⟩

/-- A non-negative colour scaled by a non-negative factor is non-negative. -/
theorem Vec3.Nonneg.mul {a : Vec3 F} {k : F} (ha : a.Nonneg) (hk : 0 ≤ k) : (a.mul k).Nonneg :=
  ⟨mul_nonneg ha.1 hk, mul_nonneg ha.2.1 hk, mul_nonneg ha.2.2 hk⟩

/-- The background colour is non-negative. -/
theorem background_nonneg : (background : Vec3 F).Nonneg := by
  simp only [Vec3.Nonneg, background]
  norm_num

/-- Both tile colours are non-negative. -/
theorem tile_color_nonneg [FloorRing F] (hit : Vec3 F) : (tile_color hit).Nonneg := by
  simp only [tile_color]
  split_ifs
  · simp only [Vec3.Nonneg]
    norm_num
  · simp only [Vec3.Nonneg]
    norm_num

/-- The default material is non-negative. -/
theorem default_material_nonneg : (Material.default : Material F).Nonneg := by
  simp only [Material.Nonneg, Material.default, Vec3.Nonneg, Vec3.zero_x, Vec3.zero_y,
    Vec3.zero_z]
  norm_num

/-- When the sphere materials and the material passed in are non-negative, so is the
material returned by `scene_intersect`. -/
theorem scene_intersect_material_nonneg [FloorRing F] (sqrtf : F → F) (orig dir : Vec3 F)
    (spheres : List (Sphere F)) (hit N : Vec3 F) (material : Material F)
    (hsph : ∀ s ∈ spheres, s.material.Nonneg) (hmat : material.Nonneg) :
    (scene_intersect sqrtf orig dir spheres hit N material).material.Nonneg := by
  obtain ⟨-, hst⟩ := scan_spheres_spec sqrtf orig dir spheres hit N material
  have hloop : (scan_spheres sqrtf orig dir spheres hit N material).material.Nonneg := by
    rcases hst with h | ⟨-, s, hfind, -, -, hm⟩
    · rw [h]; exact hmat
    · rw [hm]; exact hsph s (List.mem_of_find?_eq_some hfind)
  rw [scene_intersect_eq]
  cases plane_visible orig dir with
  | none => exact hloop
  | some d =>
    by_cases hd : d < (scan_spheres sqrtf orig dir spheres hit N material).spheres_dist
    · simp only [if_pos hd]
      exact ⟨hloop.1, hloop.2.1, hloop.2.2.1, hloop.2.2.2.1, tile_color_nonneg _⟩
    · simp only [if_neg hd]
      exact hloop

/-- The diffuse intensity is non-negative when the light intensities are. -/
theorem diffuse_sum_nonneg [FloorRing F] (sqrtf : F → F) (spheres : List (Sphere F))
    (hit N : Vec3 F) (lights : List (Light F)) (hl : ∀ l ∈ lights, 0 ≤ l.intensity) :
    0 ≤ diffuse_sum sqrtf spheres hit N lights := by
  apply List.sum_nonneg
  intro x hx
  obtain ⟨l, hlmem, rfl⟩ := List.mem_map.mp hx
  exact mul_nonneg (hl l (List.mem_of_mem_filter hlmem)) (le_max_left _ _)

/-- The specular intensity is non-negative when the light intensities are and `powf` is
non-negative on a non-negative base. -/
theorem specular_sum_nonneg [FloorRing F] (sqrtf : F → F) (powf : F → F → F)
    (hpow : ∀ x y, 0 ≤ x → 0 ≤ powf x y) (spheres : List (Sphere F)) (dir hit N : Vec3 F)
    (e : F) (lights : List (Light F)) (hl : ∀ l ∈ lights, 0 ≤ l.intensity) :
    0 ≤ specular_sum sqrtf powf spheres dir hit N e lights := by
  apply List.sum_nonneg
  intro x hx
  obtain ⟨l, hlmem, rfl⟩ := List.mem_map.mp hx
  exact mul_nonneg (hl l (List.mem_of_mem_filter hlmem)) (hpow _ _ (le_max_left _ _))

/-- A call of `cast_ray` at depth at most 4 whose ray hits the scene: the composition of
line 256 with the two sums of the light loop and the colours of the two recursive
calls. -/
theorem cast_ray_of_hit [FloorRing F] (sqrtf : F → F) (powf : F → F → F)
    (orig dir : Vec3 F) (spheres : List (Sphere F)) (lights : List (Light F)) (depth : Nat)
    (hd : depth ≤ 4)
    (h : (scene_intersect sqrtf orig dir spheres 0 0 Material.default).ret = true) :
    cast_ray sqrtf powf orig dir spheres lights depth =
      (((scene_intersect sqrtf orig dir spheres 0 0 Material.default).material.diffuse_color.mul
            (diffuse_sum sqrtf spheres
              (scene_intersect sqrtf orig dir spheres 0 0 Material.default).hit
              (scene_intersect sqrtf orig dir spheres 0 0 Material.default).N lights)).mul
          (scene_intersect sqrtf orig dir spheres 0 0 Material.default).material.albedo.a0
        + ((⟨1, 1, 1⟩ : Vec3 F).mul
            (specular_sum sqrtf powf spheres dir
              (scene_intersect sqrtf orig dir spheres 0 0 Material.default).hit
              (scene_intersect sqrtf orig dir spheres 0 0 Material.default).N
              (scene_intersect sqrtf orig dir spheres 0 0
                Material.default).material.specular_exponent lights)).mul
          (scene_intersect sqrtf orig dir spheres 0 0 Material.default).material.albedo.a1
        + (cast_ray sqrtf powf
            (if (reflect dir (scene_intersect sqrtf orig dir spheres 0 0 Material.default).N).dot
                (scene_intersect sqrtf orig dir spheres 0 0 Material.default).N < 0
              then (scene_intersect sqrtf orig dir spheres 0 0 Material.default).hit
                - (scene_intersect sqrtf orig dir spheres 0 0 Material.default).N.mul 1e-3
              else (scene_intersect sqrtf orig dir spheres 0 0 Material.default).hit
                + (scene_intersect sqrtf orig dir spheres 0 0 Material.default).N.mul 1e-3)
            (reflect dir (scene_intersect sqrtf orig dir spheres 0 0 Material.default).N)
            spheres lights (depth + 1)).mul
          (scene_intersect sqrtf orig dir spheres 0 0 Material.default).material.albedo.a2)
      + (cast_ray sqrtf powf
          (if ((refract sqrtf dir (scene_intersect sqrtf orig dir spheres 0 0 Material.default).N
                (scene_intersect sqrtf orig dir spheres 0 0
                  Material.default).material.refractive_index).normalize sqrtf).dot
              (scene_intersect sqrtf orig dir spheres 0 0 Material.default).N < 0
            then (scene_intersect sqrtf orig dir spheres 0 0 Material.default).hit
              - (scene_intersect sqrtf orig dir spheres 0 0 Material.default).N.mul 1e-3
            else (scene_intersect sqrtf orig dir spheres 0 0 Material.default).hit
              + (scene_intersect sqrtf orig dir spheres 0 0 Material.default).N.mul 1e-3)
          ((refract sqrtf dir (scene_intersect sqrtf orig dir spheres 0 0 Material.default).N
            (scene_intersect sqrtf orig dir spheres 0 0
              Material.default).material.refractive_index).normalize sqrtf)
          spheres lights (depth + 1)).mul
        (scene_intersect sqrtf orig dir spheres 0 0 Material.default).material.albedo.a3 := by
  have hd' : ¬ depth > 4 := by omega
  rw [cast_ray]
  simp only [dif_neg hd', h, Bool.not_true, Bool.false_eq_true, if_false,
    light_loop_eq_sums, zero_add]

/-- A call of `cast_ray` whose ray hits nothing returns the background colour. -/
theorem cast_ray_of_miss [FloorRing F] (sqrtf : F → F) (powf : F → F → F)
    (orig dir : Vec3 F) (spheres : List (Sphere F)) (lights : List (Light F)) (depth : Nat)
    (h : (scene_intersect sqrtf orig dir spheres 0 0 Material.default).ret = false) :
    cast_ray sqrtf powf orig dir spheres lights depth = background := by
  rw [cast_ray]
  by_cases hd : depth > 4
  · simp only [dif_pos hd]
  · simp only [dif_neg hd, h, Bool.not_false, if_true]

/-- Non-negativity of `cast_ray` at depth `d` with `d + k = 5`, by induction on `k`. -/
theorem cast_ray_nonneg_aux [FloorRing F] (sqrtf : F → F) (powf : F → F → F)
    (hpow : ∀ x y, 0 ≤ x → 0 ≤ powf x y) (spheres : List (Sphere F))
    (lights : List (Light F)) (hsph : ∀ s ∈ spheres, s.material.Nonneg)
    (hl : ∀ l ∈ lights, 0 ≤ l.intensity) :
    ∀ (k d : Nat), d + k = 5 → ∀ orig dir : Vec3 F,
      (cast_ray sqrtf powf orig dir spheres lights d).Nonneg := by
  intro k
  induction k with
  | zero =>
    intro d hd orig dir
    rw [cast_ray_of_depth_gt sqrtf powf orig dir spheres lights d (by omega)]
    exact background_nonneg
  | succ k ih =>
    intro d hd orig dir
    cases hret : (scene_intersect sqrtf orig dir spheres 0 0 Material.default).ret with
    | false =>
      rw [cast_ray_of_miss sqrtf powf orig dir spheres lights d hret]
      exact background_nonneg
    | true =>
      rw [cast_ray_of_hit sqrtf powf orig dir spheres lights d (by omega) hret]
      obtain ⟨h0, h1, h2, h3, hdc⟩ := scene_intersect_material_nonneg sqrtf orig dir spheres
        0 0 Material.default hsph default_material_nonneg
      have hwhite : (⟨1, 1, 1⟩ : Vec3 F).Nonneg := by
        simp only [Vec3.Nonneg]
        norm_num
      exact ((((hdc.mul (diffuse_sum_nonneg sqrtf spheres _ _ lights hl)).mul h0).add
        ((hwhite.mul (specular_sum_nonneg sqrtf powf hpow spheres dir _ _ _ lights hl)).mul
          h1)).add ((ih (d + 1) (by omega) _ _).mul h2)).add
        ((ih (d + 1) (by omega) _ _).mul h3)

/-! ### Rays along the `z` axis through the sphere of radius 2 at the origin -/

/-- `Sphere.ray_intersect` for the sphere of radius 2 at the origin and a ray along the
`z` axis, from `(0,0,z0)` in the direction `(0,0,σ)` with `σ = ±1`. -/
theorem ray_intersect_z_axis {sqrtf : F → F} (hs : IsSqrt sqrtf) (m : Material F) (z0 σ : F)
    (hσ : σ * σ = 1) :
    (origin_sphere m).ray_intersect sqrtf ⟨0, 0, z0⟩ ⟨0, 0, σ⟩ =
      if -(z0 * σ) - 2 < 0 then (if -(z0 * σ) + 2 < 0 then none else some (-(z0 * σ) + 2))
      else some (-(z0 * σ) - 2) := by
  rw [ray_intersect_eval hs _ _ _ (-(z0 * σ)) 2 (by simp [Vec3.dot, origin_sphere])
    (by simp [Vec3.dot, origin_sphere]; linear_combination (-(z0 * z0)) * hσ) (by norm_num)]

/-- A ray along the `z` axis that meets the sphere of radius 2 at the origin at the
distance `t < 1000`, in the point `(0,0,2n)` with `n = ±1`: `scene_intersect` returns that
point, the normal `(0,0,n)` and the material of the sphere. -/
theorem scene_intersect_z_axis_hit [FloorRing F] {sqrtf : F → F} (hs : IsSqrt sqrtf)
    (m : Material F) (z0 σ t n : F)
    (hray : (origin_sphere m).ray_intersect sqrtf ⟨0, 0, z0⟩ ⟨0, 0, σ⟩ = some t)
    (ht : t < 1000) (hn : z0 + σ * t = 2 * n) (hn1 : n * n = 1) :
    scene_intersect sqrtf ⟨0, 0, z0⟩ ⟨0, 0, σ⟩ [origin_sphere m] 0 0 Material.default
      = ⟨true, ⟨0, 0, 2 * n⟩, ⟨0, 0, n⟩, m⟩ := by
  have hlt : t < FLT_MAX := lt_of_lt_of_le ht FLT_MAX_ge
  have hpt : (⟨0, 0, z0⟩ : Vec3 F) + (⟨0, 0, σ⟩ : Vec3 F).mul t = ⟨0, 0, 2 * n⟩ := by
    rw [Vec3.ext_iff3]
    simp [hn]
  have hN : ((⟨0, 0, 2 * n⟩ : Vec3 F) - (origin_sphere m).center).normalize sqrtf
      = ⟨0, 0, n⟩ := by
    rw [(Vec3.norm_eval hs _ 2 (by norm_num)
      (by simp [Vec3.dot, origin_sphere]; linear_combination 4 * hn1)).2, Vec3.ext_iff3]
    simp [origin_sphere]
    ring
  have hscan : scan_spheres sqrtf ⟨0, 0, z0⟩ ⟨0, 0, σ⟩ [origin_sphere m] 0 0
      (Material.default : Material F) = ⟨t, ⟨0, 0, 2 * n⟩, ⟨0, 0, n⟩, m⟩ := by
    rw [scan_spheres_singleton, sphere_step_of_some _ _ _ _ _ _ hray hlt, hpt, hN]
    rfl
  rw [scene_intersect_eq, plane_visible_horizontal _ _ rfl]
  simp only [hscan]
  rw [decide_eq_true ht]

/-- A ray along the `z` axis that misses the sphere of radius 2 at the origin hits
nothing. -/
theorem scene_intersect_z_axis_miss [FloorRing F] (sqrtf : F → F) (m : Material F) (z0 σ : F)
    (hray : (origin_sphere m).ray_intersect sqrtf ⟨0, 0, z0⟩ ⟨0, 0, σ⟩ = none) :
    (scene_intersect sqrtf ⟨0, 0, z0⟩ ⟨0, 0, σ⟩ [origin_sphere m] 0 0
      Material.default).ret = false := by
  rw [scene_intersect_eq, plane_visible_horizontal _ _ rfl, scan_spheres_singleton,
    sphere_step_of_none _ _ _ _ _ hray]
  exact decide_eq_false (not_lt.mpr (le_trans (by norm_num) FLT_MAX_ge))

/-- From a point `(0,0,zh)` of the `z` axis, `front_light` lies in the direction
`(0,0,-1)` at the distance `zh + 18`, when `zh > -18`. -/
theorem front_light_dir {sqrtf : F → F} (hs : IsSqrt sqrtf) (zh : F) (h : -18 < zh) :
    ((front_light : Light F).position - ⟨0, 0, zh⟩).norm sqrtf = zh + 18 ∧
    ((front_light : Light F).position - ⟨0, 0, zh⟩).normalize sqrtf = ⟨0, 0, -1⟩ := by
  obtain ⟨h1, h2⟩ := Vec3.norm_eval hs ((front_light : Light F).position - ⟨0, 0, zh⟩)
    (zh + 18) (by linarith) (by simp [Vec3.dot, front_light]; ring)
  refine ⟨h1, ?_⟩
  rw [h2, Vec3.ext_iff3]
  have hne : zh + 18 ≠ 0 := by linarith
  simp [front_light]
  field_simp
  ring

/-- At the front point `(0,0,-2)` of the sphere of radius 2 at the origin, with the normal
`(0,0,-1)`, `front_light` is not occluded: the shadow probe starts at `(0,0,-2.01)` and
leaves the sphere behind. -/
theorem front_light_not_occluded [FloorRing F] {sqrtf : F → F} (hs : IsSqrt sqrtf)
    (m : Material F) :
    occluded sqrtf [origin_sphere m] (⟨0, 0, -2⟩ : Vec3 F) ⟨0, 0, -1⟩ front_light = false := by
  obtain ⟨-, hld⟩ := front_light_dir hs (-2 : F) (by norm_num)
  have hso : (if (⟨0, 0, -1⟩ : Vec3 F).dot ⟨0, 0, -1⟩ < 0
      then (⟨0, 0, -2⟩ : Vec3 F) - (⟨0, 0, -1⟩ : Vec3 F).mul 1e-1
      else (⟨0, 0, -2⟩ : Vec3 F) + (⟨0, 0, -1⟩ : Vec3 F).mul 1e-2) = ⟨0, 0, -201 / 100⟩ := by
    rw [if_neg (by simp [Vec3.dot]), Vec3.ext_iff3]
    simp
    norm_num
  have hray : (origin_sphere m).ray_intersect sqrtf ⟨0, 0, -201 / 100⟩ ⟨0, 0, -1⟩ = none := by
    rw [ray_intersect_z_axis hs m _ _ (by norm_num), if_pos (by norm_num),
      if_pos (by norm_num)]
  simp only [occluded, hld, hso, scene_intersect_z_axis_miss sqrtf m _ _ hray, Bool.false_and]

/-- At the back point `(0,0,2)` of the sphere of radius 2 at the origin, with the normal
`(0,0,1)`, `front_light` is occluded: the shadow probe starts inside the sphere at
`(0,0,1.9)` and meets the sphere at distance 3.9, nearer than the light at distance 20. -/
theorem front_light_occluded [FloorRing F] {sqrtf : F → F} (hs : IsSqrt sqrtf)
    (m : Material F) :
    occluded sqrtf [origin_sphere m] (⟨0, 0, 2⟩ : Vec3 F) ⟨0, 0, 1⟩ front_light = true := by
  obtain ⟨hdist, hld⟩ := front_light_dir hs (2 : F) (by norm_num)
  have hso : (if (⟨0, 0, -1⟩ : Vec3 F).dot ⟨0, 0, 1⟩ < 0
      then (⟨0, 0, 2⟩ : Vec3 F) - (⟨0, 0, 1⟩ : Vec3 F).mul 1e-1
      else (⟨0, 0, 2⟩ : Vec3 F) + (⟨0, 0, 1⟩ : Vec3 F).mul 1e-2) = ⟨0, 0, 19 / 10⟩ := by
    rw [if_pos (by simp [Vec3.dot]), Vec3.ext_iff3]
    simp
    norm_num
  have hray : (origin_sphere m).ray_intersect sqrtf ⟨0, 0, 19 / 10⟩ ⟨0, 0, -1⟩
      = some (39 / 10) := by
    rw [ray_intersect_z_axis hs m _ _ (by norm_num), if_pos (by norm_num),
      if_neg (by norm_num)]
    norm_num
  have hq := scene_intersect_z_axis_hit hs m (19 / 10) (-1) (39 / 10) (-1) hray
    (by norm_num) (by norm_num) (by norm_num)
  have hn : ((⟨0, 0, 2 * -1⟩ : Vec3 F) - ⟨0, 0, 19 / 10⟩).norm sqrtf = 39 / 10 :=
    (Vec3.norm_eval hs _ (39 / 10) (by norm_num) (by simp [Vec3.dot]; norm_num)).1
  simp only [occluded, hld, hso, hq, hn, hdist, Bool.true_and]
  exact decide_eq_true (by norm_num)

/-- `refract` at normal incidence on a unit normal returns the incident direction. -/
theorem refract_neg_normal {sqrtf : F → F} (hs : IsSqrt sqrtf) (N : Vec3 F) (index : F)
    (hN : N.dot N = 1) (hidx : 0 < index) : refract sqrtf (-N) N index = -N := by
  have hdot : (-N).dot N = -1 := by
    have h : N.x * N.x + N.y * N.y + N.z * N.z = 1 := hN
    simp only [Vec3.dot, Vec3.neg_x, Vec3.neg_y, Vec3.neg_z]
    linarith
  have hsq : sqrtf 1 = 1 := hs.eq_of_mul_self zero_le_one (one_mul 1)
  have hcos : ¬ (-max (-1 : F) (min 1 (-1)) < 0) := by norm_num
  have hcos1 : -max (-1 : F) (min 1 (-1)) = 1 := by norm_num
  have hk : (1 : F) - 1 / index * (1 / index) * (1 - 1 * 1) = 1 := by ring
  have h10 : ¬ ((1 : F) < 0) := by norm_num
  simp only [refract, hdot, if_neg hcos, refract_tail, hcos1, hk, hsq, if_neg h10]
  rw [Vec3.ext_iff3]
  simp only [Vec3.add_x, Vec3.add_y, Vec3.add_z, Vec3.mul_x, Vec3.mul_y, Vec3.mul_z,
    Vec3.neg_x, Vec3.neg_y, Vec3.neg_z]
  have := ne_of_gt hidx
  refine ⟨?_, ?_, ?_⟩ <;> ring

end Lemmas

/-! ### Binary floating point: comparisons and signs -/

theorem Flt.lt_irrefl (a : Flt) : Flt.lt a a = false := by
  cases a <;> simp [Flt.lt]

/-- The comparison of two `float`s is the comparison of their data. -/
theorem F32.lt_iff (a b : F32) : a < b ↔ Flt.lt a.val b.val = true := Iff.rfl

/-- No `float` is below itself. -/
theorem F32.not_lt_self (a : F32) : ¬ a < a := by
  rw [F32.lt_iff, Flt.lt_irrefl]
  simp

/-- The `float` literal `0` is `+0`. -/
theorem F32.val_zero : (0 : F32).val = Flt.zero false := rfl

/-- The `float` literal `1` is `2^23 * 2^-23`. -/
theorem F32.val_one : (1 : F32).val = Flt.fin false 8388608 (-23) := by decide!

/-- The datum of a sum. -/
theorem F32.add_val (a b : F32) : (a + b).val = binary32.add a.val b.val := rfl

/-- The datum of a difference: the sum with the sign-flipped subtrahend. -/
theorem F32.sub_val (a b : F32) : (a - b).val = binary32.add a.val b.val.neg := rfl

/-- The datum of a product. -/
theorem F32.mul_val (a b : F32) : (a * b).val = binary32.mul a.val b.val := rfl

/-- The datum of a negation. -/
theorem F32.neg_val (a : F32) : (-a).val = a.val.neg := rfl

/-- The datum of a square root. -/
theorem F32.sqrt_val (a : F32) : (F32.sqrt a).val = binary32.sqrt a.val := rfl

/-- Two `float`s with the same datum are equal. -/
theorem F32.ext_val {a b : F32} (h : a.val = b.val) : a = b := by
  cases a; cases b; simp_all

/-- A finite value minus itself is `+0`. -/
theorem F32.sub_self_of_finite (a : F32) (h : a.val.isFinite = true) : a - a = 0 := by
  apply F32.ext_val
  rw [F32.sub_val, F32.val_zero]
  cases hv : a.val with
  | nan => rw [hv] at h; simp [Flt.isFinite] at h
  | inf s => rw [hv] at h; simp [Flt.isFinite] at h
  | zero s => cases s <;> rfl
  | fin s m e =>
    have hz : Flt.align s m e (Min.min e e) + Flt.align (!s) m e (Min.min e e) = 0 := by
      cases s <;> simp [Flt.align]
    simp only [Flt.neg, Format.add, hz, if_true]

/-- The square root of `+0` is `+0`. -/
theorem F32.sqrt_zero : F32.sqrt 0 = 0 := rfl

/-- Subtracting `+0` changes nothing. -/
theorem F32.sub_zero (a : F32) : a - 0 = a := by
  apply F32.ext_val
  rw [F32.sub_val, F32.val_zero]
  cases a.val with
  | nan => rfl
  | inf s => rfl
  | zero s => cases s <;> rfl
  | fin s m e => rfl

/-! ### `Sphere::ray_intersect` in binary32 -/

/-- The control flow of `Sphere::ray_intersect` in binary32: it returns true with the
distance `t` exactly when the computed `d2` is not above `radius*radius`, `t` is not
negative, and `t` is the near root when that is not negative and the far root
otherwise. -/
theorem ray_intersect32_eq_some_iff (s : Sphere32) (orig dir : Vec3f) (t : F32) :
    s.ray_intersect orig dir = some t ↔
      ¬ ((s.center - orig).dot (s.center - orig)
          - (s.center - orig).dot dir * (s.center - orig).dot dir > s.radius * s.radius) ∧
      ¬ t < 0 ∧
      ((¬ (s.center - orig).dot dir - F32.sqrt (s.radius * s.radius
            - ((s.center - orig).dot (s.center - orig)
              - (s.center - orig).dot dir * (s.center - orig).dot dir)) < 0 ∧
          t = (s.center - orig).dot dir - F32.sqrt (s.radius * s.radius
            - ((s.center - orig).dot (s.center - orig)
              - (s.center - orig).dot dir * (s.center - orig).dot dir))) ∨
        ((s.center - orig).dot dir - F32.sqrt (s.radius * s.radius
            - ((s.center - orig).dot (s.center - orig)
              - (s.center - orig).dot dir * (s.center - orig).dot dir)) < 0 ∧
          t = (s.center - orig).dot dir + F32.sqrt (s.radius * s.radius
            - ((s.center - orig).dot (s.center - orig)
              - (s.center - orig).dot dir * (s.center - orig).dot dir)))) := by
  simp only [Sphere32.ray_intersect]
  by_cases h1 : (s.center - orig).dot (s.center - orig)
      - (s.center - orig).dot dir * (s.center - orig).dot dir > s.radius * s.radius
  · simp [h1]
  · rw [if_neg h1]
    by_cases h2 : (s.center - orig).dot dir - F32.sqrt (s.radius * s.radius
            - ((s.center - orig).dot (s.center - orig)
              - (s.center - orig).dot dir * (s.center - orig).dot dir)) < 0
    · rw [if_pos h2]
      by_cases h3 : (s.center - orig).dot dir + F32.sqrt (s.radius * s.radius
            - ((s.center - orig).dot (s.center - orig)
              - (s.center - orig).dot dir * (s.center - orig).dot dir)) < 0
      · rw [if_pos h3]
        constructor
        · intro h; cases h
        · rintro ⟨-, ht, h | h⟩
          · exact absurd h2 h.1
          · rw [h.2] at ht; exact absurd h3 ht
      · rw [if_neg h3]
        constructor
        · intro h
          cases h
          exact ⟨h1, h3, Or.inr ⟨h2, rfl⟩⟩
        · rintro ⟨-, -, h | h⟩
          · exact absurd h2 h.1
          · rw [h.2]
    · rw [if_neg h2, if_neg h2]
      constructor
      · intro h
        cases h
        exact ⟨h1, h2, Or.inl ⟨h2, rfl⟩⟩
      · rintro ⟨-, -, h | h⟩
        · rw [h.2]
        · exact absurd h.1 h2

/-- A zero computed margin: when the computed `d2` equals the finite `radius*radius` and
the computed foot distance is not negative, `ray_intersect` reports the foot distance. -/
theorem ray_intersect32_zero_margin (s : Sphere32) (orig dir : Vec3f)
    (hfin : (s.radius * s.radius).val.isFinite = true)
    (hd2 : (s.center - orig).dot (s.center - orig)
        - (s.center - orig).dot dir * (s.center - orig).dot dir = s.radius * s.radius)
    (hfoot : ¬ (s.center - orig).dot dir < 0) :
    s.ray_intersect orig dir = some ((s.center - orig).dot dir) := by
  rw [ray_intersect32_eq_some_iff, hd2, F32.sub_self_of_finite _ hfin, F32.sqrt_zero,
    F32.sub_zero]
  exact ⟨F32.not_lt_self _, hfoot, Or.inl ⟨hfoot, rfl⟩⟩

/-! ### `scene_intersect` in binary32 -/

theorem F64.val_milli : (1e-3 : F64).val = Flt.fin false 4611686018427388 (-62) := by decide!

/-- The guard `fabs(dir.y) > 1e-3` excludes both zeros and NaN. -/
theorem plane_guard32 (y : F32) (h : (F32.abs y).toF64 > 1e-3) :
    y.val ≠ Flt.nan ∧ ∀ s, y.val ≠ Flt.zero s := by
  have h' : Flt.lt (1e-3 : F64).val y.val.abs = true := h
  rw [F64.val_milli] at h'
  cases hy : y.val with
  | nan => rw [hy] at h'; simp [Flt.abs, Flt.lt] at h'
  | inf s => simp
  | zero s => rw [hy] at h'; simp [Flt.abs, Flt.lt] at h'
  | fin s m e => simp

/-- What the plane test of lines 154-164 accepts, in binary32. -/
theorem plane_accepted32_eq_some_iff (orig dir : Vec3f) (sd d : F32) :
    plane_accepted32 orig dir sd = some d ↔
      (F32.abs dir.y).toF64 > 1e-3 ∧ d = -(orig.y + 4) / dir.y ∧ d > 0 ∧
      F32.abs (orig + dir.mul d).x < 10 ∧ (orig + dir.mul d).z < -10 ∧
      (orig + dir.mul d).z > -30 ∧ d < sd := by
  simp only [plane_accepted32]
  by_cases hg : (F32.abs dir.y).toF64 > 1e-3
  · rw [if_pos hg]
    by_cases ht : -(orig.y + 4) / dir.y > 0 ∧
        F32.abs (orig + dir.mul (-(orig.y + 4) / dir.y)).x < 10 ∧
        (orig + dir.mul (-(orig.y + 4) / dir.y)).z < -10 ∧
        (orig + dir.mul (-(orig.y + 4) / dir.y)).z > -30 ∧ -(orig.y + 4) / dir.y < sd
    · rw [if_pos ht]
      constructor
      · intro h
        cases h
        exact ⟨hg, rfl, ht⟩
      · rintro ⟨-, hd, -⟩
        rw [hd]
    · rw [if_neg ht]
      constructor
      · intro h; cases h
      · rintro ⟨-, hd, h⟩
        rw [hd] at h
        exact absurd h ht
  · rw [if_neg hg]
    constructor
    · intro h; cases h
    · rintro ⟨h, -⟩
      exact absurd h hg

/-- `scene_intersect` in binary32 when the plane test accepts the plane. -/
theorem scene_intersect32_of_plane_accepted (orig dir : Vec3f) (spheres : List Sphere32)
    (hit N : Vec3f) (material : Material32) (d : F32)
    (h : plane_accepted32 orig dir (scan_spheres32 orig dir spheres hit N material).spheres_dist
      = some d) :
    scene_intersect32 orig dir spheres hit N material =
      ⟨decide (F32.min (scan_spheres32 orig dir spheres hit N material).spheres_dist d < 1000),
        orig + dir.mul d, ⟨0, 1, 0⟩,
        { (scan_spheres32 orig dir spheres hit N material).material with
          diffuse_color := tile_color32 (orig + dir.mul d) }⟩ := by
  obtain ⟨hg, hd, ht⟩ := (plane_accepted32_eq_some_iff orig dir _ d).mp h
  rw [hd] at ht
  simp only [scene_intersect32]
  rw [if_pos hg, if_pos ht, hd]

/-- `scene_intersect` in binary32 when the plane test rejects the plane. -/
theorem scene_intersect32_of_plane_rejected (orig dir : Vec3f) (spheres : List Sphere32)
    (hit N : Vec3f) (material : Material32)
    (h : plane_accepted32 orig dir (scan_spheres32 orig dir spheres hit N material).spheres_dist
      = none) :
    scene_intersect32 orig dir spheres hit N material =
      ⟨decide (F32.min (scan_spheres32 orig dir spheres hit N material).spheres_dist FLT_MAX32
          < 1000),
        (scan_spheres32 orig dir spheres hit N material).hit,
        (scan_spheres32 orig dir spheres hit N material).N,
        (scan_spheres32 orig dir spheres hit N material).material⟩ := by
  simp only [plane_accepted32] at h
  simp only [scene_intersect32]
  by_cases hg : (F32.abs dir.y).toF64 > 1e-3
  · rw [if_pos hg] at h ⊢
    by_cases ht : -(orig.y + 4) / dir.y > 0 ∧
        F32.abs (orig + dir.mul (-(orig.y + 4) / dir.y)).x < 10 ∧
        (orig + dir.mul (-(orig.y + 4) / dir.y)).z < -10 ∧
        (orig + dir.mul (-(orig.y + 4) / dir.y)).z > -30 ∧
        -(orig.y + 4) / dir.y < (scan_spheres32 orig dir spheres hit N material).spheres_dist
    · rw [if_pos ht] at h
      cases h
    · rw [if_neg ht]
  · rw [if_neg hg]

/-- One iteration of the sphere loop in binary32 either leaves the state or writes the
sphere's distance, hit point, normal and material. -/
theorem sphere_step32_cases (orig dir : Vec3f) (st : ScanState32) (s : Sphere32) :
    sphere_step32 orig dir st s = st ∨
    ∃ dist_i, s.ray_intersect orig dir = some dist_i ∧
      sphere_step32 orig dir st s =
        ⟨dist_i, orig + dir.mul dist_i, (orig + dir.mul dist_i - s.center).normalize,
          s.material⟩ := by
  unfold sphere_step32
  cases s.ray_intersect orig dir with
  | none => exact Or.inl rfl
  | some dist_i =>
    by_cases hlt : dist_i < st.spheres_dist
    · exact Or.inr ⟨dist_i, rfl, if_pos hlt⟩
    · exact Or.inl (if_neg hlt)

/-- The sphere loop in binary32 either leaves the state it started with or ends with what
one sphere of the list wrote: its reported distance, the point of the ray at that
distance, the normalised difference to its centre, and its material. -/
theorem scan_loop32_spec (orig dir : Vec3f) (spheres : List Sphere32) (st0 : ScanState32) :
    spheres.foldl (sphere_step32 orig dir) st0 = st0 ∨
    ∃ s ∈ spheres,
      s.ray_intersect orig dir
        = some (spheres.foldl (sphere_step32 orig dir) st0).spheres_dist ∧
      (spheres.foldl (sphere_step32 orig dir) st0).hit
        = orig + dir.mul (spheres.foldl (sphere_step32 orig dir) st0).spheres_dist ∧
      (spheres.foldl (sphere_step32 orig dir) st0).N
        = ((spheres.foldl (sphere_step32 orig dir) st0).hit - s.center).normalize ∧
      (spheres.foldl (sphere_step32 orig dir) st0).material = s.material := by
  induction spheres generalizing st0 with
  | nil => exact Or.inl rfl
  | cons s rest ih =>
    rw [List.foldl_cons]
    rcases ih (sphere_step32 orig dir st0 s) with h | ⟨s', hs', h⟩
    · rw [h]
      rcases sphere_step32_cases orig dir st0 s with h0 | ⟨dist_i, hr, hst⟩
      · exact Or.inl h0
      · rw [hst]
        exact Or.inr ⟨s, List.mem_cons_self _ _, hr, rfl, rfl, rfl⟩
    · exact Or.inr ⟨s', List.mem_cons_of_mem _ hs', h⟩

theorem F32.notNeg_iff (a : F32) : a.NotNeg ↔ Flt.lt a.val (Flt.zero false) = false := by
  simp only [F32.NotNeg, F32.lt_iff, F32.val_zero, Bool.not_eq_true]

/-- A datum packed with the positive sign is not negative. -/
theorem Format.pack_notNeg (f : Format) (q : Nat) (e : Int) :
    Flt.lt (f.pack false q e) (Flt.zero false) = false := by
  simp only [Format.pack]
  split_ifs <;> simp [Flt.lt]

/-- Rounding with the positive sign gives a datum that is not negative. -/
theorem Format.round_notNeg (f : Format) (n d : Nat) :
    Flt.lt (f.round false n d) (Flt.zero false) = false := by
  simp only [Format.round]
  split_ifs
  · simp [Flt.lt]
  · exact Format.pack_notNeg _ _ _

/-- Rounding a scaled quotient with the positive sign gives a datum that is not negative. -/
theorem Format.roundScaled_notNeg (f : Format) (n d : Nat) (k : Int) :
    Flt.lt (f.roundScaled false n d k) (Flt.zero false) = false := by
  simp only [Format.roundScaled]
  split_ifs <;> exact Format.round_notNeg _ _ _

/-- The aligned mantissa of a positive value is not negative. -/
theorem Flt.align_nonneg (m : Nat) (e c : Int) : 0 ≤ Flt.align false m e c := by
  simp [Flt.align]

/-- The sum of two data that are not negative is not negative (it may be NaN or `+inf`). -/
theorem Format.add_notNeg (f : Format) (a b : Flt)
    (ha : Flt.lt a (Flt.zero false) = false) (hb : Flt.lt b (Flt.zero false) = false) :
    Flt.lt (f.add a b) (Flt.zero false) = false := by
  cases a with
  | nan => simp [Format.add, Flt.lt]
  | inf s =>
    cases b with
    | nan => simp [Format.add, Flt.lt]
    | inf t =>
      simp only [Flt.lt] at ha hb
      subst ha; subst hb
      simp [Format.add, Flt.lt]
    | zero t => simpa [Format.add] using ha
    | fin t n k => simpa [Format.add] using ha
  | zero s =>
    cases b with
    | nan => simp [Format.add, Flt.lt]
    | inf t => simpa [Format.add] using hb
    | zero t => simp [Format.add, Flt.lt]
    | fin t n k => simpa [Format.add] using hb
  | fin s m e =>
    cases b with
    | nan => simp [Format.add, Flt.lt]
    | inf t => simpa [Format.add] using hb
    | zero t => simpa [Format.add] using ha
    | fin t n k =>
      simp only [Flt.lt] at ha hb
      subst ha; subst hb
      simp only [Format.add]
      have h1 := Flt.align_nonneg m e (min e k)
      have h2 := Flt.align_nonneg n k (min e k)
      have hv : ¬ (Flt.align false m e (min e k) + Flt.align false n k (min e k) < 0) := by
        omega
      split_ifs
      · simp [Flt.lt]
      · rw [decide_eq_false hv]
        exact Format.roundScaled_notNeg _ _ _ _

/-- The product of two data that are not negative is not negative (it may be NaN, from `inf * 0`). -/
theorem Format.mul_notNeg (f : Format) (a b : Flt)
    (ha : Flt.lt a (Flt.zero false) = false) (hb : Flt.lt b (Flt.zero false) = false) :
    Flt.lt (f.mul a b) (Flt.zero false) = false := by
  cases a with
  | nan => simp [Format.mul, Flt.lt]
  | inf s =>
    simp only [Flt.lt] at ha
    subst ha
    cases b with
    | nan => simp [Format.mul, Flt.lt]
    | inf t => simp only [Flt.lt] at hb; subst hb; simp [Format.mul, Flt.lt]
    | zero t => simp [Format.mul, Flt.lt]
    | fin t n k => simp only [Flt.lt] at hb; subst hb; simp [Format.mul, Flt.lt]
  | zero s =>
    cases b with
    | nan => simp [Format.mul, Flt.lt]
    | inf t => simp [Format.mul, Flt.lt]
    | zero t => simp [Format.mul, Flt.lt]
    | fin t n k => simp [Format.mul, Flt.lt]
  | fin s m e =>
    simp only [Flt.lt] at ha
    subst ha
    cases b with
    | nan => simp [Format.mul, Flt.lt]
    | inf t => simp only [Flt.lt] at hb; subst hb; simp [Format.mul, Flt.lt]
    | zero t => simp [Format.mul, Flt.lt]
    | fin t n k =>
      simp only [Flt.lt] at hb
      subst hb
      simp only [Format.mul, Bool.xor_false]
      exact Format.roundScaled_notNeg _ _ _ _

/-- The sum of two `float`s that are not negative is not negative. -/
theorem F32.NotNeg.add32 {a b : F32} (ha : a.NotNeg) (hb : b.NotNeg) : (a + b).NotNeg := by
  rw [F32.notNeg_iff] at ha hb ⊢
  exact Format.add_notNeg _ _ _ ha hb

/-- The product of two `float`s that are not negative is not negative. -/
theorem F32.NotNeg.mul32 {a b : F32} (ha : a.NotNeg) (hb : b.NotNeg) : (a * b).NotNeg := by
  rw [F32.notNeg_iff] at ha hb ⊢
  exact Format.mul_notNeg _ _ _ ha hb

/-- `+0` is not negative. -/
theorem F32.zero_notNeg : (0 : F32).NotNeg := F32.not_lt_self 0

/-- A value above zero is not negative. -/
theorem F32.notNeg_of_pos {a : F32} (h : 0 < a) : a.NotNeg := by
  rw [F32.notNeg_iff]
  rw [F32.lt_iff, F32.val_zero] at h
  cases hv : a.val with
  | nan => simp [Flt.lt]
  | inf s => rw [hv] at h; simpa [Flt.lt] using h
  | zero s => simp [Flt.lt]
  | fin s m e => rw [hv] at h; simpa [Flt.lt] using h

/-- `std::max(0.f, x)` is `+0` or a value above zero. -/
theorem F32.max_zero_cases (x : F32) : F32.max 0 x = 0 ∨ 0 < F32.max 0 x := by
  simp only [F32.max]
  by_cases h : (0 : F32) < x
  · rw [if_pos h]; exact Or.inr h
  · rw [if_neg h]; exact Or.inl rfl

/-- `std::max(0.f, x)` is not negative. -/
theorem F32.max_zero_notNeg (x : F32) : (F32.max 0 x).NotNeg := by
  rcases F32.max_zero_cases x with h | h
  · rw [h]; exact F32.zero_notNeg
  · exact F32.notNeg_of_pos h

/-- The `x` component of a sum. -/
theorem Vec3f.add_x32 (a b : Vec3f) : (a + b).x = a.x + b.x := rfl

/-- The `y` component of a sum. -/
theorem Vec3f.add_y32 (a b : Vec3f) : (a + b).y = a.y + b.y := rfl

/-- The `z` component of a sum. -/
theorem Vec3f.add_z32 (a b : Vec3f) : (a + b).z = a.z + b.z := rfl

/-- The sum of two colours without negative channel has no negative channel. -/
theorem Vec3f.NotNeg.vadd32 {a b : Vec3f} (ha : a.NotNeg) (hb : b.NotNeg) : (a + b).NotNeg :=
  ⟨ha.1.add32 hb.1, ha.2.1.add32 hb.2.1, ha.2.2.add32 hb.2.2⟩

/-- A colour without negative channel scaled by a factor that is not negative has no negative channel. -/
theorem Vec3f.NotNeg.vmul32 {a : Vec3f} {k : F32} (ha : a.NotNeg) (hk : k.NotNeg) :
    (a.mul k).NotNeg :=
  ⟨ha.1.mul32 hk, ha.2.1.mul32 hk, ha.2.2.mul32 hk⟩

/-- The background colour has no negative channel. -/
theorem background32_notNeg : background32.NotNeg := by decide!

/-- Neither tile colour has a negative channel. -/
theorem tile_color32_notNeg (hit : Vec3f) : (tile_color32 hit).NotNeg := by
  simp only [tile_color32]
  split_ifs
  · decide!
  · decide!

/-- The colour `(1,1,1)` has no negative channel. -/
theorem white32_notNeg : (⟨1, 1, 1⟩ : Vec3f).NotNeg := by decide!

/-- The default material has no negative component. -/
theorem default_material32_notNeg : Material32.default.NotNeg := by
  refine ⟨?_, ?_, ?_, ?_, ?_⟩ <;> decide!

/-- When the sphere materials and the material passed in have no negative component,
neither has the material returned by `scene_intersect`. -/
theorem scene_intersect32_material_notNeg (orig dir : Vec3f) (spheres : List Sphere32)
    (hit N : Vec3f) (material : Material32) (hsph : ∀ s ∈ spheres, s.material.NotNeg)
    (hmat : material.NotNeg) :
    (scene_intersect32 orig dir spheres hit N material).material.NotNeg := by
  have hloop : (scan_spheres32 orig dir spheres hit N material).material.NotNeg := by
    rcases scan_loop32_spec orig dir spheres ⟨FLT_MAX32, hit, N, material⟩ with h | ⟨s, hs, h⟩
    · simp only [scan_spheres32]
      rw [h]; exact hmat
    · simp only [scan_spheres32]
      rw [h.2.2.2]; exact hsph s hs
  cases hp : plane_accepted32 orig dir
      (scan_spheres32 orig dir spheres hit N material).spheres_dist with
  | none =>
    rw [scene_intersect32_of_plane_rejected orig dir spheres hit N material hp]
    exact hloop
  | some d =>
    rw [scene_intersect32_of_plane_accepted orig dir spheres hit N material d hp]
    exact ⟨hloop.1, hloop.2.1, hloop.2.2.1, hloop.2.2.2.1, tile_color32_notNeg _⟩

/-- The light loop in binary32 keeps both accumulators not negative. -/
theorem light_loop32_notNeg (powf : F32 → F32 → F32)
    (hpow : ∀ x y : F32, x = 0 ∨ 0 < x → (powf x y).NotNeg) (spheres : List Sphere32)
    (dir hit N : Vec3f) (material : Material32) (lights : List Light32)
    (hl : ∀ l ∈ lights, l.intensity.NotNeg) (acc : F32 × F32)
    (h1 : acc.1.NotNeg) (h2 : acc.2.NotNeg) :
    (lights.foldl (light_step32 powf spheres dir hit N material) acc).1.NotNeg ∧
    (lights.foldl (light_step32 powf spheres dir hit N material) acc).2.NotNeg := by
  induction lights generalizing acc with
  | nil => exact ⟨h1, h2⟩
  | cons l rest ih =>
    rw [List.foldl_cons]
    have hli : l.intensity.NotNeg := hl l (List.mem_cons_self _ _)
    apply ih (fun l' hl' => hl l' (List.mem_cons_of_mem _ hl'))
    · simp only [light_step32]
      split_ifs
      · exact h1
      · exact h1.add32 (hli.mul32 (F32.max_zero_notNeg _))
    · simp only [light_step32]
      split_ifs
      · exact h2
      · exact h2.add32 ((hpow _ _ (F32.max_zero_cases _)).mul32 hli)

/-- Beyond depth 4 `cast_ray` returns the background colour, in binary32. -/
theorem cast_ray32_of_depth_gt (powf : F32 → F32 → F32) (orig dir : Vec3f)
    (spheres : List Sphere32) (lights : List Light32) (depth : Nat) (h : depth > 4) :
    cast_ray32 powf orig dir spheres lights depth = background32 := by
  rw [cast_ray32]
  simp only [dif_pos h]

/-- A call of `cast_ray` whose ray hits nothing returns the background colour, in binary32. -/
theorem cast_ray32_of_miss (powf : F32 → F32 → F32) (orig dir : Vec3f)
    (spheres : List Sphere32) (lights : List Light32) (depth : Nat)
    (h : (scene_intersect32 orig dir spheres ⟨0, 0, 0⟩ ⟨0, 0, 0⟩ Material32.default).ret
      = false) :
    cast_ray32 powf orig dir spheres lights depth = background32 := by
  rw [cast_ray32]
  by_cases hd : depth > 4
  · simp only [dif_pos hd]
  · simp only [dif_neg hd, h, Bool.not_false, if_true]

/-- A call of `cast_ray` in binary32 at depth at most 4 whose ray hits the scene: line
256 with the accumulators of the light loop and the colours of the two recursive
calls. -/
theorem cast_ray32_of_hit (powf : F32 → F32 → F32) (orig dir : Vec3f)
    (spheres : List Sphere32) (lights : List Light32) (depth : Nat) (hd : depth ≤ 4)
    (q : SceneHit32)
    (hq : scene_intersect32 orig dir spheres ⟨0, 0, 0⟩ ⟨0, 0, 0⟩ Material32.default = q)
    (h : q.ret = true) :
    cast_ray32 powf orig dir spheres lights depth =
      ((q.material.diffuse_color.mul
            (lights.foldl (light_step32 powf spheres dir q.hit q.N q.material) (0, 0)).1).mul
          q.material.albedo.a0
        + ((⟨1, 1, 1⟩ : Vec3f).mul
            (lights.foldl (light_step32 powf spheres dir q.hit q.N q.material) (0, 0)).2).mul
          q.material.albedo.a1
        + (cast_ray32 powf
            (if (reflect32 dir q.N).dot q.N < 0 then q.hit - q.N.mulD 1e-3
              else q.hit + q.N.mulD 1e-3)
            (reflect32 dir q.N) spheres lights (depth + 1)).mul q.material.albedo.a2)
      + (cast_ray32 powf
          (if ((refract32 dir q.N q.material.refractive_index).normalize).dot q.N < 0
            then q.hit - q.N.mulD 1e-3 else q.hit + q.N.mulD 1e-3)
          ((refract32 dir q.N q.material.refractive_index).normalize)
          spheres lights (depth + 1)).mul q.material.albedo.a3 := by
  have hd' : ¬ depth > 4 := by omega
  rw [cast_ray32]
  simp only [dif_neg hd', hq, h, Bool.not_true, Bool.false_eq_true, if_false]

/-- No channel of `cast_ray` in binary32 is negative at depth `d` with `d + k = 5`, by
induction on `k`. -/
theorem cast_ray32_notNeg_aux (powf : F32 → F32 → F32)
    (hpow : ∀ x y : F32, x = 0 ∨ 0 < x → (powf x y).NotNeg) (spheres : List Sphere32)
    (lights : List Light32) (hsph : ∀ s ∈ spheres, s.material.NotNeg)
    (hl : ∀ l ∈ lights, l.intensity.NotNeg) :
    ∀ (k d : Nat), d + k = 5 → ∀ orig dir : Vec3f,
      (cast_ray32 powf orig dir spheres lights d).NotNeg := by
  intro k
  induction k with
  | zero =>
    intro d hd orig dir
    rw [cast_ray32_of_depth_gt powf orig dir spheres lights d (by omega)]
    exact background32_notNeg
  | succ k ih =>
    intro d hd orig dir
    cases hret : (scene_intersect32 orig dir spheres ⟨0, 0, 0⟩ ⟨0, 0, 0⟩
        Material32.default).ret with
    | false =>
      rw [cast_ray32_of_miss powf orig dir spheres lights d hret]
      exact background32_notNeg
    | true =>
      rw [cast_ray32_of_hit powf orig dir spheres lights d (by omega) _ rfl hret]
      obtain ⟨h0, h1, h2, h3, hdc⟩ := scene_intersect32_material_notNeg orig dir spheres
        ⟨0, 0, 0⟩ ⟨0, 0, 0⟩ Material32.default hsph default_material32_notNeg
      obtain ⟨hD, hS⟩ := light_loop32_notNeg powf hpow spheres dir
        (scene_intersect32 orig dir spheres ⟨0, 0, 0⟩ ⟨0, 0, 0⟩ Material32.default).hit
        (scene_intersect32 orig dir spheres ⟨0, 0, 0⟩ ⟨0, 0, 0⟩ Material32.default).N
        (scene_intersect32 orig dir spheres ⟨0, 0, 0⟩ ⟨0, 0, 0⟩ Material32.default).material
        lights hl (0, 0) F32.zero_notNeg F32.zero_notNeg
      exact ((((hdc.vmul32 hD).vmul32 h0).vadd32 ((white32_notNeg.vmul32 hS).vmul32 h1)).vadd32
        ((ih (d + 1) (by omega) _ _).vmul32 h2)).vadd32 ((ih (d + 1) (by omega) _ _).vmul32 h3)

/-- The diffuse accumulator of the light loop in binary32 does not depend on `powf`. -/
theorem light_loop32_fst (powf : F32 → F32 → F32) (spheres : List Sphere32)
    (dir hit N : Vec3f) (material : Material32) (lights : List Light32) (acc : F32 × F32) :
    (lights.foldl (light_step32 powf spheres dir hit N material) acc).1
      = lights.foldl (diffuse_step32 spheres hit N) acc.1 := by
  induction lights generalizing acc with
  | nil => rfl
  | cons l rest ih =>
    rw [List.foldl_cons, List.foldl_cons, ih]
    congr 1
    simp only [light_step32, diffuse_step32]
    split_ifs <;> rfl

/-- NaN plus anything is NaN. -/
theorem Format.nan_add (f : Format) (b : Flt) : f.add Flt.nan b = Flt.nan := by
  cases b <;> rfl

/-- The NaN vector plus anything is the NaN vector. -/
theorem Vec3f.nan_vec_add (v : Vec3f) : Vec3f.nan + v = Vec3f.nan := by
  show (⟨⟨binary32.add Flt.nan v.x.val⟩, ⟨binary32.add Flt.nan v.y.val⟩,
    ⟨binary32.add Flt.nan v.z.val⟩⟩ : Vec3f) = Vec3f.nan
  simp only [Format.nan_add]
  rfl

/-- The stand-in `powf_base` returns no negative value for a base that is `+0` or above
zero. -/
theorem powf_base_notNeg (x y : F32) (h : x = 0 ∨ 0 < x) : (powf_base x y).NotNeg := by
  rcases h with h | h
  · rw [powf_base, h]; exact F32.zero_notNeg
  · exact F32.notNeg_of_pos h

/-- In binary32 the shadow probe can miss a sphere that stands between the hit point and
the light: `midway_sphere32` (radius `0.2f ≥ 0.2`) has its centre exactly in the middle of
the segment from `P = (0,-4,-20)` to `distant_light32`, about 835 away from both (farther
than `radius + 0.1`, within the range 1000), yet with the normal `(0,1,0)` the probe
computes `L.L = 697265.125` and `tca*tca = 697264.9375`, so `d2 = 0.1875` exceeds
`radius*radius = 0.04...`, and the light is not skipped. -/
theorem occluded32_misses_sphere_between :
    occluded32 [midway_sphere32] ⟨0, -4, -20⟩ ⟨0, 1, 0⟩ distant_light32 = false ∧
    midway_sphere32.center.toRat.x
      = (Vec3f.toRat ⟨0, -4, -20⟩
        + (distant_light32.position.toRat - Vec3f.toRat ⟨0, -4, -20⟩).mul (1 / 2)).x ∧
    midway_sphere32.center.toRat.y
      = (Vec3f.toRat ⟨0, -4, -20⟩
        + (distant_light32.position.toRat - Vec3f.toRat ⟨0, -4, -20⟩).mul (1 / 2)).y ∧
    midway_sphere32.center.toRat.z
      = (Vec3f.toRat ⟨0, -4, -20⟩
        + (distant_light32.position.toRat - Vec3f.toRat ⟨0, -4, -20⟩).mul (1 / 2)).z ∧
    (2 / 10 : ℚ) ≤ midway_sphere32.radius.toRat ∧
    (Vec3f.toRat ⟨0, -4, -20⟩ - midway_sphere32.center.toRat).dot
        (Vec3f.toRat ⟨0, -4, -20⟩ - midway_sphere32.center.toRat)
      > (midway_sphere32.radius.toRat + 1 / 10) * (midway_sphere32.radius.toRat + 1 / 10) ∧
    (Vec3f.toRat ⟨0, -4, -20⟩ - midway_sphere32.center.toRat).dot
        (Vec3f.toRat ⟨0, -4, -20⟩ - midway_sphere32.center.toRat) ≤ 1000 * 1000 := by
  decide!

/-- Values of the binary32 and binary64 arithmetic at familiar inputs: `0.1f`, `1/3`,
`sqrtf(2)`, the `double` `0.1` converted to `float`, overflow of `FLT_MAX + FLT_MAX`,
`inf - inf`, `inf * 0`, the tie `1 + 2^-24` rounded to even, the smallest subnormal halved,
and the comparison with NaN. -/
theorem binary32_values :
    F32.ofRatio 1 10 = ⟨Flt.fin false 13421773 (-27)⟩ ∧
    (1 : F32) / 3 = ⟨Flt.fin false 11184811 (-25)⟩ ∧
    F32.sqrt 2 = ⟨Flt.fin false 11863283 (-23)⟩ ∧
    F64.toF32 0.1 = ⟨Flt.fin false 13421773 (-27)⟩ ∧
    (0.1 : F64) = ⟨Flt.fin false 7205759403792794 (-56)⟩ ∧
    FLT_MAX32 + FLT_MAX32 = ⟨Flt.inf false⟩ ∧
    (FLT_MAX32 + FLT_MAX32) - (FLT_MAX32 + FLT_MAX32) = ⟨Flt.nan⟩ ∧
    (FLT_MAX32 + FLT_MAX32) * 0 = ⟨Flt.nan⟩ ∧
    (1 : F32) + F32.ofRatio 1 (2 ^ 24) = 1 ∧
    (1 : F32) + F32.ofRatio 3 (2 ^ 24) = ⟨Flt.fin false 8388610 (-23)⟩ ∧
    F32.ofRatio 1 (2 ^ 149) = ⟨Flt.fin false 1 (-149)⟩ ∧
    F32.ofRatio 1 (2 ^ 149) / 2 = 0 ∧
    ¬ (⟨Flt.nan⟩ : F32) < 0 ∧ ¬ (0 : F32) < ⟨Flt.nan⟩ ∧ ¬ (0 : F32) ≤ ⟨Flt.nan⟩ := by
  decide!

section Claims

variable {F : Type} [LinearOrderedField F]

/-- C3: when the nearest hit is a sphere (the least sphere distance `m` is below 1000 and
the plane is not visible nearer than `m`), `scene_intersect` returns the material of the
earliest sphere of the list whose intersection distance is `m`; in particular, if the
first sphere of the list is at distance `m`, its material is returned whichever later
sphere ties with it. -/
theorem scene_intersect_tie_break [FloorRing F] (sqrtf : F → F) (orig dir : Vec3 F)
    (spheres : List (Sphere F)) (hit N : Vec3 F) (material : Material F) (m : F)
    (hm : (sphere_dists sqrtf orig dir spheres).minimum = (m : WithTop F))
    (hrange : m < 1000) (hplane : ∀ d, plane_visible orig dir = some d → m ≤ d) :
    (scene_intersect sqrtf orig dir spheres hit N material).ret = true ∧
    (∃ s, spheres.find? (fun s => decide (s.ray_intersect sqrtf orig dir = some m)) = some s ∧
      (scene_intersect sqrtf orig dir spheres hit N material).material = s.material) ∧
    (∀ s1 rest, spheres = s1 :: rest → s1.ray_intersect sqrtf orig dir = some m →
      (scene_intersect sqrtf orig dir spheres hit N material).material = s1.material) := by
  obtain ⟨hmem, hmin⟩ := List.minimum_eq_coe_iff.mp hm
  obtain ⟨hle, hst⟩ := scan_spheres_spec sqrtf orig dir spheres hit N material
  have hdm : (scan_spheres sqrtf orig dir spheres hit N material).spheres_dist ≤ m :=
    hle m hmem
  rcases hst with h | ⟨-, s, hfind, -, -, hmat⟩
  · rw [h] at hdm
    exact absurd (lt_of_le_of_lt hdm hrange) (not_lt.mpr FLT_MAX_ge)
  · have hmd : m ≤ (scan_spheres sqrtf orig dir spheres hit N material).spheres_dist :=
      hmin _ (mem_sphere_dists_of_find sqrtf orig dir spheres _ s hfind)
    have heq : (scan_spheres sqrtf orig dir spheres hit N material).spheres_dist = m :=
      le_antisymm hdm hmd
    rw [heq] at hfind
    have hres : (scene_intersect sqrtf orig dir spheres hit N material).ret = true ∧
        (scene_intersect sqrtf orig dir spheres hit N material).material = s.material := by
      rw [scene_intersect_eq]
      cases hpv : plane_visible orig dir with
      | none => exact ⟨by simpa [heq] using hrange, hmat⟩
      | some d =>
        have hnd : ¬ d < (scan_spheres sqrtf orig dir spheres hit N material).spheres_dist := by
          rw [heq]; exact not_lt.mpr (hplane d hpv)
        simp only [if_neg hnd]
        exact ⟨by simpa [heq] using hrange, hmat⟩
    refine ⟨hres.1, ⟨s, hfind, hres.2⟩, ?_⟩
    intro s1 rest hsph hs1
    rw [hsph, List.find?_cons_of_pos _ (by simpa using hs1)] at hfind
    cases hfind
    exact hres.2

/-- The witness of C3: two coincident spheres of radius 2 at the origin, the first of the
default material and the second of `mirror`, both met at distance 8 by the ray from
`(0,0,-10)` toward `+z`; the first sphere's material is returned. -/
theorem scene_intersect_tie_break_witness :
    (scene_intersect Real.sqrt ⟨0, 0, -10⟩ ⟨0, 0, 1⟩
      [origin_sphere Material.default, origin_sphere mirror] 0 0 Material.default).material
      = Material.default := by
  have hm : (sphere_dists Real.sqrt ⟨0, 0, -10⟩ ⟨0, 0, 1⟩
      [origin_sphere Material.default, origin_sphere mirror]).minimum
      = ((8 : ℝ) : WithTop ℝ) := by
    simp [sphere_dists, ray_intersect_origin_sphere isSqrt_real, List.minimum_cons]
  exact (scene_intersect_tie_break Real.sqrt ⟨0, 0, -10⟩ ⟨0, 0, 1⟩
    [origin_sphere Material.default, origin_sphere mirror] 0 0 Material.default 8 hm
    (by norm_num)
    (fun d hd => by rw [plane_visible_horizontal _ _ rfl] at hd; cases hd)).2.2
    (origin_sphere Material.default) [origin_sphere mirror] rfl
    (ray_intersect_origin_sphere isSqrt_real _)

/-- C4: `cast_ray` is a total function (its recursion is well-founded on `5 - depth`, so
every call yields a colour), and it yields exactly the background colour
`(0.2, 0.7, 0.8)` whenever `depth > 4` or `scene_intersect` reports no hit. -/
theorem cast_ray_background [FloorRing F] (sqrtf : F → F) (powf : F → F → F)
    (orig dir : Vec3 F) (spheres : List (Sphere F)) (lights : List (Light F)) (depth : Nat) :
    (∃ c : Vec3 F, cast_ray sqrtf powf orig dir spheres lights depth = c) ∧
    (depth > 4 ∨ (scene_intersect sqrtf orig dir spheres 0 0 Material.default).ret = false →
      cast_ray sqrtf powf orig dir spheres lights depth = ⟨0.2, 0.7, 0.8⟩) := by
  refine ⟨⟨_, rfl⟩, ?_⟩
  intro h
  rw [cast_ray]
  by_cases hd : depth > 4
  · simp only [dif_pos hd, background]
  · rcases h with h | h
    · exact absurd h hd
    · simp only [dif_neg hd, h, Bool.not_false, if_true, background]

/-- The witness of C4: at depth 5 the result is the background colour. -/
theorem cast_ray_background_witness :
    cast_ray Real.sqrt Real.rpow ⟨0, 0, 0⟩ ⟨0, 0, -1⟩ [origin_sphere mirror] [near_light] 5
      = ⟨0.2, 0.7, 0.8⟩ :=
  (cast_ray_background Real.sqrt Real.rpow ⟨0, 0, 0⟩ ⟨0, 0, -1⟩ [origin_sphere mirror]
    [near_light] 5).2 (Or.inl (by norm_num))

/-- C5: for a ray that hits the scene at `depth ≤ 4`, `cast_ray` returns
`diffuse_color*D*albedo[0] + (1,1,1)*S*albedo[1] + reflect_color*albedo[2] +
refract_color*albedo[3]` with `D` and `S` the sums over the unoccluded lights and
`reflect_color`, `refract_color` the values of `cast_ray` at `depth + 1` along the
reflected and the (renormalised) refracted direction from the origins offset by `1e-3`
along the normal; nothing is clamped. -/
theorem cast_ray_composition [FloorRing F] (sqrtf : F → F) (powf : F → F → F)
    (orig dir : Vec3 F) (spheres : List (Sphere F)) (lights : List (Light F)) (depth : Nat)
    (hdepth : depth ≤ 4)
    (hhit : (scene_intersect sqrtf orig dir spheres 0 0 Material.default).ret = true) :
    let q := scene_intersect sqrtf orig dir spheres 0 0 Material.default
    let reflect_dir := reflect dir q.N
    let refract_dir := (refract sqrtf dir q.N q.material.refractive_index).normalize sqrtf
    let reflect_orig :=
      if reflect_dir.dot q.N < 0 then q.hit - q.N.mul 1e-3 else q.hit + q.N.mul 1e-3
    let refract_orig :=
      if refract_dir.dot q.N < 0 then q.hit - q.N.mul 1e-3 else q.hit + q.N.mul 1e-3
    let reflect_color := cast_ray sqrtf powf reflect_orig reflect_dir spheres lights (depth + 1)
    let refract_color := cast_ray sqrtf powf refract_orig refract_dir spheres lights (depth + 1)
    let D := diffuse_sum sqrtf spheres q.hit q.N lights
    let S := specular_sum sqrtf powf spheres dir q.hit q.N q.material.specular_exponent lights
    cast_ray sqrtf powf orig dir spheres lights depth =
      (q.material.diffuse_color.mul D).mul q.material.albedo.a0
        + ((⟨1, 1, 1⟩ : Vec3 F).mul S).mul q.material.albedo.a1
        + reflect_color.mul q.material.albedo.a2
        + refract_color.mul q.material.albedo.a3 := by
  intro q reflect_dir refract_dir reflect_orig refract_orig reflect_color refract_color D S
  have hd : ¬ depth > 4 := by omega
  rw [cast_ray]
  simp only [dif_neg hd, hhit, Bool.not_true, Bool.false_eq_true, if_false,
    light_loop_eq_sums, zero_add]

/-- The witness of C5: the sphere of radius 2 at the origin, of the material
`tinted_glass` (albedo `(0.6, 0.3, 0.1, 0.8)`), lit by `front_light` (intensity 1.5) and
seen along the ray from `(0,0,-10)` toward `+z` at depth 3. The ray hits at `(0,0,-2)`
with normal `(0,0,-1)`; the light is unoccluded, so `D = S = 1.5`; the reflected ray
leaves toward `-z` and returns the background colour; the refracted ray crosses the
sphere, hits it from inside at `(0,0,2)`, where the light is occluded, and returns
`background * (0.1 + 0.8)` from its own two secondary rays at depth 5. The composed
colour is `(0.974, 1.744, 1.556)`: all four terms contribute and two channels exceed 1. -/
theorem cast_ray_composition_witness :
    cast_ray Real.sqrt Real.rpow ⟨0, 0, -10⟩ ⟨0, 0, 1⟩ [origin_sphere tinted_glass]
      [front_light] 3 = ⟨0.974, 1.744, 1.556⟩ := by
  have hs := isSqrt_real
  -- the primary hit
  have hq : scene_intersect Real.sqrt ⟨0, 0, -10⟩ ⟨0, 0, 1⟩ [origin_sphere tinted_glass] 0 0
      Material.default = ⟨true, ⟨0, 0, 2 * -1⟩, ⟨0, 0, -1⟩, tinted_glass⟩ :=
    scene_intersect_z_axis_hit hs tinted_glass (-10) 1 8 (-1)
      (ray_intersect_origin_sphere hs _) (by norm_num) (by norm_num) (by norm_num)
  have h2 : (2 * -1 : ℝ) = -2 := by norm_num
  rw [h2] at hq
  have h := cast_ray_composition Real.sqrt Real.rpow ⟨0, 0, -10⟩ ⟨0, 0, 1⟩
    [origin_sphere tinted_glass] [front_light] 3 (by norm_num) (by rw [hq])
  simp only [] at h
  rw [h, hq]
  simp only []
  -- the two secondary directions and origins
  have hrefl : reflect (⟨0, 0, 1⟩ : Vec3 ℝ) ⟨0, 0, -1⟩ = ⟨0, 0, -1⟩ := by
    rw [Vec3.ext_iff3]
    simp [reflect, Vec3.dot]
    norm_num
  have hrefr : refract Real.sqrt (⟨0, 0, 1⟩ : Vec3 ℝ) ⟨0, 0, -1⟩
      (tinted_glass : Material ℝ).refractive_index = ⟨0, 0, 1⟩ := by
    have hneg : (⟨0, 0, 1⟩ : Vec3 ℝ) = -(⟨0, 0, -1⟩ : Vec3 ℝ) := by
      rw [Vec3.ext_iff3]; simp
    rw [hneg]
    exact refract_neg_normal hs ⟨0, 0, -1⟩ _ (by simp [Vec3.dot])
      (by simp [tinted_glass]; norm_num)
  have hnz : (⟨0, 0, 1⟩ : Vec3 ℝ).normalize Real.sqrt = ⟨0, 0, 1⟩ :=
    (Vec3.normalize_of_unit hs _ (by simp [Vec3.dot])).2
  rw [hrefl, hrefr, hnz]
  have ho1 : (if (⟨0, 0, -1⟩ : Vec3 ℝ).dot ⟨0, 0, -1⟩ < 0
      then (⟨0, 0, -2⟩ : Vec3 ℝ) - (⟨0, 0, -1⟩ : Vec3 ℝ).mul 1e-3
      else (⟨0, 0, -2⟩ : Vec3 ℝ) + (⟨0, 0, -1⟩ : Vec3 ℝ).mul 1e-3) = ⟨0, 0, -2001 / 1000⟩ := by
    rw [if_neg (by simp [Vec3.dot]), Vec3.ext_iff3]
    simp
    norm_num
  have ho2 : (if (⟨0, 0, 1⟩ : Vec3 ℝ).dot ⟨0, 0, -1⟩ < 0
      then (⟨0, 0, -2⟩ : Vec3 ℝ) - (⟨0, 0, -1⟩ : Vec3 ℝ).mul 1e-3
      else (⟨0, 0, -2⟩ : Vec3 ℝ) + (⟨0, 0, -1⟩ : Vec3 ℝ).mul 1e-3) = ⟨0, 0, -1999 / 1000⟩ := by
    rw [if_pos (by simp [Vec3.dot]), Vec3.ext_iff3]
    simp
    norm_num
  rw [ho1, ho2]
  -- the reflected ray misses
  have hray1 : (origin_sphere tinted_glass).ray_intersect Real.sqrt
      (⟨0, 0, -2001 / 1000⟩ : Vec3 ℝ) ⟨0, 0, -1⟩ = none := by
    rw [ray_intersect_z_axis hs _ _ _ (by norm_num), if_pos (by norm_num),
      if_pos (by norm_num)]
  rw [cast_ray_of_miss Real.sqrt Real.rpow _ _ _ _ _
    (scene_intersect_z_axis_miss Real.sqrt _ _ _ hray1)]
  -- the refracted ray hits the sphere from inside, where the light is occluded
  have hray2 : (origin_sphere tinted_glass).ray_intersect Real.sqrt
      (⟨0, 0, -1999 / 1000⟩ : Vec3 ℝ) ⟨0, 0, 1⟩ = some (3999 / 1000) := by
    rw [ray_intersect_z_axis hs _ _ _ (by norm_num), if_pos (by norm_num),
      if_neg (by norm_num)]
    norm_num
  have hq2 := scene_intersect_z_axis_hit hs (tinted_glass : Material ℝ) (-1999 / 1000) 1
    (3999 / 1000) 1 hray2 (by norm_num) (by norm_num) (by norm_num)
  have h21 : (2 * 1 : ℝ) = 2 := by norm_num
  rw [h21] at hq2
  rw [cast_ray_depth_four Real.sqrt Real.rpow _ _ _ _ (by rw [hq2]), hq2]
  simp only []
  -- the light loop at the two hits
  have hocc1 : occluded Real.sqrt [origin_sphere tinted_glass] (⟨0, 0, -2⟩ : Vec3 ℝ)
      ⟨0, 0, -1⟩ front_light = false := front_light_not_occluded hs _
  have hocc2 : occluded Real.sqrt [origin_sphere tinted_glass] (⟨0, 0, 2⟩ : Vec3 ℝ)
      ⟨0, 0, 1⟩ front_light = true := front_light_occluded hs _
  have hld := (front_light_dir hs (-2 : ℝ) (by norm_num)).2
  have hD1 : diffuse_sum Real.sqrt [origin_sphere tinted_glass] (⟨0, 0, -2⟩ : Vec3 ℝ)
      ⟨0, 0, -1⟩ [front_light] = 1.5 := by
    simp only [diffuse_sum, List.filter_cons, hocc1, Bool.not_false, if_true,
      List.filter_nil, List.map_cons, List.map_nil, List.sum_cons, List.sum_nil, hld]
    norm_num [Vec3.dot, front_light]
  have hS1 : specular_sum Real.sqrt Real.rpow [origin_sphere tinted_glass] ⟨0, 0, 1⟩
      (⟨0, 0, -2⟩ : Vec3 ℝ) ⟨0, 0, -1⟩ (tinted_glass : Material ℝ).specular_exponent
      [front_light] = 1.5 := by
    have hb : -(reflect (-(⟨0, 0, -1⟩ : Vec3 ℝ)) ⟨0, 0, -1⟩).dot ⟨0, 0, 1⟩ = 1 := by
      simp [reflect, Vec3.dot]
      norm_num
    simp only [specular_sum, List.filter_cons, hocc1, Bool.not_false, if_true,
      List.filter_nil, List.map_cons, List.map_nil, List.sum_cons, List.sum_nil, hld, hb]
    have hp : Real.rpow (max 0 1) (tinted_glass : Material ℝ).specular_exponent = 1 := by
      rw [max_eq_right (by norm_num : (0 : ℝ) ≤ 1)]
      exact Real.one_rpow _
    rw [hp]
    norm_num [front_light]
  have hD2 : diffuse_sum Real.sqrt [origin_sphere tinted_glass] (⟨0, 0, 2⟩ : Vec3 ℝ)
      ⟨0, 0, 1⟩ [front_light] = 0 := by
    simp only [diffuse_sum, List.filter_cons, hocc2, Bool.not_true, Bool.false_eq_true,
      if_false, List.filter_nil, List.map_nil, List.sum_nil]
  have hS2 : specular_sum Real.sqrt Real.rpow [origin_sphere tinted_glass] ⟨0, 0, 1⟩
      (⟨0, 0, 2⟩ : Vec3 ℝ) ⟨0, 0, 1⟩ (tinted_glass : Material ℝ).specular_exponent
      [front_light] = 0 := by
    simp only [specular_sum, List.filter_cons, hocc2, Bool.not_true, Bool.false_eq_true,
      if_false, List.filter_nil, List.map_nil, List.sum_nil]
  rw [hD1, hS1, hD2, hS2, Vec3.ext_iff3]
  simp [tinted_glass, background]
  refine ⟨?_, ?_, ?_⟩ <;> norm_num

/-- C10 fails on the code: the ray from `(0,0,-20)` straight down resolves the plane as
its nearest hit (distance 4, point `(0,-4,-20)`, normal `(0,1,0)`), but
`sunk_glass_sphere`, which the same ray meets further on at distance 9, has written its
material in the loop, and the plane branch replaces the diffuse colour only: the
returned refractive index, albedo and specular exponent are those of `glass`, not of the
default material. -/
theorem plane_material_inherits_sphere_behind :
    nearest_dist Real.sqrt ⟨0, 0, -20⟩ ⟨0, -1, 0⟩ [sunk_glass_sphere]
      = ((4 : ℝ) : WithTop ℝ) ∧
    scene_intersect Real.sqrt ⟨0, 0, -20⟩ ⟨0, -1, 0⟩ [sunk_glass_sphere] 0 0 Material.default
      = ⟨true, ⟨0, -4, -20⟩, ⟨0, 1, 0⟩,
          ⟨1.5, ⟨0.0, 0.5, 0.1, 0.8⟩, tile_color ⟨0, -4, -20⟩, 1255⟩⟩ ∧
    (1.5 : ℝ) ≠ (Material.default : Material ℝ).refractive_index := by
  have hray : (sunk_glass_sphere : Sphere ℝ).ray_intersect Real.sqrt ⟨0, 0, -20⟩ ⟨0, -1, 0⟩
      = some 9 := by
    rw [ray_intersect_eval isSqrt_real _ _ _ 10 1 (by simp [Vec3.dot, sunk_glass_sphere])
      (by simp [Vec3.dot, sunk_glass_sphere]) zero_le_one]
    rw [if_neg (by norm_num)]
    norm_num
  have hlt : (9 : ℝ) < FLT_MAX := lt_of_lt_of_le (by norm_num) FLT_MAX_ge
  have hscan : scan_spheres Real.sqrt ⟨0, 0, -20⟩ ⟨0, -1, 0⟩ [sunk_glass_sphere] 0 0
      (Material.default : Material ℝ)
      = ⟨9, ⟨0, 0, -20⟩ + (⟨0, -1, 0⟩ : Vec3 ℝ).mul 9,
          (⟨0, 0, -20⟩ + (⟨0, -1, 0⟩ : Vec3 ℝ).mul 9
            - (sunk_glass_sphere : Sphere ℝ).center).normalize Real.sqrt, glass⟩ := by
    rw [scan_spheres_singleton]
    exact sphere_step_of_some _ _ _ _ _ _ hray hlt
  refine ⟨?_, ?_, ?_⟩
  · simp [nearest_dist, sphere_dists, hray, plane_visible_down_ray, List.minimum_cons]
    exact_mod_cast (by norm_num : (4 : ℝ) ≤ 9)
  · rw [scene_intersect_down_ray Real.sqrt _ 0 0 Material.default (by rw [hscan]; norm_num),
      hscan]
    rfl
  · simp [Material.default]
    norm_num

/-- C11 fails on the code: `fov` is declared `const int`, so `M_PI/3` is truncated to 1
and the `z` component of every primary direction is `-768 / (2 * tan(1/2))`, not
`-768 / (2 * tan(pi/6))`; the `x` and `y` components are as the claim has them. -/
theorem primary_dir_fov_truncated :
    fov Real.pi = 1 ∧
    (∀ i j : Nat, primary_dir Real.tan Real.pi i j
      = ⟨((i : ℝ) + 0.5) - 1024 / 2, -((j : ℝ) + 0.5) + 768 / 2,
          -768 / (2 * Real.tan (1 / 2))⟩) ∧
    (-768 / (2 * Real.tan (1 / 2)) : ℝ) ≠ -768 / (2 * Real.tan (Real.pi / 3 / 2)) := by
  have hfov : fov Real.pi = 1 := by
    have h0 : (0 : ℝ) ≤ Real.pi / 3 := by positivity
    simp only [fov, toInt, if_pos h0]
    rw [Int.floor_eq_iff]
    constructor
    · have := Real.pi_gt_three
      norm_num
      linarith
    · have := Real.pi_lt_four
      norm_num
      linarith
  refine ⟨hfov, ?_, ?_⟩
  · intro i j
    simp only [primary_dir, hfov]
    norm_num
  · have h3 := Real.pi_gt_three
    have h4 := Real.pi_lt_four
    have hlt : Real.tan (1 / 2) < Real.tan (Real.pi / 3 / 2) :=
      Real.tan_lt_tan_of_lt_of_lt_pi_div_two (by linarith) (by linarith) (by linarith)
    have hpos : 0 < Real.tan (1 / 2) :=
      Real.tan_pos_of_pos_of_lt_pi_div_two (by norm_num) (by linarith)
    intro h
    have hne1 : (2 * Real.tan (1 / 2) : ℝ) ≠ 0 := ne_of_gt (by linarith)
    have hne2 : (2 * Real.tan (Real.pi / 3 / 2) : ℝ) ≠ 0 := ne_of_gt (by linarith)
    rw [div_eq_div_iff hne1 hne2] at h
    linarith

/-- The counterexample to C13 as stated, in binary32: the `x` axis from the origin toward
`+x` (a unit direction) is tangent to `grazed_sphere32`, the sphere of radius `3/128`
centred at `(100, 3/128, 0)`: on the exact values of these inputs the squared
perpendicular distance from the centre to the line equals `radius^2` and the foot of the
perpendicular is at distance `100 ≥ 0`; yet `ray_intersect` returns false, because `L.L`
rounds to `10000 + 2^-10`, which makes the computed `d2` exceed `radius*radius`. -/
theorem ray_intersect32_misses_tangent_ray :
    grazed_sphere32.ray_intersect ⟨0, 0, 0⟩ ⟨1, 0, 0⟩ = none ∧
    (Vec3f.toRat ⟨1, 0, 0⟩).dot (Vec3f.toRat ⟨1, 0, 0⟩) = 1 ∧
    (grazed_sphere32.center.toRat - Vec3f.toRat ⟨0, 0, 0⟩).dot
        (grazed_sphere32.center.toRat - Vec3f.toRat ⟨0, 0, 0⟩)
      - (grazed_sphere32.center.toRat - Vec3f.toRat ⟨0, 0, 0⟩).dot (Vec3f.toRat ⟨1, 0, 0⟩)
        * (grazed_sphere32.center.toRat - Vec3f.toRat ⟨0, 0, 0⟩).dot (Vec3f.toRat ⟨1, 0, 0⟩)
      = grazed_sphere32.radius.toRat * grazed_sphere32.radius.toRat ∧
    0 ≤ (grazed_sphere32.center.toRat - Vec3f.toRat ⟨0, 0, 0⟩).dot (Vec3f.toRat ⟨1, 0, 0⟩) ∧
    (grazed_sphere32.center - ⟨0, 0, 0⟩).dot (grazed_sphere32.center - ⟨0, 0, 0⟩)
      = ⟨Flt.fin false 10240001 (-10)⟩ := by
  decide!

/-- C13, as the code has it. In binary32 a ray whose computed margin is zero (the
computed `d2 = L.L - tca*tca` equals the finite `radius*radius`) and whose computed foot
distance `tca = L.dir` is not negative is reported as a hit, at the distance `tca`. In
exact arithmetic every ray that touches the sphere tangentially (the squared
perpendicular distance from the centre to the line of the unit direction is exactly
`radius^2`) with the foot of the perpendicular at a forward distance `≥ 0` has a zero
margin and is reported as a hit at the foot of the perpendicular; in binary32 a tangent
ray can compute a positive margin and be missed. -/
theorem ray_intersect_grazing :
    (∀ (s : Sphere32) (orig dir : Vec3f),
      (s.radius * s.radius).val.isFinite = true →
      (s.center - orig).dot (s.center - orig)
        - (s.center - orig).dot dir * (s.center - orig).dot dir = s.radius * s.radius →
      ¬ (s.center - orig).dot dir < 0 →
      s.ray_intersect orig dir = some ((s.center - orig).dot dir)) ∧
    (∀ (F : Type) [LinearOrderedField F] (sqrtf : F → F), IsSqrt sqrtf →
      ∀ (s : Sphere F) (orig dir : Vec3 F), dir.dot dir = 1 →
        (s.center - orig).dot (s.center - orig)
          - (s.center - orig).dot dir * (s.center - orig).dot dir = s.radius * s.radius →
        0 ≤ (s.center - orig).dot dir →
        s.ray_intersect sqrtf orig dir = some ((s.center - orig).dot dir)) := by
  refine ⟨ray_intersect32_zero_margin, ?_⟩
  intro F _ sqrtf hs s orig dir _ htan hfoot
  rw [ray_intersect_eq_some_iff, htan, sub_self, hs.zero, sub_zero]
  exact ⟨le_refl _, hfoot, Or.inl rfl⟩

/-- The witness of C13: the ray from `(2,0,-10)` toward `+z` grazes the sphere of radius
2 at the origin; in binary32 (where `L.L = 104`, `tca = 10` and `d2 = 4` are exact) and in
exact arithmetic the reported distance is 10. -/
theorem ray_intersect_grazing_witness :
    (origin_sphere32 Material32.default).ray_intersect ⟨2, 0, -10⟩ ⟨0, 0, 1⟩ = some 10 ∧
    (origin_sphere Material.default).ray_intersect Real.sqrt ⟨2, 0, -10⟩ ⟨0, 0, 1⟩
      = some (10 : ℝ) := by
  constructor
  · have h := ray_intersect_grazing.1 (origin_sphere32 Material32.default) ⟨2, 0, -10⟩
      ⟨0, 0, 1⟩ (by decide!) (by decide!) (by decide!)
    rw [h]
    decide!
  · have h := ray_intersect_grazing.2 ℝ Real.sqrt isSqrt_real (origin_sphere Material.default)
      ⟨2, 0, -10⟩ ⟨0, 0, 1⟩ (by norm_num [Vec3.dot])
      (by simp [Vec3.dot, origin_sphere]) (by simp [Vec3.dot, origin_sphere])
    rw [h]
    simp [Vec3.dot, origin_sphere]

/-- C14 fails on the code: the ray from `(8/5, 0, 0)` toward `+z` inside the glass sphere
of radius 2 at the origin hits the sphere where `refract` returns the zero vector (total
internal reflection), yet at depth 4 the colour is `(0.18, 0.63, 0.72)`, the background
weighted by `albedo[2] + albedo[3] = 0.9`; with `albedo[3] = 0` and nothing else changed
it is `(0.02, 0.07, 0.08)`: the refraction term is traced and added. -/
theorem tir_refraction_still_added :
    (scene_intersect Real.sqrt ⟨8 / 5, 0, 0⟩ ⟨0, 0, 1⟩ [origin_sphere glass] 0 0
      Material.default).ret = true ∧
    refract Real.sqrt (⟨0, 0, 1⟩ : Vec3 ℝ)
      (scene_intersect Real.sqrt ⟨8 / 5, 0, 0⟩ ⟨0, 0, 1⟩ [origin_sphere glass] 0 0
        Material.default).N
      (scene_intersect Real.sqrt ⟨8 / 5, 0, 0⟩ ⟨0, 0, 1⟩ [origin_sphere glass] 0 0
        Material.default).material.refractive_index = ⟨0, 0, 0⟩ ∧
    cast_ray Real.sqrt Real.rpow ⟨8 / 5, 0, 0⟩ ⟨0, 0, 1⟩ [origin_sphere glass] [] 4
      = ⟨0.18, 0.63, 0.72⟩ ∧
    cast_ray Real.sqrt Real.rpow ⟨8 / 5, 0, 0⟩ ⟨0, 0, 1⟩ [origin_sphere (glass_with 0)] [] 4
      = ⟨0.02, 0.07, 0.08⟩ := by
  have hq := scene_intersect_inside_origin_sphere isSqrt_real (glass : Material ℝ)
  have hg : (glass : Material ℝ) = glass_with 0.8 := rfl
  refine ⟨by rw [hq], ?_, ?_, ?_⟩
  · rw [hq]
    exact refract_inside_origin_sphere Real.sqrt
  · rw [hg, cast_ray_inside_origin_sphere isSqrt_real, Vec3.ext_iff3]
    norm_num
  · rw [cast_ray_inside_origin_sphere isSqrt_real, Vec3.ext_iff3]
    norm_num

/-- The counterexample to C16 as stated: in the scene of five concentric spheres of
radii 2 to 6 around the origin, every ray down to depth 4 hits a sphere, so the primary
call from the origin causes `1 + 2 + 4 + 8 + 16 + 32 = 63` evaluations of `cast_ray`,
the last 32 at depth 5. -/
theorem cast_ray_calls_exceed_31 :
    cast_ray_calls Real.sqrt (⟨0, 0, 0⟩ : Vec3 ℝ) ⟨0, 0, -1⟩ nested_spheres 0 = 63 ∧
    ¬ cast_ray_calls Real.sqrt (⟨0, 0, 0⟩ : Vec3 ℝ) ⟨0, 0, -1⟩ nested_spheres 0 ≤ 31 := by
  have h : cast_ray_calls Real.sqrt (⟨0, 0, 0⟩ : Vec3 ℝ) ⟨0, 0, -1⟩ nested_spheres 0 = 63 :=
    cast_ray_calls_nested isSqrt_real 5 0 rfl ⟨0, 0, 0⟩ ⟨0, 0, -1⟩ (by norm_num [Vec3.dot])
      (by norm_num [Vec3.dot])
  exact ⟨h, by rw [h]; norm_num⟩

/-- C16, as the code has it: for every scene and every primary ray, the call of
`cast_ray` at depth 0 causes at most `1 + 2 + 4 + 8 + 16 + 32 = 63` evaluations of
`cast_ray`, of which at most `1 + 2 + 4 + 8 + 16 = 31` get past the depth guard and
query the scene. -/
theorem cast_ray_calls_bound [FloorRing F] (sqrtf : F → F) (orig dir : Vec3 F)
    (spheres : List (Sphere F)) :
    cast_ray_calls sqrtf orig dir spheres 0 ≤ 63 ∧
    cast_ray_queries sqrtf orig dir spheres 0 ≤ 31 :=
  ⟨cast_ray_calls_le sqrtf spheres 5 0 rfl orig dir,
   cast_ray_queries_le sqrtf spheres 5 0 rfl orig dir⟩

/-- C17: a plane hit gets the diffuse colour `(1,1,1)` or `(0,0,0)` according to the
parity of `trunc(0.5*x + 1000) + trunc(0.5*z)` at the hit point, and two points of the
visible window (`|x| < 10`, `-30 < z < -10`) that differ by exactly 2 in `x` with equal
`z`, or by exactly 2 in `z` with equal `x`, get different tile colours. -/
theorem tile_color_alternates [FloorRing F] (sqrtf : F → F) (orig dir : Vec3 F)
    (spheres : List (Sphere F)) (hit N : Vec3 F) (material : Material F) :
    (∀ d, plane_accepted orig dir
        (scan_spheres sqrtf orig dir spheres hit N material).spheres_dist = some d →
      (scene_intersect sqrtf orig dir spheres hit N material).material.diffuse_color =
        if (toInt (0.5 * (scene_intersect sqrtf orig dir spheres hit N material).hit.x + 1000)
            + toInt (0.5 * (scene_intersect sqrtf orig dir spheres hit N material).hit.z)) % 2 = 1
        then ⟨1, 1, 1⟩ else ⟨0, 0, 0⟩) ∧
    (∀ p q : Vec3 F, |p.x| < 10 → -30 < p.z → p.z < -10 → |q.x| < 10 → -30 < q.z → q.z < -10 →
      ((q.x = p.x + 2 ∧ q.z = p.z) ∨ (q.z = p.z + 2 ∧ q.x = p.x)) →
      tile_color p ≠ tile_color q ∧ tile_color q ≠ tile_color p) := by
  refine ⟨?_, ?_⟩
  · intro d hd
    rw [scene_intersect_of_plane_accepted sqrtf orig dir spheres hit N material d hd]
    simp only [tile_color]
    by_cases hp : (toInt (0.5 * (orig + dir.mul d).x + 1000)
        + toInt (0.5 * (orig + dir.mul d).z)) % 2 = 1
    · rw [if_pos (by omega), if_pos hp]
    · rw [if_neg (by omega), if_neg hp]
  · intro p q hpx hpz1 hpz2 hqx hqz1 hqz2 hstep
    obtain ⟨hp1, hp2⟩ := toInt_window p hpx hpz1 hpz2
    obtain ⟨hq1, hq2⟩ := toInt_window q hqx hqz1 hqz2
    have hne : tile_color p ≠ tile_color q := by
      apply tile_color_ne_of_succ
      rw [hp1, hp2, hq1, hq2]
      rcases hstep with ⟨h1, h2⟩ | ⟨h1, h2⟩
      · have he : (0.5 : F) * (p.x + 2) + 1000 = 0.5 * p.x + 1000 + 1 := by norm_num; ring
        rw [h1, h2, he, Int.floor_add_one]
        ring
      · have he : (0.5 : F) * (p.z + 2) = 0.5 * p.z + 1 := by norm_num; ring
        rw [h1, h2, he, Int.ceil_add_one]
        ring
    exact ⟨hne, fun h => hne h.symm⟩

/-- The witness of C17: the window points `(0,-4,-20)` and `(2,-4,-20)`. -/
theorem tile_color_alternates_witness :
    tile_color (⟨0, -4, -20⟩ : Vec3 ℝ) ≠ tile_color (⟨2, -4, -20⟩ : Vec3 ℝ) :=
  ((tile_color_alternates Real.sqrt ⟨0, 0, 0⟩ ⟨0, 0, 1⟩ [] 0 0 Material.default).2
    ⟨0, -4, -20⟩ ⟨2, -4, -20⟩ (by norm_num [abs_lt]) (by norm_num) (by norm_num)
    (by norm_num [abs_lt]) (by norm_num) (by norm_num) (Or.inl ⟨by norm_num, rfl⟩)).1

/-- The counterexample to C18 as stated, in binary32: for the scene of `main` and the
primary ray of the pixel `i = 314`, `j = 478` (origin `(0,0,0)`, direction the normalised
`pixel_dir32`) the plane test accepts the plane at `d = 31.1626110...`, and the returned
hit point is `(-8.35978794..., -3.99999976..., -29.7526874...)`: its `y` is
`-16777215 * 2^-22`, not `-4`. -/
theorem plane_hit32_off_plane :
    plane_accepted32 ⟨0, 0, 0⟩ pixel_dir32.normalize
        (scan_spheres32 ⟨0, 0, 0⟩ pixel_dir32.normalize main_spheres32 ⟨0, 0, 0⟩ ⟨0, 0, 0⟩
          Material32.default).spheres_dist
      = some ⟨Flt.fin false 16338183 (-19)⟩ ∧
    (scene_intersect32 ⟨0, 0, 0⟩ pixel_dir32.normalize main_spheres32 ⟨0, 0, 0⟩ ⟨0, 0, 0⟩
        Material32.default).ret = true ∧
    (scene_intersect32 ⟨0, 0, 0⟩ pixel_dir32.normalize main_spheres32 ⟨0, 0, 0⟩ ⟨0, 0, 0⟩
        Material32.default).hit
      = ⟨⟨Flt.fin true 8765873 (-20)⟩, ⟨Flt.fin true 16777215 (-22)⟩,
          ⟨Flt.fin true 15598977 (-19)⟩⟩ ∧
    (⟨Flt.fin true 16777215 (-22)⟩ : F32) ≠ -4 ∧
    F32.toRat ⟨Flt.fin true 16777215 (-22)⟩ ≠ -4 := by
  decide!

/-- C18, as the code has it. In binary32, whenever the plane test of `scene_intersect`
accepts the plane at the distance `d`: `fabs(dir.y) > 1e-3`, so `dir.y` is neither a zero
nor NaN and the division is not by zero; `d > 0`; the returned hit point is the computed
`orig + dir*d`, with `|x| < 10` and `-30 < z < -10`; its `y` is the rounded
`orig.y + dir.y*d`. In exact arithmetic that `y` is `-4` exactly; in binary32 it is `-4`
up to rounding only. -/
theorem plane_hit_in_window :
    (∀ (orig dir : Vec3f) (spheres : List Sphere32) (hit N : Vec3f) (material : Material32)
        (d : F32),
      plane_accepted32 orig dir
        (scan_spheres32 orig dir spheres hit N material).spheres_dist = some d →
      (F32.abs dir.y).toF64 > 1e-3 ∧ dir.y.val ≠ Flt.nan ∧ (∀ s, dir.y.val ≠ Flt.zero s) ∧
      0 < d ∧
      (scene_intersect32 orig dir spheres hit N material).hit = orig + dir.mul d ∧
      (scene_intersect32 orig dir spheres hit N material).hit.y = orig.y + dir.y * d ∧
      F32.abs (scene_intersect32 orig dir spheres hit N material).hit.x < 10 ∧
      -30 < (scene_intersect32 orig dir spheres hit N material).hit.z ∧
      (scene_intersect32 orig dir spheres hit N material).hit.z < -10) ∧
    (∀ (F : Type) [LinearOrderedField F] [FloorRing F] (sqrtf : F → F)
        (orig dir : Vec3 F) (spheres : List (Sphere F)) (hit N : Vec3 F)
        (material : Material F) (d : F),
      plane_accepted orig dir
        (scan_spheres sqrtf orig dir spheres hit N material).spheres_dist = some d →
      |dir.y| > 1e-3 ∧ dir.y ≠ 0 ∧ 0 < d ∧
      (scene_intersect sqrtf orig dir spheres hit N material).hit = orig + dir.mul d ∧
      (scene_intersect sqrtf orig dir spheres hit N material).hit.y = -4 ∧
      |(scene_intersect sqrtf orig dir spheres hit N material).hit.x| < 10 ∧
      -30 < (scene_intersect sqrtf orig dir spheres hit N material).hit.z ∧
      (scene_intersect sqrtf orig dir spheres hit N material).hit.z < -10) := by
  constructor
  · intro orig dir spheres hit N material d h
    rw [scene_intersect32_of_plane_accepted orig dir spheres hit N material d h]
    obtain ⟨hg, -, hpos, hx, hz1, hz2, -⟩ := (plane_accepted32_eq_some_iff orig dir _ d).mp h
    exact ⟨hg, (plane_guard32 _ hg).1, (plane_guard32 _ hg).2, hpos, rfl, rfl, hx, hz2, hz1⟩
  · intro F _ _ sqrtf orig dir spheres hit N material d h
    rw [scene_intersect_of_plane_accepted sqrtf orig dir spheres hit N material d h]
    obtain ⟨hv, -⟩ := (plane_accepted_eq_some_iff orig dir _ d).mp h
    obtain ⟨hg, hd, hpos, hx, hz1, hz2⟩ := (plane_visible_eq_some_iff orig dir d).mp hv
    have hne : dir.y ≠ 0 := by
      intro h0
      rw [h0, abs_zero] at hg
      norm_num at hg
    refine ⟨hg, hne, hpos, rfl, ?_, hx, hz2, hz1⟩
    simp only [Vec3.add_y, Vec3.mul_y]
    rw [hd]
    field_simp

/-- The witness of C18: the ray from `(0,0,-20)` straight down, with no sphere, meets
the plane at distance 4 in the point `(0,-4,-20)`, in binary32 (where every operation
on these values is exact) and in exact arithmetic. -/
theorem plane_hit_in_window_witness :
    (scene_intersect32 ⟨0, 0, -20⟩ ⟨0, -1, 0⟩ [] ⟨0, 0, 0⟩ ⟨0, 0, 0⟩ Material32.default).hit
      = ⟨0, 0, -20⟩ + Vec3f.mul ⟨0, -1, 0⟩ 4 ∧
    (scene_intersect32 ⟨0, 0, -20⟩ ⟨0, -1, 0⟩ [] ⟨0, 0, 0⟩ ⟨0, 0, 0⟩ Material32.default).hit
      = ⟨0, -4, -20⟩ ∧
    (scene_intersect Real.sqrt ⟨0, 0, -20⟩ ⟨0, -1, 0⟩ [] 0 0 Material.default).hit.y
      = -4 := by
  have hv : plane_visible (⟨0, 0, -20⟩ : Vec3 ℝ) ⟨0, -1, 0⟩ = some 4 := plane_visible_down_ray
  have hacc : plane_accepted (⟨0, 0, -20⟩ : Vec3 ℝ) ⟨0, -1, 0⟩
      (scan_spheres Real.sqrt ⟨0, 0, -20⟩ ⟨0, -1, 0⟩ [] 0 0
        Material.default).spheres_dist = some 4 :=
    (plane_accepted_eq_some_iff _ _ _ 4).mpr ⟨hv, lt_of_lt_of_le (by norm_num) FLT_MAX_ge⟩
  exact ⟨(plane_hit_in_window.1 ⟨0, 0, -20⟩ ⟨0, -1, 0⟩ [] ⟨0, 0, 0⟩ ⟨0, 0, 0⟩
      Material32.default 4 (by decide!)).2.2.2.2.1,
    by decide!,
    (plane_hit_in_window.2 ℝ Real.sqrt ⟨0, 0, -20⟩ ⟨0, -1, 0⟩ [] 0 0
      Material.default 4 hacc).2.2.2.2.1⟩

/-- The counterexample to C21 as stated, in binary32: the glass sphere of radius 2 at the
origin (no negative albedo component or colour channel; `albedo[0] = 0`) lit by two
lights of intensity `3e38` (not negative), seen along the ray from `(0,0,-10)` toward
`+z`. The ray hits the sphere at `(0,0,-2)`; both lights are unoccluded and add `3e38`
each, so the diffuse intensity overflows to `+inf`; `diffuse_color * inf * albedo[0]` is
`inf * 0`, NaN in every channel, and so is the colour returned at depth 0, whatever
`powf` returns: no channel is `≥ 0`. -/
theorem cast_ray32_nan_channels :
    (origin_sphere32 glass32).material.NotNeg ∧
    (0 : F32) ≤ huge_light32.intensity ∧
    scene_intersect32 ⟨0, 0, -10⟩ ⟨0, 0, 1⟩ [origin_sphere32 glass32] ⟨0, 0, 0⟩ ⟨0, 0, 0⟩
        Material32.default
      = ⟨true, ⟨0, 0, -2⟩, ⟨0, 0, -1⟩, glass32⟩ ∧
    [huge_light32, huge_light32].foldl
        (diffuse_step32 [origin_sphere32 glass32] ⟨0, 0, -2⟩ ⟨0, 0, -1⟩) 0
      = ⟨Flt.inf false⟩ ∧
    (∀ powf : F32 → F32 → F32,
      cast_ray32 powf ⟨0, 0, -10⟩ ⟨0, 0, 1⟩ [origin_sphere32 glass32]
        [huge_light32, huge_light32] 0 = Vec3f.nan) ∧
    ¬ (0 : F32) ≤ Vec3f.nan.x ∧ ¬ (0 : F32) ≤ Vec3f.nan.y ∧ ¬ (0 : F32) ≤ Vec3f.nan.z := by
  have hq : scene_intersect32 ⟨0, 0, -10⟩ ⟨0, 0, 1⟩ [origin_sphere32 glass32] ⟨0, 0, 0⟩
      ⟨0, 0, 0⟩ Material32.default = ⟨true, ⟨0, 0, -2⟩, ⟨0, 0, -1⟩, glass32⟩ := by decide!
  have hD : [huge_light32, huge_light32].foldl
      (diffuse_step32 [origin_sphere32 glass32] ⟨0, 0, -2⟩ ⟨0, 0, -1⟩) 0
      = ⟨Flt.inf false⟩ := by decide!
  have hA : (glass32.diffuse_color.mul ⟨Flt.inf false⟩).mul glass32.albedo.a0 = Vec3f.nan := by
    decide!
  refine ⟨by decide!, by decide!, hq, hD, ?_, by decide!, by decide!, by decide!⟩
  intro powf
  rw [cast_ray32_of_hit powf _ _ _ _ 0 (by norm_num) _ hq rfl]
  simp only [light_loop32_fst, hD, hA, Vec3f.nan_vec_add]

/-- C21, as the code has it. In binary32, in a scene whose sphere materials have no
negative albedo component or diffuse colour channel and whose lights have no negative
intensity, no channel of the colour returned by `cast_ray` is negative, for every ray and
every depth: each channel is `≥ 0` (possibly `+inf`) or NaN; `powf` is taken to return no
negative value for a base that is `+0` or above zero, as the power function does. In
exact arithmetic (no overflow, so no `inf * 0`) every channel is `≥ 0`, with `powf` taken
non-negative on a non-negative base. -/
theorem cast_ray_nonneg :
    (∀ (powf : F32 → F32 → F32), (∀ x y : F32, x = 0 ∨ 0 < x → ¬ powf x y < 0) →
      ∀ (spheres : List Sphere32) (lights : List Light32),
      (∀ s ∈ spheres, s.material.NotNeg) → (∀ l ∈ lights, ¬ l.intensity < 0) →
      ∀ (orig dir : Vec3f) (depth : Nat),
        ¬ (cast_ray32 powf orig dir spheres lights depth).x < 0 ∧
        ¬ (cast_ray32 powf orig dir spheres lights depth).y < 0 ∧
        ¬ (cast_ray32 powf orig dir spheres lights depth).z < 0) ∧
    (∀ (F : Type) [LinearOrderedField F] [FloorRing F] (sqrtf : F → F) (powf : F → F → F),
      (∀ x y, 0 ≤ x → 0 ≤ powf x y) →
      ∀ (spheres : List (Sphere F)) (lights : List (Light F)),
      (∀ s ∈ spheres, s.material.Nonneg) → (∀ l ∈ lights, 0 ≤ l.intensity) →
      ∀ (orig dir : Vec3 F) (depth : Nat),
        0 ≤ (cast_ray sqrtf powf orig dir spheres lights depth).x ∧
        0 ≤ (cast_ray sqrtf powf orig dir spheres lights depth).y ∧
        0 ≤ (cast_ray sqrtf powf orig dir spheres lights depth).z) := by
  constructor
  · intro powf hpow spheres lights hsph hl orig dir depth
    by_cases hd : depth > 4
    · rw [cast_ray32_of_depth_gt powf orig dir spheres lights depth hd]
      exact background32_notNeg
    · exact cast_ray32_notNeg_aux powf hpow spheres lights hsph hl (5 - depth) depth
        (by omega) orig dir
  · intro F _ _ sqrtf powf hpow spheres lights hsph hl orig dir depth
    by_cases hd : depth > 4
    · rw [cast_ray_of_depth_gt sqrtf powf orig dir spheres lights depth hd]
      exact background_nonneg
    · exact cast_ray_nonneg_aux sqrtf powf hpow spheres lights hsph hl (5 - depth) depth
        (by omega) orig dir

/-- The witness of C21: the glass sphere of radius 2 at the origin lit by `near_light`,
seen along the ray from `(0,0,-10)` toward `+z` at depth 0; in binary32 with the stand-in
`powf_base` for `powf`, in exact arithmetic with the real power function. -/
theorem cast_ray_nonneg_witness :
    (¬ (cast_ray32 powf_base ⟨0, 0, -10⟩ ⟨0, 0, 1⟩ [origin_sphere32 glass32]
        [near_light32] 0).x < 0 ∧
      ¬ (cast_ray32 powf_base ⟨0, 0, -10⟩ ⟨0, 0, 1⟩ [origin_sphere32 glass32]
        [near_light32] 0).y < 0 ∧
      ¬ (cast_ray32 powf_base ⟨0, 0, -10⟩ ⟨0, 0, 1⟩ [origin_sphere32 glass32]
        [near_light32] 0).z < 0) ∧
    0 ≤ (cast_ray Real.sqrt Real.rpow ⟨0, 0, -10⟩ ⟨0, 0, 1⟩ [origin_sphere glass]
      [near_light] 0).x ∧
    0 ≤ (cast_ray Real.sqrt Real.rpow ⟨0, 0, -10⟩ ⟨0, 0, 1⟩ [origin_sphere glass]
      [near_light] 0).y ∧
    0 ≤ (cast_ray Real.sqrt Real.rpow ⟨0, 0, -10⟩ ⟨0, 0, 1⟩ [origin_sphere glass]
      [near_light] 0).z :=
  ⟨cast_ray_nonneg.1 powf_base powf_base_notNeg [origin_sphere32 glass32] [near_light32]
      (fun s hs => by rw [List.mem_singleton.mp hs]; decide!)
      (fun l hl => by rw [List.mem_singleton.mp hl]; decide!)
      ⟨0, 0, -10⟩ ⟨0, 0, 1⟩ 0,
   cast_ray_nonneg.2 ℝ Real.sqrt Real.rpow (fun _ y hx => Real.rpow_nonneg hx y)
    [origin_sphere glass] [near_light]
    (fun s hs => by
      rw [List.mem_singleton.mp hs]
      simp only [Material.Nonneg, Vec3.Nonneg, origin_sphere, glass]
      norm_num)
    (fun l hl => by
      rw [List.mem_singleton.mp hl]
      simp only [near_light]
      norm_num)
    ⟨0, 0, -10⟩ ⟨0, 0, 1⟩ 0⟩

end Claims

end TinyRayTracing
